import Mathlib

/-!
# analyzer::Manager and the IP-based packet analyzer

A shallow embedding of `src/analyzer/Manager.cc` (the port → analyzer-set maps, the
table of scheduled ("expected") analyzers, enabling and instantiating components, the
construction of the initial analyzer tree) and of the connection handling of
`src/packet_analysis/protocol/ip/IPBasedAnalyzer.cc`, followed by theorems about
them.

Modelling conventions

* `run_state::network_time` is a global `double` in the source.  It is passed
  explicitly as `network_time`; times and timeouts are exact integers (ticks),
  counted in units of which every finite `double` is an integer multiple.  The one
  arithmetic operation on times is the addition in `ScheduleAnalyzer`; it is exact
  in `Manager.ScheduleAnalyzer`, and `Manager.ScheduleAnalyzerBy` takes the rounding
  of the `double` addition as a parameter.  The value `0` is the source's
  "processing has not begun" marker (`! network_time`).
* A `ScheduledAnalyzer*` is an address together with the object it points to
  (the object is never written after construction).  Pointer comparison
  compares addresses.  The address returned by `new` is an argument
  (`new_addr`) of `ScheduleAnalyzer`.
* `assert(e)` aborts the process when `e` is false: functions that contain an
  assertion return `Option`, and `none` is the abort.
* `std::multimap` is the list of its entries in iteration order,
  `std::priority_queue` is the list of its elements in the order successive
  `top()`/`pop()` calls deliver them, `std::map` is the list of its entries,
  `std::set<Tag>` is a `Finset`, visited in increasing order of tag.
* The component registry (`plugin::ComponentManager`) is passed explicitly, next
  to the `Manager` tables.  Classes declared outside the two source files
  (`Component`, `Analyzer`, the session adapter, `Connection`, the session table)
  are records with the fields the source reads or writes; virtual methods and
  script-level configuration are parameters.
* Calls to the reporter and debug logging are not recorded.
-/

set_option linter.dupNamespace false

namespace Zeek

/-! ## Types declared outside `Manager.cc` -/

/-- Modelled from the spec: `analyzer::Tag` ("opaque, comparable, hashable identity
of an analyzer kind"); the class is declared outside the source files. -/
abbrev Tag := Nat

/-- The `tag_set` of the source, a `std::set<Tag>`. -/
abbrev tag_set := Finset Tag

/-- Modelled from the spec: `IPAddr`, declared outside the source files.  An address
is the 128-bit value of its IPv6 form (IPv4 addresses are stored IPv4-mapped), and
addresses are compared by that value. -/
abbrev IPAddr := Nat

/-- Modelled from the spec: the unspecified IPv4 address `0.0.0.0`, whose stored form is
the IPv4-mapped `::ffff:0.0.0.0`. -/
def IPAddr.v4_unspecified : IPAddr := 0xFFFF00000000

/-- Modelled from the spec: the unspecified IPv6 address `::`, the wildcard originator. -/
def IPAddr.v6_unspecified : IPAddr := 0

/-- Modelled from the spec: the `TransportProto` enumeration, declared outside the
source files ("one per transport (TCP, UDP)", "UDP/ICMP/other", "Unknown"). -/
inductive TransportProto where
  | TRANSPORT_UNKNOWN
  | TRANSPORT_TCP
  | TRANSPORT_UDP
  | TRANSPORT_ICMP
  deriving DecidableEq, Repr

/-- The integer value of a `TransportProto`, as taken by the `uint16_t _proto`
parameter of the `ConnIndex` constructor. -/
def TransportProto.toUInt16 : TransportProto → Nat
  | .TRANSPORT_UNKNOWN => 0
  | .TRANSPORT_TCP => 1
  | .TRANSPORT_UDP => 2
  | .TRANSPORT_ICMP => 3

/-- Modelled from the spec: the part of a `Connection` that `GetScheduled` reads:
`OrigAddr()`, `RespAddr()`, `RespPort()` (network byte order) and `ConnTransport()`. -/
structure Connection where
  orig_addr : IPAddr
  resp_addr : IPAddr
  resp_port : Nat
  proto : TransportProto
  deriving DecidableEq, Repr

/-- The `ntohs` of a little-endian host: swap the two bytes of a 16-bit value. -/
def ntohs (x : Nat) : Nat := (x % 256) * 256 + (x / 256) % 256

/-! ## `Manager::ConnIndex` -/

/-- The `Manager::ConnIndex` of the source: `(orig, resp, resp_p, proto)`. -/
structure ConnIndex where
  orig : IPAddr
  resp : IPAddr
  resp_p : Nat
  proto : Nat
  deriving DecidableEq, Repr

/-- `ConnIndex::operator<` (Manager.cc 45-60). -/
def ConnIndex.lt (a other : ConnIndex) : Bool :=
  if a.orig ≠ other.orig then decide (a.orig < other.orig)
  else if a.resp ≠ other.resp then decide (a.resp < other.resp)
  else if a.proto ≠ other.proto then decide (a.proto < other.proto)
  else if a.resp_p ≠ other.resp_p then decide (a.resp_p < other.resp_p)
  else false

/-- Key equivalence of the ordered containers: neither key is less than the other. -/
def ConnIndex.equiv (a b : ConnIndex) : Bool :=
  !(ConnIndex.lt a b) && !(ConnIndex.lt b a)

/-- The four-argument constructor `ConnIndex::ConnIndex` (Manager.cc 23-36): an
IPv4-unspecified originator is stored as the IPv6 unspecified address.  (Inside the
`ConnIndex` namespace the structure itself is written `Zeek.ConnIndex`.) -/
def ConnIndex.ConnIndex (_orig _resp : IPAddr) (_resp_p _proto : Nat) : Zeek.ConnIndex :=
  { orig := if _orig = IPAddr.v4_unspecified then IPAddr.v6_unspecified else _orig
    resp := _resp
    resp_p := _resp_p
    proto := _proto }

/-! ## Scheduled analyzers and the manager state -/

/-- The `ScheduledAnalyzer` record: `conn`, `analyzer`, `timeout` (absolute). -/
structure ScheduledAnalyzer where
  conn : ConnIndex
  analyzer : Tag
  timeout : Int
  deriving DecidableEq, Repr

/-- A `ScheduledAnalyzer*`: the address and the object stored there. -/
structure ScheduledAnalyzerPtr where
  addr : Nat
  obj : ScheduledAnalyzer
  deriving DecidableEq, Repr

/-- The `conns_map` of the source, `std::multimap<ConnIndex, ScheduledAnalyzer*>`. -/
abbrev conns_map := List (ConnIndex × ScheduledAnalyzerPtr)

/-- The `conns_timeout_queue` of the source, a `std::priority_queue` of
`ScheduledAnalyzer*`. -/
abbrev conns_queue := List ScheduledAnalyzerPtr

/-- The `analyzer_map_by_port` of the source, `std::map<uint32_t, tag_set*>`. -/
abbrev analyzer_map_by_port := List (Nat × tag_set)

/-- The fields of `analyzer::Manager` used by the port table and the scheduled table. -/
structure Manager where
  analyzers_by_port_tcp : analyzer_map_by_port
  analyzers_by_port_udp : analyzer_map_by_port
  conns : conns_map
  conns_by_timeout : conns_queue
  deriving DecidableEq

/-! ## Container operations -/

/-- Insertion into an ordered sequence at the upper bound: `x` goes in front of the
first element that is greater than `x`, hence after all elements equivalent to it. -/
def insertUpper {α : Type} (less : α → α → Bool) (x : α) : List α → List α
  | [] => [x]
  | y :: ys => if less x y then x :: y :: ys else y :: insertUpper less x ys

/-- `conns.insert(std::make_pair(k, a))` on the multimap. -/
def conns_map.insert (k : ConnIndex) (a : ScheduledAnalyzerPtr) (m : conns_map) : conns_map :=
  insertUpper (fun x y => ConnIndex.lt x.1 y.1) (k, a) m

/-- `conns.equal_range(c)`: the entries whose key is equivalent to `c`. -/
def conns_map.equal_range (m : conns_map) (c : ConnIndex) : conns_map :=
  m.filter (fun e => ConnIndex.equiv e.1 c)

/-- Modelled from the spec: the ordering of `conns_by_timeout` ("a min-heap ordered by
`timeout_abs`"); the comparer class is declared outside the source files.  `push`
places the new element after the elements whose timeout is not later than its own. -/
def conns_queue.push (a : ScheduledAnalyzerPtr) (q : conns_queue) : conns_queue :=
  insertUpper (fun x y => decide (x.obj.timeout < y.obj.timeout)) a q

/-- `m->find(port)` on a port map: the set stored under `port`, if any. -/
def analyzer_map_by_port.find (m : analyzer_map_by_port) (port : Nat) : Option tag_set :=
  match m with
  | [] => none
  | e :: es => if e.1 = port then some e.2 else analyzer_map_by_port.find es port

/-- `m->insert(std::make_pair(port, l))` on a port map (reached only when `find`
failed): the entry is placed in key order. -/
def analyzer_map_by_port.insert (port : Nat) (l : tag_set) (m : analyzer_map_by_port) :
    analyzer_map_by_port :=
  insertUpper (fun x y => decide (x.1 < y.1)) (port, l) m

/-- A write through the `tag_set*` obtained for `port`: the set stored under `port`
is replaced by `l`. -/
def analyzer_map_by_port.store (m : analyzer_map_by_port) (port : Nat) (l : tag_set) :
    analyzer_map_by_port :=
  match m with
  | [] => []
  | e :: es => if e.1 = port then (e.1, l) :: es else e :: analyzer_map_by_port.store es port l

/-! ## The port table (Manager.cc 255-285, 326-355) -/

/-- `Manager::LookupPort` (Manager.cc 326-355).  The result is the manager after the
call (an empty set may have been created) and the set the returned pointer refers to;
`none` is the null pointer. -/
def Manager.LookupPort (m : Manager) (proto : TransportProto) (port : Nat)
    (add_if_not_found : Bool) : Manager × Option tag_set :=
  match proto with
  | .TRANSPORT_TCP =>
    match m.analyzers_by_port_tcp.find port with
    | some l => (m, some l)
    | none =>
      if !add_if_not_found then (m, none)
      else ({ m with analyzers_by_port_tcp := m.analyzers_by_port_tcp.insert port ∅ }, some ∅)
  | .TRANSPORT_UDP =>
    match m.analyzers_by_port_udp.find port with
    | some l => (m, some l)
    | none =>
      if !add_if_not_found then (m, none)
      else ({ m with analyzers_by_port_udp := m.analyzers_by_port_udp.insert port ∅ }, some ∅)
  | _ => (m, none)

/-- The effect of modifying, through the pointer `LookupPort` returned for
`(proto, port)`, the set it points to: that set becomes `l`. -/
def Manager.storePort (m : Manager) (proto : TransportProto) (port : Nat) (l : tag_set) :
    Manager :=
  match proto with
  | .TRANSPORT_TCP => { m with analyzers_by_port_tcp := m.analyzers_by_port_tcp.store port l }
  | .TRANSPORT_UDP => { m with analyzers_by_port_udp := m.analyzers_by_port_udp.store port l }
  | _ => m

/-- `Manager::RegisterAnalyzerForPort(tag, proto, port)` (Manager.cc 255-269). -/
def Manager.RegisterAnalyzerForPort (m : Manager) (tag : Tag) (proto : TransportProto)
    (port : Nat) : Manager × Bool :=
  match m.LookupPort proto port true with
  | (m1, none) => (m1, false)
  | (m1, some l) => (m1.storePort proto port (insert tag l), true)

/-- `Manager::UnregisterAnalyzerForPort(tag, proto, port)` (Manager.cc 271-285). -/
def Manager.UnregisterAnalyzerForPort (m : Manager) (tag : Tag) (proto : TransportProto)
    (port : Nat) : Manager × Bool :=
  match m.LookupPort proto port true with
  | (m1, none) => (m1, true)
  | (m1, some l) => (m1.storePort proto port (l.erase tag), true)

/-! ## The scheduled table (Manager.cc 483-590) -/

/-- The `for` loop of `ExpireScheduledAnalyzers` (Manager.cc 497-515): among the
entries of `conns.equal_range(a->conn)`, the first whose pointer is `a` is erased.
`none` means that no entry was found, so that `assert(found)` fails. -/
def eraseFound (a : ScheduledAnalyzerPtr) : conns_map → Option conns_map
  | [] => none
  | e :: es =>
    if ConnIndex.equiv e.1 a.obj.conn && decide (e.2.addr = a.addr) then some es
    else (eraseFound a es).map (fun r => e :: r)

/-- The `while` loop of `ExpireScheduledAnalyzers` (Manager.cc 488-518), by recursion
on the queue: its head is `top()`, its tail the queue after `pop()`. -/
def expireLoop (network_time : Int) : conns_queue → conns_map → Option (conns_map × conns_queue)
  | [], conns => some (conns, [])
  | a :: rest, conns =>
    if a.obj.timeout > network_time then some (conns, a :: rest)
    else
      match eraseFound a conns with
      | none => none
      | some conns1 => expireLoop network_time rest conns1

/-- `Manager::ExpireScheduledAnalyzers` (Manager.cc 483-519); `none` is a failed
`assert(found)`. -/
def Manager.ExpireScheduledAnalyzers (m : Manager) (network_time : Int) : Option Manager :=
  if network_time = 0 then some m
  else
    match expireLoop network_time m.conns_by_timeout m.conns with
    | none => none
    | some (conns1, queue1) => some { m with conns := conns1, conns_by_timeout := queue1 }

/-- `Manager::ScheduleAnalyzer(orig, resp, resp_p, proto, analyzer, timeout)`
(Manager.cc 521-544).  `new_addr` is the address `new ScheduledAnalyzer` returns;
`none` is a failed assertion (`assert(timeout)` or the one inside the expiry). -/
def Manager.ScheduleAnalyzer (m : Manager) (network_time : Int) (orig resp : IPAddr)
    (resp_p : Nat) (proto : TransportProto) (analyzer : Tag) (timeout : Int)
    (new_addr : Nat) : Option Manager :=
  if network_time = 0 then some m
  else if timeout = 0 then none
  else
    match m.ExpireScheduledAnalyzers network_time with
    | none => none
    | some m1 =>
      let a : ScheduledAnalyzerPtr :=
        { addr := new_addr
          obj := { conn := ConnIndex.ConnIndex orig resp resp_p proto.toUInt16
                   analyzer := analyzer
                   timeout := network_time + timeout } }
      some { m1 with conns := m1.conns.insert a.obj.conn a
                     conns_by_timeout := m1.conns_by_timeout.push a }

/-- `Manager::GetScheduled` (Manager.cc 565-590).  The method is not `const`: the
result is the manager after the call together with the returned set. -/
def Manager.GetScheduled (m : Manager) (network_time : Int) (conn : Connection) :
    Manager × tag_set :=
  let c := ConnIndex.ConnIndex conn.orig_addr conn.resp_addr (ntohs conn.resp_port)
    conn.proto.toUInt16
  let result : tag_set :=
    (m.conns.equal_range c).foldl (fun r i => insert i.2.obj.analyzer r) ∅
  let c := { c with orig := IPAddr.v6_unspecified }
  let result : tag_set :=
    (m.conns.equal_range c).foldl
      (fun r i => if i.2.obj.timeout > network_time then insert i.2.obj.analyzer r else r) result
  (m, result)

/-! ## Invariant and reachable states of the scheduled table -/

/-- The dual-view invariant: every multimap entry is filed under the index of its
record, the multimap and the queue hold the same records, no record (address) occurs
twice, and the queue delivers records in order of timeout. -/
def Manager.DualView (m : Manager) : Prop :=
  (∀ e ∈ m.conns, e.1 = e.2.obj.conn) ∧
  (m.conns.map Prod.snd).Perm m.conns_by_timeout ∧
  (m.conns_by_timeout.map (fun p => p.addr)).Nodup ∧
  m.conns_by_timeout.Pairwise (fun p q => p.obj.timeout ≤ q.obj.timeout)

instance (m : Manager) : Decidable m.DualView := by
  unfold Manager.DualView; infer_instance

/-- The manager with an empty scheduled table. -/
def Manager.emptySched (tcp udp : analyzer_map_by_port) : Manager :=
  { analyzers_by_port_tcp := tcp, analyzers_by_port_udp := udp, conns := [], conns_by_timeout := [] }

/-- The states reached from an empty scheduled table by calls of `ScheduleAnalyzer` and
`ExpireScheduledAnalyzers` at arbitrary network times.  `new` returns an address that
no record alive at that moment (after the expiry inside the call) occupies. -/
inductive Manager.Reachable : Manager → Prop where
  | empty (tcp udp : analyzer_map_by_port) : Manager.Reachable (Manager.emptySched tcp udp)
  | schedule {m m' : Manager} (network_time : Int) (orig resp : IPAddr) (resp_p : Nat)
      (proto : TransportProto) (analyzer : Tag) (timeout : Int) (new_addr : Nat) :
      Manager.Reachable m →
      (∀ m1, m.ExpireScheduledAnalyzers network_time = some m1 →
        new_addr ∉ m1.conns_by_timeout.map (fun p => p.addr)) →
      m.ScheduleAnalyzer network_time orig resp resp_p proto analyzer timeout new_addr = some m' →
      Manager.Reachable m'
  | expire {m m' : Manager} (network_time : Int) :
      Manager.Reachable m →
      m.ExpireScheduledAnalyzers network_time = some m' →
      Manager.Reachable m'

/-- `Manager::ScheduleAnalyzer` (Manager.cc 521-544) with the rounding of the `double`
addition made explicit.  Times are counted in units of which every finite `double` is
an integer multiple, so that the exact sum of two times is an integer;
`run_state::network_time + timeout` evaluates to `rnd` of the exact sum, where `rnd`
maps a value to the `double` the addition rounds it to.  With `rnd` the identity this
is `Manager.ScheduleAnalyzer`. -/
def Manager.ScheduleAnalyzerBy (rnd : Int → Int) (m : Manager) (network_time : Int)
    (orig resp : IPAddr) (resp_p : Nat) (proto : TransportProto) (analyzer : Tag)
    (timeout : Int) (new_addr : Nat) : Option Manager :=
  if network_time = 0 then some m
  else if timeout = 0 then none
  else
    match m.ExpireScheduledAnalyzers network_time with
    | none => none
    | some m1 =>
      let a : ScheduledAnalyzerPtr :=
        { addr := new_addr
          obj := { conn := ConnIndex.ConnIndex orig resp resp_p proto.toUInt16
                   analyzer := analyzer
                   timeout := rnd (network_time + timeout) } }
      some { m1 with conns := m1.conns.insert a.obj.conn a
                     conns_by_timeout := m1.conns_by_timeout.push a }

/-- Modelled from the spec: the clock ("time is driven by a monotone `network_time`
variable updated by the dispatcher"; its value before processing begins is 0).
`m.ReachableAt rnd t` says that the table `m` is reached with the clock at `t`: the
clock starts at 0 with an empty scheduled table and never goes back, and
`ScheduleAnalyzer` (its addition rounding by `rnd`) and `ExpireScheduledAnalyzers` are
called at the time the clock shows.  `new` returns an address that no record alive at
that moment occupies. -/
inductive Manager.ReachableAt (rnd : Int → Int) : Manager → Int → Prop where
  | start (tcp udp : analyzer_map_by_port) :
      Manager.ReachableAt rnd (Manager.emptySched tcp udp) 0
  | advance {m : Manager} {t t' : Int} :
      Manager.ReachableAt rnd m t → t ≤ t' → Manager.ReachableAt rnd m t'
  | schedule {m m' : Manager} {t : Int} (orig resp : IPAddr) (resp_p : Nat)
      (proto : TransportProto) (analyzer : Tag) (timeout : Int) (new_addr : Nat) :
      Manager.ReachableAt rnd m t →
      (∀ m1, m.ExpireScheduledAnalyzers t = some m1 →
        new_addr ∉ m1.conns_by_timeout.map (fun p => p.addr)) →
      m.ScheduleAnalyzerBy rnd t orig resp resp_p proto analyzer timeout new_addr = some m' →
      Manager.ReachableAt rnd m' t
  | expire {m m' : Manager} {t : Int} :
      Manager.ReachableAt rnd m t →
      m.ExpireScheduledAnalyzers t = some m' →
      Manager.ReachableAt rnd m' t

/-- A table with two records filed under the same index, with timeouts 15 and 25. -/
def exampleManagerTwo : Manager :=
  ⟨[], [],
   [(⟨1, 2, 3, 1⟩, ⟨100, ⟨1, 2, 3, 1⟩, 7, 15⟩), (⟨1, 2, 3, 1⟩, ⟨101, ⟨1, 2, 3, 1⟩, 8, 25⟩)],
   [⟨100, ⟨1, 2, 3, 1⟩, 7, 15⟩, ⟨101, ⟨1, 2, 3, 1⟩, 8, 25⟩]⟩

/-- A rounding that keeps the multiples of 8 and maps every other value to the multiple
of 8 below it: a number format in which the times near 16 are 8 units apart. -/
def exampleRounding (x : Int) : Int := x / 8 * 8

/-! ## The component registry (Manager.cc 145-232, 287-324) -/

/-- Modelled from the spec: the default-constructed `Tag()`.  It is the one tag that
tests false (`! tag`); `GetComponentTag` returns it for a name that is not registered. -/
def Tag.unset : Tag := 0

/-- Modelled from the spec: the classes of analyzer objects the tree builder meets
("transport roots (TCP root), protocol-identification probes (PIA), app-layer
analyzers, and per-packet observers (connection-size, TCP stats, stepping-stone
detector)"); `other n` stands for the class a component factory instantiates. -/
inductive AnalyzerClass where
  | TCP_Analyzer
  | PIA_TCP
  | SteppingStone_Analyzer
  | TCPStats_Analyzer
  | ConnSize_Analyzer
  | other (n : Nat)
  deriving DecidableEq, Repr

/-- Modelled from the spec: an `Analyzer` object: its class and its analyzer tag
(`GetAnalyzerTag()`, written by `SetAnalyzerTag`). -/
structure Analyzer where
  cls : AnalyzerClass
  tag : Tag
  deriving DecidableEq, Repr

/-- Modelled from the spec: `analyzer::Component`,
"{ tag, name, factory: (Connection) → Analyzer | null, enabled: bool }".  A missing
factory is `none`; a factory that yields null returns `none`. -/
structure Component where
  tag : Tag
  name : String
  factory : Option (Connection → Option Analyzer)
  enabled : Bool

/-- Modelled from the spec: the catalog kept by `plugin::ComponentManager`, the base
class of `analyzer::Manager`: the registered components. -/
abbrev ComponentManager := List Component

/-- Modelled from the spec: `ComponentManager::Lookup(tag)`
("lookup_by_tag(tag) → component?"): the component registered under `tag`. -/
def ComponentManager.Lookup (reg : ComponentManager) (tag : Tag) : Option Component :=
  match reg with
  | [] => none
  | c :: cs => if c.tag = tag then some c else ComponentManager.Lookup cs tag

/-- Modelled from the spec: `ComponentManager::GetComponentTag(name)`
("lookup_by_name(name) → component?"): the tag of the component registered under
`name`, the unset tag if there is none. -/
def ComponentManager.GetComponentTag (reg : ComponentManager) (name : String) : Tag :=
  match reg with
  | [] => Tag.unset
  | c :: cs => if c.name = name then c.tag else ComponentManager.GetComponentTag cs name

/-- Modelled from the spec: `p->SetEnabled(b)` on the pointer `Lookup(tag)` returned:
the `enabled` flag of that component is overwritten, nothing else. -/
def ComponentManager.SetEnabled (reg : ComponentManager) (tag : Tag) (b : Bool) :
    ComponentManager :=
  match reg with
  | [] => []
  | c :: cs =>
    if c.tag = tag then { c with enabled := b } :: cs
    else c :: ComponentManager.SetEnabled cs tag b

/-- `Manager::EnableAnalyzer(const Tag&)` (Manager.cc 145-156): the registry after the
call and the returned flag. -/
def Manager.EnableAnalyzer (reg : ComponentManager) (tag : Tag) : ComponentManager × Bool :=
  match reg.Lookup tag with
  | none => (reg, false)
  | some _ => (reg.SetEnabled tag true, true)

/-- `Manager::DisableAnalyzer(const Tag&)` (Manager.cc 171-182). -/
def Manager.DisableAnalyzer (reg : ComponentManager) (tag : Tag) : ComponentManager × Bool :=
  match reg.Lookup tag with
  | none => (reg, false)
  | some _ => (reg.SetEnabled tag false, true)

/-- `Manager::DisableAllAnalyzers` (Manager.cc 197-204). -/
def Manager.DisableAllAnalyzers (reg : ComponentManager) : ComponentManager :=
  reg.map (fun c => { c with enabled := false })

/-- `Manager::IsEnabled(const Tag&)` (Manager.cc 211-222). -/
def Manager.IsEnabled (reg : ComponentManager) (tag : Tag) : Bool :=
  if tag = Tag.unset then false
  else
    match reg.Lookup tag with
    | none => false
    | some p => p.enabled

/-- `Manager::InstantiateAnalyzer(const Tag&, Connection*)` (Manager.cc 287-318): the
registry after the call and the returned pointer (`none` is null).  The internal
warnings are not recorded. -/
def Manager.InstantiateAnalyzer (reg : ComponentManager) (tag : Tag) (conn : Connection) :
    ComponentManager × Option Analyzer :=
  match reg.Lookup tag with
  | none => (reg, none)
  | some c =>
    if !c.enabled then (reg, none)
    else
      match c.factory with
      | none => (reg, none)
      | some factory =>
        match factory conn with
        | none => (reg, none)
        | some a => (reg, some { a with tag := tag })

/-- The three tags `analyzer::Manager` caches (`analyzer_connsize`, `analyzer_stepping`,
`analyzer_tcpstats`). -/
structure CachedTags where
  analyzer_connsize : Tag
  analyzer_stepping : Tag
  analyzer_tcpstats : Tag
  deriving DecidableEq, Repr

/-- `Manager::InitPreScript` (Manager.cc 84-90). -/
def Manager.InitPreScript (reg : ComponentManager) : CachedTags :=
  { analyzer_connsize := reg.GetComponentTag "CONNSIZE"
    analyzer_stepping := reg.GetComponentTag "STEPPINGSTONE"
    analyzer_tcpstats := reg.GetComponentTag "TCPSTATS" }

/-- The component registered under `tag` exists and is enabled (for the unset tag this
differs from `IsEnabled`, which answers false at once). -/
def ComponentManager.EnabledFor (reg : ComponentManager) (tag : Tag) : Bool :=
  match reg.Lookup tag with
  | none => false
  | some c => c.enabled

/-! ## The analyzer tree (Manager.cc 357-481, 592-621) -/

/-- The elements of a `tag_set` in the order a loop from `begin()` to `end()` visits
them: increasing order of tag. -/
def tag_set.inOrder (s : tag_set) : List Tag :=
  (List.range (s.sup id + 1)).filter (fun t => decide (t ∈ s))

/-- Modelled from the spec: the events the core enqueues on a connection
("`new_connection`, `connection_reused`, ..., `scheduled_analyzer_applied`");
`scheduled_analyzer_applied` carries the connection and the tag. -/
inductive Event where
  | scheduled_analyzer_applied (conn : Connection) (tag : Tag)
  | new_connection
  | connection_reused
  deriving DecidableEq, Repr

/-- The lifecycle calls made on a root: `Init()` and `InitChildren()`. -/
inductive LifecycleCall where
  | Init
  | InitChildren
  deriving DecidableEq, Repr

/-- Modelled from the spec: a session adapter, "the transport-level root of an analyzer
tree": the root analyzer itself, the children attached with `AddChildAnalyzer` (in the
order attached), those of them that were attached with `init` set, the packet-level
children attached with `AddChildPacketAnalyzer`, whether `EnableReassembly` was called,
and the lifecycle calls received so far. -/
structure SessionAdapter where
  analyzer : Analyzer
  children : List Analyzer
  init_children : List Analyzer
  packet_children : List Analyzer
  reassembly : Bool
  calls : List LifecycleCall
  deriving DecidableEq, Repr

/-- Modelled from the spec: a newly constructed root of the given class: no children,
reassembly off, no lifecycle call yet. -/
def SessionAdapter.new (analyzer : Analyzer) : SessionAdapter :=
  { analyzer := analyzer, children := [], init_children := [], packet_children := [],
    reassembly := false, calls := [] }

/-- Modelled from the spec: `AddChildAnalyzer(analyzer, init)` ("add_child(analyzer,
init)"): the analyzer becomes the last child. -/
def SessionAdapter.AddChildAnalyzer (p : SessionAdapter) (analyzer : Analyzer) (init : Bool) :
    SessionAdapter :=
  { p with children := p.children ++ [analyzer]
           init_children := if init then p.init_children ++ [analyzer] else p.init_children }

/-- Modelled from the spec: `AddChildPacketAnalyzer(analyzer)` ("add_packet_child"). -/
def SessionAdapter.AddChildPacketAnalyzer (p : SessionAdapter) (analyzer : Analyzer) :
    SessionAdapter :=
  { p with packet_children := p.packet_children ++ [analyzer] }

/-- Modelled from the spec: `GetChildren()`, the children attached so far. -/
def SessionAdapter.GetChildren (p : SessionAdapter) : List Analyzer := p.children

/-- Modelled from the spec: `EnableReassembly()` on the TCP root. -/
def SessionAdapter.EnableReassembly (p : SessionAdapter) : SessionAdapter :=
  { p with reassembly := true }

/-- Modelled from the spec: `Init()` on a root. -/
def SessionAdapter.Init (p : SessionAdapter) : SessionAdapter :=
  { p with calls := p.calls ++ [LifecycleCall.Init] }

/-- Modelled from the spec: `InitChildren()` on a root. -/
def SessionAdapter.InitChildren (p : SessionAdapter) : SessionAdapter :=
  { p with calls := p.calls ++ [LifecycleCall.InitChildren] }

/-- Modelled from the spec: the part of a `Connection` the tree builder writes: the
session adapter and PIA recorded by `SetSessionAdapter`, the events enqueued on the
connection, and whether the `HookSetupAnalyzerTree` plugin hook ran for it. -/
structure ConnState where
  session_adapter : Option SessionAdapter
  pia : Option Analyzer
  events : List Event
  hook_setup_analyzer_tree : Bool
  deriving DecidableEq, Repr

/-- Modelled from the spec: a connection on which nothing has been installed yet. -/
def ConnState.fresh : ConnState :=
  { session_adapter := none, pia := none, events := [], hook_setup_analyzer_tree := false }

/-- A call on the root after `SetSessionAdapter(root, pia)`: the connection refers to
the same object, so the call shows in the adapter the connection holds. -/
def ConnState.onAdapter (cs : ConnState) (f : SessionAdapter → SessionAdapter) : ConnState :=
  { cs with session_adapter := cs.session_adapter.map f }

/-- Modelled from the spec: the configuration values and event handlers the tree
builder consults (spec section 6).  `tcp_contents` and `scheduled_analyzer_applied`
say whether a handler for that event exists; the three tables are the sets of their
indices, and a lookup (`FindOrDefault`) succeeds exactly for an index in the set. -/
structure Globals where
  dpd_ignore_ports : Bool
  dpd_reassemble_first_packets : Bool
  tcp_content_deliver_all_orig : Bool
  tcp_content_deliver_all_resp : Bool
  tcp_contents : Bool
  tcp_content_delivery_ports_orig : List (Nat × TransportProto)
  tcp_content_delivery_ports_resp : List (Nat × TransportProto)
  stp_skip_src : List IPAddr
  scheduled_analyzer_applied : Bool
  deriving DecidableEq, Repr

/-- The `for` loop of `ApplyScheduledAnalyzers` (Manager.cc 603-618) over the expected
tags, on the parent and the event queue of the connection. -/
def applyScheduledLoop (reg : ComponentManager) (g : Globals) (conn : Connection)
    (init : Bool) : List Tag → SessionAdapter → List Event → SessionAdapter × List Event
  | [], parent, events => (parent, events)
  | it :: rest, parent, events =>
    match (Manager.InstantiateAnalyzer reg it conn).2 with
    | none => applyScheduledLoop reg g conn init rest parent events
    | some analyzer =>
      applyScheduledLoop reg g conn init rest (parent.AddChildAnalyzer analyzer init)
        (if g.scheduled_analyzer_applied
          then events ++ [Event.scheduled_analyzer_applied conn it] else events)

/-- `Manager::ApplyScheduledAnalyzers(conn, init, parent)` (Manager.cc 592-621).  The
result is the returned flag, the object `parent` points to after the call (`none` when
null was passed), and the connection after the call. -/
def Manager.ApplyScheduledAnalyzers (m : Manager) (reg : ComponentManager) (g : Globals)
    (network_time : Int) (conn : Connection) (cs : ConnState) (init : Bool)
    (parent : Option SessionAdapter) : Bool × Option SessionAdapter × ConnState :=
  match parent with
  | some p =>
    let expected := (m.GetScheduled network_time conn).2
    let r := applyScheduledLoop reg g conn init expected.inOrder p cs.events
    (decide (expected.card ≠ 0), some r.1, { cs with events := r.2 })
  | none =>
    match cs.session_adapter with
    | none => (false, none, cs)
    | some p =>
      let expected := (m.GetScheduled network_time conn).2
      let r := applyScheduledLoop reg g conn init expected.inOrder p cs.events
      (decide (expected.card ≠ 0), none, { cs with session_adapter := some r.1, events := r.2 })

/-- The `for` loop over the tags registered for the responder port (Manager.cc
392-402). -/
def portLoop (reg : ComponentManager) (conn : Connection) :
    List Tag → SessionAdapter → SessionAdapter
  | [], root => root
  | j :: rest, root =>
    match (Manager.InstantiateAnalyzer reg j conn).2 with
    | none => portLoop reg conn rest root
    | some analyzer => portLoop reg conn rest (root.AddChildAnalyzer analyzer false)

/-- The selection of application-layer analyzers in `BuildInitialAnalyzerTree`
(Manager.cc 378-405; the same statements are IPBasedAnalyzer.cc 227-256) for `root`,
with `check_port` as set by the caller: the
scheduled analyzers and, if none was scheduled, those registered for the responder
port. -/
def Manager.selectAnalyzers (m : Manager) (reg : ComponentManager) (g : Globals)
    (network_time : Int) (conn : Connection) (cs : ConnState) (check_port : Bool)
    (root : SessionAdapter) : SessionAdapter × ConnState :=
  let r := m.ApplyScheduledAnalyzers reg g network_time conn cs false (some root)
  let scheduled := r.1
  let root := r.2.1.getD root
  let cs := r.2.2
  if !scheduled then
    if check_port && !g.dpd_ignore_ports then
      let resp_port := ntohs conn.resp_port
      match (m.LookupPort conn.proto resp_port false).2 with
      | some ports => (portLoop reg conn ports.inOrder root, cs)
      | none => (root, cs)
    else (root, cs)
  else (root, cs)

/-- The decision whether to reassemble the stream (Manager.cc 415-431), for a root with
`n_children` children. -/
def reassemblyDecision (g : Globals) (conn : Connection) (n_children : Nat) : Bool :=
  let reass := decide (n_children ≠ 0) || g.dpd_reassemble_first_packets ||
    g.tcp_content_deliver_all_orig || g.tcp_content_deliver_all_resp
  if g.tcp_contents && !reass then
    let dport := (ntohs conn.resp_port, TransportProto.TRANSPORT_TCP)
    let reass := if !reass then decide (dport ∈ g.tcp_content_delivery_ports_orig) else reass
    let reass := if !reass then decide (dport ∈ g.tcp_content_delivery_ports_resp) else reass
    reass
  else reass

/-- `Manager::BuildInitialAnalyzerTree` (Manager.cc 357-481): the returned flag and the
connection after the call.  An analyzer constructed directly (`new ...(conn)`) carries
the tag registered under the name of its class.  Only the TCP case sets `tcp`, so the
branch for a null `tcp` (464-469) is never taken; the internal warning of the default
case is not recorded. -/
def Manager.BuildInitialAnalyzerTree (m : Manager) (reg : ComponentManager) (tags : CachedTags)
    (g : Globals) (network_time : Int) (conn : Connection) (cs : ConnState) : Bool × ConnState :=
  match conn.proto with
  | .TRANSPORT_TCP =>
    let tcp := SessionAdapter.new ⟨.TCP_Analyzer, reg.GetComponentTag "TCP"⟩
    let pia : Analyzer := ⟨.PIA_TCP, reg.GetComponentTag "PIA_TCP"⟩
    let check_port := true
    let r := m.selectAnalyzers reg g network_time conn cs check_port tcp
    let tcp := r.1
    let cs := r.2
    let reass := reassemblyDecision g conn tcp.GetChildren.length
    let tcp := if reass then tcp.EnableReassembly else tcp
    let tcp :=
      if Manager.IsEnabled reg tags.analyzer_stepping then
        let resp_port := ntohs conn.resp_port
        if resp_port = 22 ∨ resp_port = 23 ∨ resp_port = 513 then
          if !decide (conn.orig_addr ∈ g.stp_skip_src) then
            tcp.AddChildAnalyzer
              ⟨.SteppingStone_Analyzer, reg.GetComponentTag "STEPPINGSTONE"⟩ false
          else tcp
        else tcp
      else tcp
    let tcp :=
      if Manager.IsEnabled reg tags.analyzer_tcpstats then
        tcp.AddChildPacketAnalyzer ⟨.TCPStats_Analyzer, reg.GetComponentTag "TCPSTATS"⟩
      else tcp
    let tcp :=
      if Manager.IsEnabled reg tags.analyzer_connsize then
        tcp.AddChildPacketAnalyzer ⟨.ConnSize_Analyzer, reg.GetComponentTag "CONNSIZE"⟩
      else tcp
    let root := tcp.AddChildAnalyzer pia true
    let cs := { cs with session_adapter := some root, pia := some pia }
    let cs := cs.onAdapter SessionAdapter.Init
    let cs := cs.onAdapter SessionAdapter.InitChildren
    let cs := { cs with hook_setup_analyzer_tree := true }
    (true, cs)
  | _ => (false, cs)

/-- The analyzers `InstantiateAnalyzer` yields for the tags of a list, in order; tags
for which it returns null are skipped. -/
def Manager.instantiateAll (reg : ComponentManager) (conn : Connection) (tags : List Tag) :
    List Analyzer :=
  tags.filterMap (fun t => (Manager.InstantiateAnalyzer reg t conn).2)

/-! ## Example data -/

/-- A registry with the built-in components and two application-layer components (HTTP,
tag 7, and FTP_DATA, tag 8) that have factories; TCPSTATS is disabled. -/
def exampleRegistry : ComponentManager :=
  [⟨1, "TCP", none, true⟩, ⟨2, "PIA_TCP", none, true⟩, ⟨3, "STEPPINGSTONE", none, true⟩,
   ⟨4, "TCPSTATS", none, false⟩, ⟨5, "CONNSIZE", none, true⟩,
   ⟨7, "HTTP", some (fun _ => some ⟨.other 7, 0⟩), true⟩,
   ⟨8, "FTP_DATA", some (fun _ => some ⟨.other 8, 0⟩), true⟩]

/-- A configuration with `dpd_reassemble_first_packets` off, a `tcp_contents` handler,
80/tcp in `tcp_content_delivery_ports_resp`, 192.0.2.5 in `stp_skip_src`, and a
`scheduled_analyzer_applied` handler. -/
def exampleGlobals : Globals :=
  { dpd_ignore_ports := false, dpd_reassemble_first_packets := false,
    tcp_content_deliver_all_orig := false, tcp_content_deliver_all_resp := false,
    tcp_contents := true, tcp_content_delivery_ports_orig := [],
    tcp_content_delivery_ports_resp := [(80, .TRANSPORT_TCP)],
    stp_skip_src := [0xFFFFC0000205], scheduled_analyzer_applied := true }

/-- A TCP connection from 10.0.0.1 to 10.0.0.2 with the given responder port (host
order). -/
def exampleConn (resp_port : Nat) : Connection :=
  ⟨0xFFFF0A000001, 0xFFFF0A000002, ntohs resp_port, .TRANSPORT_TCP⟩

/-- A manager with no port registered and nothing scheduled. -/
def exampleManagerEmpty : Manager := ⟨[], [], [], []⟩

/-- A manager with HTTP registered for 80/tcp and 20000/tcp and nothing scheduled. -/
def exampleManagerHttp : Manager := ⟨[(80, {7}), (20000, {7})], [], [], []⟩

/-- The manager `exampleManagerHttp` after FTP_DATA was scheduled at network time 100
for (10.0.0.1, 10.0.0.2, 20000/tcp) with timeout 30. -/
def exampleManagerScheduled : Manager :=
  ⟨[(80, {7}), (20000, {7})], [],
   [(⟨0xFFFF0A000001, 0xFFFF0A000002, 20000, 1⟩,
     ⟨100, ⟨0xFFFF0A000001, 0xFFFF0A000002, 20000, 1⟩, 8, 130⟩)],
   [⟨100, ⟨0xFFFF0A000001, 0xFFFF0A000002, 20000, 1⟩, 8, 130⟩]⟩

/-! ## The IP-based packet analyzer (IPBasedAnalyzer.cc 27-62, 180-272) -/

/-- Modelled from the spec: the `ConnTuple` the dispatcher builds from the headers of a
packet; ports are in network byte order. -/
structure ConnTuple where
  src_addr : IPAddr
  dst_addr : IPAddr
  src_port : Nat
  dst_port : Nat
  deriving DecidableEq, Repr

/-- Modelled from the spec: a packet, as far as the control flow of the dispatcher reads
it: the payload handed to `WantConnection` and `IsReuse`. -/
structure Packet where
  payload : List Nat
  deriving DecidableEq, Repr

/-- Modelled from the spec: a `zeek::Connection` object as the session table holds it:
its key, the endpoints and transport the analyzer manager reads (`conn`), the originator
port, and the part the tree builder writes (`state`). -/
structure Session where
  key : Nat
  conn : Connection
  orig_port : Nat
  state : ConnState
  deriving DecidableEq, Repr

/-- Modelled from the spec: the session table behind `session_mgr`. -/
abbrev SessionTable := List Session

/-- Modelled from the spec: `session_mgr->FindConnection(key)` ("find(key) →
connection?"). -/
def SessionTable.FindConnection (t : SessionTable) (key : Nat) : Option Session :=
  t.find? (fun c => decide (c.key = key))

/-- Modelled from the spec: `session_mgr->Insert(conn, false)`. -/
def SessionTable.Insert (t : SessionTable) (conn : Session) : SessionTable := t ++ [conn]

/-- Modelled from the spec: `session_mgr->Remove(conn)`: the connection found under the
key of `conn` leaves the table. -/
def SessionTable.Remove (t : SessionTable) (conn : Session) : SessionTable :=
  t.filter (fun c => decide (c.key ≠ conn.key))

/-- Modelled from the spec: `new Connection(key, t, id, flow_label, pkt)`: the source of
the tuple is the originator, nothing is installed yet, the transport is not yet set. -/
def Session.new (key : Nat) (id : ConnTuple) : Session :=
  { key := key
    conn := ⟨id.src_addr, id.dst_addr, id.dst_port, .TRANSPORT_UNKNOWN⟩
    orig_port := id.src_port
    state := ConnState.fresh }

/-- Modelled from the spec: `conn->SetTransport(transport)`. -/
def Session.SetTransport (c : Session) (transport : TransportProto) : Session :=
  { c with conn := { c.conn with proto := transport } }

/-- Modelled from the spec: `conn->FlipRoles()` ("swap roles"). -/
def Session.FlipRoles (c : Session) : Session :=
  { c with
    conn := { c.conn with orig_addr := c.conn.resp_addr, resp_addr := c.conn.orig_addr,
                          resp_port := c.orig_port }
    orig_port := c.conn.resp_port }

/-- Modelled from the spec: `conn->Event(ev, nullptr)`. -/
def Session.Event (c : Session) (ev : Event) : Session :=
  { c with state := { c.state with events := c.state.events ++ [ev] } }

/-- The `IPBasedAnalyzer` object: its transport and the virtual methods its subclasses
supply (`BuildConnTuple`, `WantConnection`, which also reports `flip`,
`MakeSessionAdapter`, `MakePIA`) together with `SessionAdapter::AddExtraAnalyzers`. -/
structure IPBasedAnalyzer where
  transport : TransportProto
  BuildConnTuple : Packet → Option ConnTuple
  WantConnection : Nat → Nat → List Nat → Bool × Bool
  MakeSessionAdapter : Connection → SessionAdapter
  MakePIA : Connection → Option Analyzer
  AddExtraAnalyzers : SessionAdapter → Connection → SessionAdapter

/-- What the dispatcher reads outside its own object: the analyzer manager
(`analyzer_mgr`: its tables, its components, its cached tags), the configuration, the
network time, the `new_plugin` switch, whether a `new_connection` handler exists, the
construction of a `ConnKey` from a tuple, and `Connection::IsReuse`. -/
structure Env where
  analyzer_mgr : Manager
  components : ComponentManager
  cached : CachedTags
  globals : Globals
  network_time : Int
  new_plugin : Bool
  new_connection : Bool
  ConnKey : ConnTuple → Nat
  IsReuse : Session → Packet → Bool

/-- `IPBasedAnalyzer::BuildSessionAnalyzerTree` (IPBasedAnalyzer.cc 219-272).  Lines
227-256 are the selection of `Manager.selectAnalyzers`. -/
def IPBasedAnalyzer.BuildSessionAnalyzerTree (self : IPBasedAnalyzer) (env : Env)
    (conn : Connection) (cs : ConnState) : Bool × ConnState :=
  let root := self.MakeSessionAdapter conn
  let pia := self.MakePIA conn
  let check_port := decide (conn.proto ≠ .TRANSPORT_ICMP)
  let r := env.analyzer_mgr.selectAnalyzers env.components env.globals env.network_time conn cs
    check_port root
  let root := r.1
  let cs := r.2
  let root := self.AddExtraAnalyzers root conn
  let root :=
    match pia with
    | some p => root.AddChildAnalyzer p true
    | none => root
  let cs := { cs with session_adapter := some root, pia := pia }
  let cs := cs.onAdapter SessionAdapter.Init
  let cs := cs.onAdapter SessionAdapter.InitChildren
  let cs := { cs with hook_setup_analyzer_tree := true }
  (true, cs)

/-- The connection object `NewConn` constructs (IPBasedAnalyzer.cc 190-195). -/
def IPBasedAnalyzer.makeConn (self : IPBasedAnalyzer) (id : ConnTuple) (key : Nat)
    (flip : Bool) : Session :=
  let conn := Session.new key id
  let conn := conn.SetTransport self.transport
  if flip then conn.FlipRoles else conn

/-- The tree building `NewConn` invokes (IPBasedAnalyzer.cc 197-211):
`BuildInitialAnalyzerTree` of the analyzer manager unless `new_plugin` is set, else
`BuildSessionAnalyzerTree`. -/
def IPBasedAnalyzer.buildTree (self : IPBasedAnalyzer) (env : Env) (conn : Session) :
    Bool × ConnState :=
  if !env.new_plugin then
    env.analyzer_mgr.BuildInitialAnalyzerTree env.components env.cached env.globals
      env.network_time conn.conn conn.state
  else self.BuildSessionAnalyzerTree env conn.conn conn.state

/-- `IPBasedAnalyzer::NewConn` (IPBasedAnalyzer.cc 180-217); `none` is the null
pointer. -/
def IPBasedAnalyzer.NewConn (self : IPBasedAnalyzer) (env : Env) (id : ConnTuple) (key : Nat)
    (pkt : Packet) : Option Session :=
  let src_h := ntohs id.src_port
  let dst_h := ntohs id.dst_port
  let w := self.WantConnection src_h dst_h pkt.payload
  if !w.1 then none
  else
    let conn := self.makeConn id key w.2
    let built := self.buildTree env conn
    if !built.1 then none
    else
      let conn := { conn with state := built.2 }
      let conn := if env.new_connection then conn.Event Event.new_connection else conn
      some conn

/-- `IPBasedAnalyzer::AnalyzePacket` (IPBasedAnalyzer.cc 27-141) as far as the session
table is concerned: the returned flag and the table after the call.  Once a connection
is at hand (line 64 onwards) the function delivers the packet to it and returns true;
that part, and `CheckEncapsulation` on a connection that is not reused, is not
modelled. -/
def IPBasedAnalyzer.AnalyzePacket (self : IPBasedAnalyzer) (env : Env)
    (session_mgr : SessionTable) (pkt : Packet) : Bool × SessionTable :=
  match self.BuildConnTuple pkt with
  | none => (false, session_mgr)
  | some tuple =>
    let key := env.ConnKey tuple
    match session_mgr.FindConnection key with
    | none =>
      match self.NewConn env tuple key pkt with
      | none => (false, session_mgr)
      | some conn => (true, session_mgr.Insert conn)
    | some conn =>
      if env.IsReuse conn pkt then
        let conn := conn.Event Event.connection_reused
        let session_mgr := session_mgr.Remove conn
        match self.NewConn env tuple key pkt with
        | none => (false, session_mgr)
        | some conn => (true, session_mgr.Insert conn)
      else (true, session_mgr)

/-- The tree root of the connection is installed and has been initialised: the
connection holds a session adapter whose last two lifecycle calls are `Init()` and
`InitChildren()`. -/
def Session.TreeReady (c : Session) : Prop :=
  match c.state.session_adapter with
  | some root => [LifecycleCall.Init, LifecycleCall.InitChildren] <:+ root.calls
  | none => False

instance (c : Session) : Decidable c.TreeReady := by
  unfold Session.TreeReady
  split <;> infer_instance

/-- A TCP packet analyzer that reads the connection tuple off the first four payload
numbers, accepts every connection without flipping, and whose session adapters start
without children. -/
def exampleAnalyzer : IPBasedAnalyzer :=
  { transport := .TRANSPORT_TCP
    BuildConnTuple := fun pkt =>
      match pkt.payload with
      | [a, b, c, d] => some ⟨a, b, c, d⟩
      | _ => none
    WantConnection := fun _ _ _ => (true, false)
    MakeSessionAdapter := fun _ => SessionAdapter.new ⟨.TCP_Analyzer, 1⟩
    MakePIA := fun _ => some ⟨.PIA_TCP, 2⟩
    AddExtraAnalyzers := fun root _ => root }

/-- An environment around `exampleManagerHttp` and `exampleRegistry` at network time
100, with the old tree builder in use and a `new_connection` handler. -/
def exampleEnv : Env :=
  { analyzer_mgr := exampleManagerHttp
    components := exampleRegistry
    cached := Manager.InitPreScript exampleRegistry
    globals := exampleGlobals
    network_time := 100
    new_plugin := false
    new_connection := true
    ConnKey := fun id => id.src_addr + id.dst_addr + id.src_port + id.dst_port
    IsReuse := fun _ _ => false }

/-! ## `ConnIndex::operator<` over an arbitrary address comparison; `CheckHeaderTrunc` -/

/-- `ConnIndex::operator<` (Manager.cc 45-60) with the comparison of addresses
(`IPAddr::operator<`, declared outside the source files) taken as the parameter `less`.
`ConnIndex.lt` is the instance for the order of the stored address values. -/
def ConnIndex.ltBy (less : IPAddr → IPAddr → Bool) (a other : Zeek.ConnIndex) : Bool :=
  if a.orig ≠ other.orig then less a.orig other.orig
  else if a.resp ≠ other.resp then less a.resp other.resp
  else if a.proto ≠ other.proto then decide (a.proto < other.proto)
  else if a.resp_p ≠ other.resp_p then decide (a.resp_p < other.resp_p)
  else false

/-- Modelled from the spec: `packet->ip_hdr->PayloadLen()`, "the IP payload length" of
the packet. -/
def Packet.PayloadLen (packet : Packet) : Nat := packet.payload.length

/-- `IPBasedAnalyzer::CheckHeaderTrunc` (IPBasedAnalyzer.cc 143-157): the returned flag
and the names of the weird notices emitted by `Weird(name, packet)`, in order. -/
def IPBasedAnalyzer.CheckHeaderTrunc (_self : IPBasedAnalyzer) (min_hdr_len remaining : Nat)
    (packet : Packet) : Bool × List String :=
  if packet.PayloadLen < min_hdr_len then (false, ["truncated_header"])
  else if remaining < min_hdr_len then (false, ["internally_truncated_header"])
  else (true, [])

/-- A TCP connection from 192.0.2.5, which `exampleGlobals` lists in `stp_skip_src`, to
10.0.0.2 with the given responder port (host order). -/
def exampleConnSkipped (resp_port : Nat) : Connection :=
  ⟨0xFFFFC0000205, 0xFFFF0A000002, ntohs resp_port, .TRANSPORT_TCP⟩

/-- The registry `exampleRegistry` with factories for PIA_TCP and STEPPINGSTONE as
well, so that `InstantiateAnalyzer` yields an analyzer for their tags (2 and 3). -/
def exampleRegistryFactories : ComponentManager :=
  [⟨1, "TCP", none, true⟩, ⟨2, "PIA_TCP", some (fun _ => some ⟨.PIA_TCP, 0⟩), true⟩,
   ⟨3, "STEPPINGSTONE", some (fun _ => some ⟨.SteppingStone_Analyzer, 0⟩), true⟩,
   ⟨4, "TCPSTATS", none, false⟩, ⟨5, "CONNSIZE", none, true⟩,
   ⟨7, "HTTP", some (fun _ => some ⟨.other 7, 0⟩), true⟩,
   ⟨8, "FTP_DATA", some (fun _ => some ⟨.other 8, 0⟩), true⟩]

/-- A manager with the STEPPINGSTONE tag (3) registered for 22/tcp and 80/tcp, the
PIA_TCP tag (2) registered for 8080/tcp, and nothing scheduled. -/
def exampleManagerBuiltin : Manager := ⟨[(22, {3}), (80, {3}), (8080, {2})], [], [], []⟩

/-! ## Lemmas on `ConnIndex` and on the loops of `GetScheduled` -/

theorem connIndex_lt_irrefl (a : ConnIndex) : ConnIndex.lt a a = false := by
  simp [ConnIndex.lt]

/-- Two keys are equivalent for `operator<` exactly when all four fields agree. -/
theorem connIndex_equiv_iff (a b : ConnIndex) : ConnIndex.equiv a b = true ↔ a = b := by
  constructor
  · intro h
    obtain ⟨ao, ar, ap, at_⟩ := a
    obtain ⟨bo, br, bp, bt⟩ := b
    simp only [ConnIndex.equiv, ConnIndex.lt, Bool.and_eq_true, Bool.not_eq_true'] at h
    obtain ⟨h1, h2⟩ := h
    have ho : ao = bo := by
      by_contra hne
      have hne2 : bo ≠ ao := fun h => hne h.symm
      simp only [ne_eq, hne, hne2, not_false_eq_true, if_true, decide_eq_false_iff_not] at h1 h2
      exact hne (Nat.le_antisymm (Nat.not_lt.1 h2) (Nat.not_lt.1 h1))
    subst ho
    have hr : ar = br := by
      by_contra hne
      have hne2 : br ≠ ar := fun h => hne h.symm
      simp only [ne_eq, hne, hne2, not_true_eq_false, not_false_eq_true, if_true, if_false,
        decide_eq_false_iff_not] at h1 h2
      exact hne (Nat.le_antisymm (Nat.not_lt.1 h2) (Nat.not_lt.1 h1))
    subst hr
    have ht : at_ = bt := by
      by_contra hne
      have hne2 : bt ≠ at_ := fun h => hne h.symm
      simp only [ne_eq, hne, hne2, not_true_eq_false, not_false_eq_true, if_true, if_false,
        decide_eq_false_iff_not] at h1 h2
      exact hne (Nat.le_antisymm (Nat.not_lt.1 h2) (Nat.not_lt.1 h1))
    subst ht
    have hp : ap = bp := by
      by_contra hne
      have hne2 : bp ≠ ap := fun h => hne h.symm
      simp only [ne_eq, hne, hne2, not_true_eq_false, not_false_eq_true, if_true, if_false,
        decide_eq_false_iff_not] at h1 h2
      exact hne (Nat.le_antisymm (Nat.not_lt.1 h2) (Nat.not_lt.1 h1))
    subst hp
    rfl
  · rintro rfl
    simp [ConnIndex.equiv, connIndex_lt_irrefl]

theorem conns_map.equal_range_eq (m : conns_map) (c : ConnIndex) :
    m.equal_range c = m.filter (fun e => decide (e.1 = c)) := by
  unfold conns_map.equal_range
  apply List.filter_congr
  intro e _
  rcases hd : decide (e.1 = c) with _ | _
  · have hne : ¬ e.1 = c := by simpa using hd
    rcases hq : ConnIndex.equiv e.1 c with _ | _
    · rfl
    · exact absurd ((connIndex_equiv_iff _ _).1 hq) hne
  · have he : e.1 = c := by simpa using hd
    exact (connIndex_equiv_iff _ _).2 he

/-- The first loop of `GetScheduled`: every tag of the range is inserted. -/
theorem foldl_insert_eq {α : Type} (f : α → Tag) (l : List α) (s : tag_set) :
    l.foldl (fun r i => insert (f i) r) s = s ∪ (l.map f).toFinset := by
  induction l generalizing s with
  | nil => simp
  | cons x xs ih =>
    simp only [List.foldl_cons, List.map_cons, List.toFinset_cons]
    rw [ih]
    ext t
    simp only [Finset.mem_union, Finset.mem_insert]
    tauto

/-- The second loop of `GetScheduled`: only the tags that pass the test are inserted. -/
theorem foldl_insert_if_eq {α : Type} (f : α → Tag) (p : α → Bool) (l : List α) (s : tag_set) :
    l.foldl (fun r i => if p i = true then insert (f i) r else r) s
      = s ∪ ((l.filter p).map f).toFinset := by
  induction l generalizing s with
  | nil => simp
  | cons x xs ih =>
    simp only [List.foldl_cons]
    rw [ih]
    by_cases hp : p x = true
    · simp only [hp, if_true, List.filter_cons_of_pos, List.map_cons, List.toFinset_cons]
      ext t
      simp only [Finset.mem_union, Finset.mem_insert]
      tauto
    · simp only [hp, if_false, Bool.false_eq_true]
      rw [List.filter_cons_of_neg hp]

/-- The set `GetScheduled` returns, written with list filters. -/
theorem Manager.GetScheduled_eq (m : Manager) (network_time : Int) (conn : Connection) :
    m.GetScheduled network_time conn =
      (m,
        ((m.conns.filter (fun e => decide (e.1 =
            ConnIndex.ConnIndex conn.orig_addr conn.resp_addr (ntohs conn.resp_port)
              conn.proto.toUInt16))).map (fun e => e.2.obj.analyzer)).toFinset ∪
        ((m.conns.filter (fun e => decide (e.1 =
            { orig := IPAddr.v6_unspecified, resp := conn.resp_addr,
              resp_p := ntohs conn.resp_port, proto := conn.proto.toUInt16 }) &&
            decide (network_time < e.2.obj.timeout))).map (fun e => e.2.obj.analyzer)).toFinset) := by
  unfold Manager.GetScheduled
  simp only [conns_map.equal_range_eq, gt_iff_lt]
  have h2 := fun (l : conns_map) (s : tag_set) =>
    foldl_insert_if_eq (fun i : ConnIndex × ScheduledAnalyzerPtr => i.2.obj.analyzer)
      (fun i => decide (network_time < i.2.obj.timeout)) l s
  simp only [decide_eq_true_eq] at h2
  rw [h2, foldl_insert_eq]
  simp only [List.filter_filter, Finset.empty_union, ConnIndex.ConnIndex]
  congr 2
  congr 2
  apply List.filter_congr
  intro e _
  rw [Bool.and_comm]

/-! ## Theorems: `GetScheduled` -/

/-- C1: for every state, network time and connection, `GetScheduled` returns exactly the
tags of the entries filed under the connection's own index (whatever their timeout)
together with the tags of the entries filed under the wildcard-originator index whose
timeout is later than the network time, and the manager (multimap and queue) is
returned unchanged. -/
theorem Manager.GetScheduled_exact (m : Manager) (network_time : Int) (conn : Connection) :
    (m.GetScheduled network_time conn).1 = m ∧
    ∀ t : Tag, t ∈ (m.GetScheduled network_time conn).2 ↔
      ∃ e ∈ m.conns, e.2.obj.analyzer = t ∧
        (e.1 = ConnIndex.ConnIndex conn.orig_addr conn.resp_addr (ntohs conn.resp_port)
                conn.proto.toUInt16 ∨
         (e.1 = { orig := IPAddr.v6_unspecified, resp := conn.resp_addr,
                  resp_p := ntohs conn.resp_port, proto := conn.proto.toUInt16 } ∧
          e.2.obj.timeout > network_time)) := by
  rw [Manager.GetScheduled_eq]
  refine ⟨rfl, fun t => ?_⟩
  simp only [Finset.mem_union, List.mem_toFinset, List.mem_map, List.mem_filter,
    decide_eq_true_eq, Bool.and_eq_true, gt_iff_lt]
  constructor
  · rintro (⟨e, ⟨he, hk⟩, ht⟩ | ⟨e, ⟨he, hk, hfresh⟩, ht⟩)
    · exact ⟨e, he, ht, Or.inl hk⟩
    · exact ⟨e, he, ht, Or.inr ⟨hk, hfresh⟩⟩
  · rintro ⟨e, he, ht, hk | ⟨hk, hfresh⟩⟩
    · exact Or.inl ⟨e, ⟨he, hk⟩, ht⟩
    · exact Or.inr ⟨e, ⟨he, hk, hfresh⟩, ht⟩

/-- C2 (as stated, refuted): a record scheduled at time 1 for the wildcard originator,
responder 10.0.0.2, port 9999/tcp, tag 7, relative timeout 9 has absolute timeout 10;
at network time 10 (so `t ≤ timeout_abs`) `GetScheduled` for the matching connection
from 10.0.0.1 returns the empty set. -/
theorem Manager.GetScheduled_at_timeout_counterexample :
    ((Manager.emptySched [] []).ScheduleAnalyzer 1 IPAddr.v4_unspecified 0xFFFF0A000002 9999
        .TRANSPORT_TCP 7 9 100).map
      (fun m => (m.conns.map (fun e => (e.2.obj.analyzer, e.2.obj.timeout)),
        (m.GetScheduled 10 ⟨0xFFFF0A000001, 0xFFFF0A000002, ntohs 9999, .TRANSPORT_TCP⟩).2))
      = some ([(7, 10)], ∅) := by
  decide

/-- C2 (amended): let an entry of the multimap be the record scheduled for
`(orig, resp, resp_p, proto)` and let a connection have that responder, responder port
and transport.  If the connection's originator is `orig`, `GetScheduled` returns the
record's tag at every network time; if `orig` is the unspecified address (wildcard),
it returns the tag at every network time strictly before the record's timeout. -/
theorem Manager.GetScheduled_contains (m : Manager) (network_time : Int) (conn : Connection)
    (e : ConnIndex × ScheduledAnalyzerPtr) (orig : IPAddr)
    (he : e ∈ m.conns)
    (hkey : e.1 = ConnIndex.ConnIndex orig conn.resp_addr (ntohs conn.resp_port)
      conn.proto.toUInt16)
    (hmatch : conn.orig_addr = orig ∨
      ((orig = IPAddr.v4_unspecified ∨ orig = IPAddr.v6_unspecified) ∧
        network_time < e.2.obj.timeout)) :
    e.2.obj.analyzer ∈ (m.GetScheduled network_time conn).2 := by
  rw [Manager.GetScheduled_eq]
  simp only [Finset.mem_union, List.mem_toFinset, List.mem_map, List.mem_filter,
    decide_eq_true_eq, Bool.and_eq_true]
  rcases hmatch with h | ⟨h, hfresh⟩
  · exact Or.inl ⟨e, ⟨he, by rw [hkey, h]⟩, rfl⟩
  · refine Or.inr ⟨e, ⟨he, ?_, hfresh⟩, rfl⟩
    rw [hkey]
    rcases h with h | h <;> subst h <;> rfl

theorem Manager.GetScheduled_contains_witness :
    (7 : Tag) ∈ (Manager.GetScheduled
      ⟨[], [], [(⟨0, 0xFFFF0A000002, 9999, 1⟩, ⟨100, ⟨0, 0xFFFF0A000002, 9999, 1⟩, 7, 10⟩)], []⟩ 9
      ⟨0xFFFF0A000001, 0xFFFF0A000002, ntohs 9999, .TRANSPORT_TCP⟩).2 :=
  Manager.GetScheduled_contains
    ⟨[], [], [(⟨0, 0xFFFF0A000002, 9999, 1⟩, ⟨100, ⟨0, 0xFFFF0A000002, 9999, 1⟩, 7, 10⟩)], []⟩ 9
    ⟨0xFFFF0A000001, 0xFFFF0A000002, ntohs 9999, .TRANSPORT_TCP⟩
    (⟨0, 0xFFFF0A000002, 9999, 1⟩, ⟨100, ⟨0, 0xFFFF0A000002, 9999, 1⟩, 7, 10⟩)
    IPAddr.v4_unspecified (by decide) (by decide) (Or.inr ⟨Or.inl rfl, by decide⟩)

/-- C3 (as stated, refuted): the only record is scheduled at time 1 for the wildcard
originator with relative timeout 9 (absolute timeout 10).  At network time 15 it is no
longer fresh, yet `GetScheduled` still returns its tag for a connection whose own
originator is the unspecified address, in the IPv6 form and in the IPv4 form.
Moreover a call of `ScheduleAnalyzer` at network time 0, as in the example of the
claim, creates no record at all, so nothing is returned at time 5. -/
theorem Manager.GetScheduled_wildcard_counterexample :
    ((Manager.emptySched [] []).ScheduleAnalyzer 1 IPAddr.v4_unspecified 0xFFFF0A000002 9999
        .TRANSPORT_TCP 7 9 100).map
      (fun m => (m.conns.map (fun e => (e.2.obj.analyzer, e.2.obj.timeout)),
        (m.GetScheduled 15 ⟨IPAddr.v6_unspecified, 0xFFFF0A000002, ntohs 9999, .TRANSPORT_TCP⟩).2,
        (m.GetScheduled 15 ⟨IPAddr.v4_unspecified, 0xFFFF0A000002, ntohs 9999, .TRANSPORT_TCP⟩).2))
      = some ([(7, 10)], {7}, {7}) ∧
    ((Manager.emptySched [] []).ScheduleAnalyzer 0 IPAddr.v4_unspecified 0xFFFF0A000002 9999
        .TRANSPORT_TCP 7 10 100).map
      (fun m => (m.conns.length,
        (m.GetScheduled 5 ⟨0xFFFF0A000001, 0xFFFF0A000002, ntohs 9999, .TRANSPORT_TCP⟩).2))
      = some (0, ∅) := by
  decide

/-- C3 (amended): a record scheduled into the empty table at a defined network time
`t0`, with the unspecified address (IPv4 or IPv6 form) as originator, is the only record
of the resulting table; for every connection with the same responder, responder port
and transport whose originator is not the unspecified address, `GetScheduled` returns
exactly the record's tag while `network_time < t0 + timeout`, and nothing afterwards. -/
theorem Manager.GetScheduled_wildcard_fresh (tcp udp : analyzer_map_by_port)
    (t0 timeout network_time : Int) (orig : IPAddr) (analyzer : Tag) (new_addr : Nat)
    (conn : Connection)
    (ht0 : t0 ≠ 0) (htimeout : timeout ≠ 0)
    (horig : orig = IPAddr.v4_unspecified ∨ orig = IPAddr.v6_unspecified)
    (hc4 : conn.orig_addr ≠ IPAddr.v4_unspecified)
    (hc6 : conn.orig_addr ≠ IPAddr.v6_unspecified) :
    ∃ m : Manager,
      (Manager.emptySched tcp udp).ScheduleAnalyzer t0 orig conn.resp_addr
        (ntohs conn.resp_port) conn.proto analyzer timeout new_addr = some m ∧
      m.conns.map (fun e => e.2.obj.timeout) = [t0 + timeout] ∧
      (m.GetScheduled network_time conn).2 =
        if network_time < t0 + timeout then {analyzer} else ∅ := by
  have hk : ConnIndex.ConnIndex orig conn.resp_addr (ntohs conn.resp_port) conn.proto.toUInt16
      = { orig := IPAddr.v6_unspecified, resp := conn.resp_addr,
          resp_p := ntohs conn.resp_port, proto := conn.proto.toUInt16 } := by
    rcases horig with h | h <;> subst h <;> rfl
  have hne : ¬ ({ orig := IPAddr.v6_unspecified, resp := conn.resp_addr,
                  resp_p := ntohs conn.resp_port, proto := conn.proto.toUInt16 } : ConnIndex)
      = ConnIndex.ConnIndex conn.orig_addr conn.resp_addr (ntohs conn.resp_port)
          conn.proto.toUInt16 := by
    intro h
    have h1 := congrArg ConnIndex.orig h
    simp only [ConnIndex.ConnIndex, hc4, if_false] at h1
    exact hc6 h1.symm
  have hs : (Manager.emptySched tcp udp).ScheduleAnalyzer t0 orig conn.resp_addr
      (ntohs conn.resp_port) conn.proto analyzer timeout new_addr =
      some { analyzers_by_port_tcp := tcp, analyzers_by_port_udp := udp,
             conns := [(ConnIndex.ConnIndex orig conn.resp_addr (ntohs conn.resp_port)
                          conn.proto.toUInt16,
                        ⟨new_addr, ConnIndex.ConnIndex orig conn.resp_addr (ntohs conn.resp_port)
                          conn.proto.toUInt16, analyzer, t0 + timeout⟩)],
             conns_by_timeout := [⟨new_addr, ConnIndex.ConnIndex orig conn.resp_addr
                          (ntohs conn.resp_port) conn.proto.toUInt16, analyzer, t0 + timeout⟩] } := by
    simp only [Manager.ScheduleAnalyzer, ht0, htimeout, if_false,
      Manager.ExpireScheduledAnalyzers, Manager.emptySched, expireLoop]
    rfl
  refine ⟨_, hs, rfl, ?_⟩
  rw [Manager.GetScheduled_eq]
  simp only [hk]
  by_cases hf : network_time < t0 + timeout
  · simp [List.filter_cons, hne, hf]
  · simp [List.filter_cons, hne, hf]

theorem Manager.GetScheduled_wildcard_fresh_witness :
    ∃ m : Manager,
      (Manager.emptySched [] []).ScheduleAnalyzer 1 IPAddr.v4_unspecified 0xFFFF0A000002
        (ntohs (ntohs 9999)) .TRANSPORT_TCP 7 9 100 = some m ∧
      m.conns.map (fun e => e.2.obj.timeout) = [1 + 9] ∧
      (m.GetScheduled 5 ⟨0xFFFF0A000001, 0xFFFF0A000002, ntohs 9999, .TRANSPORT_TCP⟩).2 =
        if (5 : Int) < 1 + 9 then {7} else ∅ :=
  Manager.GetScheduled_wildcard_fresh [] [] 1 9 5 IPAddr.v4_unspecified 7 100
    ⟨0xFFFF0A000001, 0xFFFF0A000002, ntohs 9999, .TRANSPORT_TCP⟩
    (by decide) (by decide) (Or.inl rfl) (by decide) (by decide)

/-! ## Theorems: rejected calls of `ScheduleAnalyzer` -/

/-- C7: a call of `ScheduleAnalyzer` while `network_time` is still zero returns with the
manager unchanged, whatever the arguments: no record is created. -/
theorem Manager.ScheduleAnalyzer_before_processing (m : Manager) (orig resp : IPAddr)
    (resp_p : Nat) (proto : TransportProto) (analyzer : Tag) (timeout : Int) (new_addr : Nat) :
    m.ScheduleAnalyzer 0 orig resp resp_p proto analyzer timeout new_addr = some m := by
  simp [Manager.ScheduleAnalyzer]

/-- C8: at a defined network time a call of `ScheduleAnalyzer` with timeout zero fails
`assert(timeout)`: the call does not complete and no state with an added record
results. -/
theorem Manager.ScheduleAnalyzer_zero_timeout (m : Manager) (network_time : Int)
    (orig resp : IPAddr) (resp_p : Nat) (proto : TransportProto) (analyzer : Tag)
    (new_addr : Nat) (hnow : network_time ≠ 0) :
    m.ScheduleAnalyzer network_time orig resp resp_p proto analyzer 0 new_addr = none := by
  simp [Manager.ScheduleAnalyzer, hnow]

theorem Manager.ScheduleAnalyzer_zero_timeout_witness :
    (Manager.emptySched [] []).ScheduleAnalyzer 100 0xFFFF0A000001 0xFFFF0A000002 20000
      .TRANSPORT_TCP 7 0 1 = none :=
  Manager.ScheduleAnalyzer_zero_timeout (Manager.emptySched [] []) 100 0xFFFF0A000001
    0xFFFF0A000002 20000 .TRANSPORT_TCP 7 1 (by decide)

/-! ## Lemmas on the two views of the scheduled table -/

theorem insertUpper_perm {α : Type} (less : α → α → Bool) (x : α) (l : List α) :
    (insertUpper less x l).Perm (x :: l) := by
  induction l with
  | nil => exact List.Perm.refl _
  | cons y ys ih =>
    unfold insertUpper
    split
    · exact List.Perm.refl _
    · exact (List.Perm.cons y ih).trans (List.Perm.swap x y ys)

/-- Pushing onto a queue that delivers in order of timeout keeps that order. -/
theorem conns_queue.push_pairwise (a : ScheduledAnalyzerPtr) (q : conns_queue)
    (h : q.Pairwise (fun p r => p.obj.timeout ≤ r.obj.timeout)) :
    (conns_queue.push a q).Pairwise (fun p r => p.obj.timeout ≤ r.obj.timeout) := by
  unfold conns_queue.push
  induction q with
  | nil => simp [insertUpper]
  | cons y ys ih =>
    have hy := List.pairwise_cons.1 h
    unfold insertUpper
    split
    · rename_i hlt
      have hlt2 : a.obj.timeout < y.obj.timeout := by simpa using hlt
      refine List.pairwise_cons.2 ⟨?_, h⟩
      intro b hb
      rcases List.mem_cons.1 hb with rfl | hb
      · exact le_of_lt hlt2
      · exact le_trans (le_of_lt hlt2) (hy.1 b hb)
    · rename_i hlt
      have hge : y.obj.timeout ≤ a.obj.timeout := by simpa using hlt
      refine List.pairwise_cons.2 ⟨?_, ih hy.2⟩
      intro b hb
      have hb2 := (insertUpper_perm _ a ys).mem_iff.1 hb
      rcases List.mem_cons.1 hb2 with rfl | hb2
      · exact hge
      · exact hy.1 b hb2

/-- When the record `a` is in the multimap, filed under its own index, and no other
entry has its address, the `for` loop of the expiry finds the entry of `a`, and erasing
it leaves the entries with another address. -/
theorem eraseFound_eq (a : ScheduledAnalyzerPtr) (l : conns_map)
    (hkeys : ∀ e ∈ l, e.1 = e.2.obj.conn)
    (hnd : (l.map (fun e => e.2.addr)).Nodup)
    (ha : a ∈ l.map Prod.snd) :
    eraseFound a l = some (l.filter (fun e => decide (e.2.addr ≠ a.addr))) := by
  induction l with
  | nil => simp at ha
  | cons e es ih =>
    have hnd2 := List.nodup_cons.1
      (show (e.2.addr :: es.map (fun e => e.2.addr)).Nodup from hnd)
    have hke : e.1 = e.2.obj.conn := hkeys e (List.mem_cons_self _ _)
    have ha1 := List.mem_cons.1 (show a ∈ e.2 :: es.map Prod.snd from ha)
    unfold eraseFound
    by_cases haddr : e.2.addr = a.addr
    · have hea : e.2 = a := by
        rcases ha1 with h | h
        · exact h.symm
        · exfalso
          apply hnd2.1
          rw [haddr]
          obtain ⟨e', he', rfl⟩ := List.mem_map.1 h
          exact List.mem_map.2 ⟨e', he', rfl⟩
      have hq : ConnIndex.equiv e.1 a.obj.conn = true := by
        rw [connIndex_equiv_iff, hke, hea]
      have hes : es.filter (fun e => decide (e.2.addr ≠ a.addr)) = es := by
        apply List.filter_eq_self.2
        intro e' he'
        have : e'.2.addr ≠ a.addr := by
          intro h
          apply hnd2.1
          rw [haddr, ← h]
          exact List.mem_map.2 ⟨e', he', rfl⟩
        simpa using this
      simp only [hq, haddr, decide_True, Bool.and_self, if_true]
      rw [List.filter_cons_of_neg (by simp [haddr]), hes]
    · have ha2 : a ∈ es.map Prod.snd := by
        rcases ha1 with h | h
        · exact absurd (by rw [h]) haddr
        · exact h
      simp only [haddr, decide_False, Bool.and_false, Bool.false_eq_true, if_false]
      rw [ih (fun e' he' => hkeys e' (List.mem_cons_of_mem _ he')) hnd2.2 ha2]
      rw [List.filter_cons_of_pos (by simpa using haddr)]
      rfl

/-- On a table that satisfies the dual-view invariant the `while` loop of the expiry
never fails its assertion; it leaves in both views exactly the records whose timeout
is later than the network time. -/
theorem expireLoop_eq (network_time : Int) (q : conns_queue) (l : conns_map)
    (hkeys : ∀ e ∈ l, e.1 = e.2.obj.conn)
    (hperm : (l.map Prod.snd).Perm q)
    (hnd : (q.map (fun p => p.addr)).Nodup)
    (hsorted : q.Pairwise (fun p r => p.obj.timeout ≤ r.obj.timeout)) :
    expireLoop network_time q l =
      some (l.filter (fun e => decide (network_time < e.2.obj.timeout)),
            q.filter (fun p => decide (network_time < p.obj.timeout))) := by
  induction q generalizing l with
  | nil =>
    have hl : l = [] := by simpa using hperm.eq_nil
    subst hl
    rfl
  | cons a rest ih =>
    have hs := List.pairwise_cons.1 hsorted
    have hn := List.nodup_cons.1
      (show (a.addr :: rest.map (fun p => p.addr)).Nodup from hnd)
    unfold expireLoop
    by_cases hlive : a.obj.timeout > network_time
    · have hq : ∀ p ∈ a :: rest, network_time < p.obj.timeout := by
        intro p hp
        rcases List.mem_cons.1 hp with rfl | hp
        · exact hlive
        · exact lt_of_lt_of_le hlive (hs.1 p hp)
      have hl : ∀ e ∈ l, network_time < e.2.obj.timeout := fun e he =>
        hq e.2 (hperm.mem_iff.1 (List.mem_map.2 ⟨e, he, rfl⟩))
      simp only [hlive, if_true]
      rw [List.filter_eq_self.2 (fun e he => by simpa using hl e he),
        List.filter_eq_self.2 (fun p hp => by simpa using hq p hp)]
    · have hdead : ¬ network_time < a.obj.timeout := hlive
      have ha : a ∈ l.map Prod.snd := hperm.mem_iff.2 (List.mem_cons_self _ _)
      have hndl : (l.map (fun e => e.2.addr)).Nodup := by
        have h1 : ((l.map Prod.snd).map (fun p => p.addr)).Perm
            ((a :: rest).map (fun p => p.addr)) := hperm.map _
        have h2 := h1.nodup_iff.2 hnd
        simpa [List.map_map] using h2
      -- an entry with the address of `a` is the entry of `a`
      have hsame : ∀ e ∈ l, e.2.addr = a.addr → e.2 = a := by
        intro e he hadd
        rcases List.mem_cons.1 (hperm.mem_iff.1 (List.mem_map.2 ⟨e, he, rfl⟩)) with h | h
        · exact h
        · exact absurd (hadd ▸ List.mem_map.2 ⟨e.2, h, rfl⟩) hn.1
      have hrest : rest.filter (fun p => decide (p.addr ≠ a.addr)) = rest := by
        apply List.filter_eq_self.2
        intro p hp
        have : p.addr ≠ a.addr := fun h => hn.1 (h ▸ List.mem_map.2 ⟨p, hp, rfl⟩)
        simpa using this
      have hperm2 : ((l.filter (fun e => decide (e.2.addr ≠ a.addr))).map Prod.snd).Perm rest := by
        have h1 : (l.filter (fun e => decide (e.2.addr ≠ a.addr))).map Prod.snd
            = (l.map Prod.snd).filter (fun p => decide (p.addr ≠ a.addr)) := by
          rw [List.filter_map]
          rfl
        have h2 := hperm.filter (fun p => decide (p.addr ≠ a.addr))
        rw [List.filter_cons_of_neg (by simp), hrest] at h2
        rw [h1]
        exact h2
      simp only [hlive, if_false, eraseFound_eq a l hkeys hndl ha]
      rw [ih (l.filter (fun e => decide (e.2.addr ≠ a.addr)))
        (fun e he => hkeys e (List.mem_of_mem_filter he)) hperm2 hn.2 hs.2]
      rw [List.filter_filter, List.filter_cons_of_neg (by simpa using hdead)]
      congr 2
      apply List.filter_congr
      intro e he
      by_cases hadd : e.2.addr = a.addr
      · have := hsame e he hadd
        simp [this, hdead]
      · simp [hadd]

/-- Keeping in both views the records that pass a test keeps the dual-view invariant. -/
theorem Manager.DualView_filter (m : Manager) (h : m.DualView) (p : ScheduledAnalyzerPtr → Bool) :
    Manager.DualView { m with conns := m.conns.filter (fun e => p e.2)
                              conns_by_timeout := m.conns_by_timeout.filter p } := by
  obtain ⟨hkeys, hperm, hnd, hsorted⟩ := h
  refine ⟨fun e he => hkeys e (List.mem_of_mem_filter he), ?_, ?_, ?_⟩
  · have h1 : (m.conns.filter (fun e => p e.2)).map Prod.snd
        = (m.conns.map Prod.snd).filter p := by
      rw [List.filter_map]
      rfl
    show ((m.conns.filter (fun e => p e.2)).map Prod.snd).Perm (m.conns_by_timeout.filter p)
    rw [h1]
    exact hperm.filter p
  · exact hnd.sublist ((List.filter_sublist _).map _)
  · exact hsorted.sublist (List.filter_sublist _)

/-- At a defined network time, on a table that satisfies the dual-view invariant,
`ExpireScheduledAnalyzers` completes and keeps exactly the records whose timeout is
later than the network time. -/
theorem Manager.ExpireScheduledAnalyzers_eq (m : Manager) (network_time : Int)
    (h : m.DualView) (hnow : network_time ≠ 0) :
    m.ExpireScheduledAnalyzers network_time =
      some { m with
        conns := m.conns.filter (fun e => decide (network_time < e.2.obj.timeout))
        conns_by_timeout :=
          m.conns_by_timeout.filter (fun p => decide (network_time < p.obj.timeout)) } := by
  obtain ⟨hkeys, hperm, hnd, hsorted⟩ := h
  simp only [Manager.ExpireScheduledAnalyzers, hnow, if_false,
    expireLoop_eq network_time m.conns_by_timeout m.conns hkeys hperm hnd hsorted]

/-- On a table that satisfies the dual-view invariant `ExpireScheduledAnalyzers`
completes at every network time and the invariant holds afterwards. -/
theorem Manager.ExpireScheduledAnalyzers_dualView (m : Manager) (network_time : Int)
    (h : m.DualView) :
    ∃ m', m.ExpireScheduledAnalyzers network_time = some m' ∧ m'.DualView := by
  by_cases hnow : network_time = 0
  · exact ⟨m, by simp [Manager.ExpireScheduledAnalyzers, hnow], h⟩
  · exact ⟨_, Manager.ExpireScheduledAnalyzers_eq m network_time h hnow,
      Manager.DualView_filter m h (fun p => decide (network_time < p.obj.timeout))⟩

/-- At a defined network time, with a non-zero timeout, on a table that satisfies the
dual-view invariant, `ScheduleAnalyzer` completes: the live records are kept and the
new record is inserted into both views. -/
theorem Manager.ScheduleAnalyzer_eq (m : Manager) (network_time : Int) (orig resp : IPAddr)
    (resp_p : Nat) (proto : TransportProto) (analyzer : Tag) (timeout : Int) (new_addr : Nat)
    (h : m.DualView) (hnow : network_time ≠ 0) (htimeout : timeout ≠ 0) :
    m.ScheduleAnalyzer network_time orig resp resp_p proto analyzer timeout new_addr =
      some { m with
        conns := conns_map.insert (ConnIndex.ConnIndex orig resp resp_p proto.toUInt16)
          ⟨new_addr, ConnIndex.ConnIndex orig resp resp_p proto.toUInt16, analyzer,
            network_time + timeout⟩
          (m.conns.filter (fun e => decide (network_time < e.2.obj.timeout)))
        conns_by_timeout := conns_queue.push
          ⟨new_addr, ConnIndex.ConnIndex orig resp resp_p proto.toUInt16, analyzer,
            network_time + timeout⟩
          (m.conns_by_timeout.filter (fun p => decide (network_time < p.obj.timeout))) } := by
  simp only [Manager.ScheduleAnalyzer, hnow, htimeout, if_false,
    Manager.ExpireScheduledAnalyzers_eq m network_time h hnow]

/-- Inserting a record with an unused address into both views keeps the invariant. -/
theorem Manager.DualView_insert (m : Manager) (h : m.DualView) (a : ScheduledAnalyzerPtr)
    (hfresh : a.addr ∉ m.conns_by_timeout.map (fun p => p.addr)) :
    Manager.DualView { m with conns := m.conns.insert a.obj.conn a
                              conns_by_timeout := m.conns_by_timeout.push a } := by
  obtain ⟨hkeys, hperm, hnd, hsorted⟩ := h
  have hp1 : (m.conns.insert a.obj.conn a).Perm ((a.obj.conn, a) :: m.conns) :=
    insertUpper_perm _ _ _
  have hp2 : (m.conns_by_timeout.push a).Perm (a :: m.conns_by_timeout) :=
    insertUpper_perm _ _ _
  refine ⟨?_, ?_, ?_, conns_queue.push_pairwise a _ hsorted⟩
  · intro e he
    rcases List.mem_cons.1 (hp1.mem_iff.1 he) with rfl | he
    · rfl
    · exact hkeys e he
  · exact ((hp1.map Prod.snd).trans (List.Perm.cons a hperm)).trans hp2.symm
  · have h1 : ((m.conns_by_timeout.push a).map (fun p => p.addr)).Perm
        (a.addr :: m.conns_by_timeout.map (fun p => p.addr)) := hp2.map _
    exact h1.nodup_iff.2 (List.nodup_cons.2 ⟨hfresh, hnd⟩)

/-- Every reachable state satisfies the dual-view invariant. -/
theorem Manager.Reachable.dualView {m : Manager} (h : m.Reachable) : m.DualView := by
  induction h with
  | empty tcp udp =>
    exact ⟨by simp [Manager.emptySched], by simp [Manager.emptySched],
      by simp [Manager.emptySched], by simp [Manager.emptySched]⟩
  | schedule network_time orig resp resp_p proto analyzer timeout new_addr _ hfresh hs ih =>
    by_cases hnow : network_time = 0
    · simp only [Manager.ScheduleAnalyzer, hnow, if_true, Option.some.injEq] at hs
      exact hs ▸ ih
    · by_cases htimeout : timeout = 0
      · simp [Manager.ScheduleAnalyzer, hnow, htimeout] at hs
      · rw [Manager.ScheduleAnalyzer_eq _ _ _ _ _ _ _ _ _ ih hnow htimeout] at hs
        have hf := hfresh _ (Manager.ExpireScheduledAnalyzers_eq _ network_time ih hnow)
        have hd := Manager.DualView_insert _
          (Manager.DualView_filter _ ih (fun p => decide (network_time < p.obj.timeout)))
          ⟨new_addr, ConnIndex.ConnIndex orig resp resp_p proto.toUInt16, analyzer,
            network_time + timeout⟩ hf
        exact (Option.some.inj hs) ▸ hd
  | expire network_time _ he ih =>
    obtain ⟨m2, h2, hd⟩ := Manager.ExpireScheduledAnalyzers_dualView _ network_time ih
    rw [h2] at he
    exact (Option.some.inj he) ▸ hd

/-! ## Theorems: the two views of the scheduled table -/

/-- C4: in every state reached from the empty scheduled table by calls of
`ScheduleAnalyzer` and `ExpireScheduledAnalyzers` at arbitrary network times, the
multimap and the queue hold the same records, no record occurs twice in either view,
and `ExpireScheduledAnalyzers` completes at every network time, that is, its
`assert(found)` does not fail. -/
theorem Manager.Reachable_views_agree (m : Manager) (h : m.Reachable) :
    (m.conns.map Prod.snd).Perm m.conns_by_timeout ∧
    (m.conns_by_timeout.map (fun p => p.addr)).Nodup ∧
    (m.conns.map (fun e => e.2.addr)).Nodup ∧
    ∀ network_time : Int, ∃ m', m.ExpireScheduledAnalyzers network_time = some m' := by
  have hd := Manager.Reachable.dualView h
  refine ⟨hd.2.1, hd.2.2.1, ?_, fun network_time => ?_⟩
  · have h1 : ((m.conns.map Prod.snd).map (fun p => p.addr)).Perm
        (m.conns_by_timeout.map (fun p => p.addr)) := hd.2.1.map _
    have h2 := h1.nodup_iff.2 hd.2.2.1
    simpa [List.map_map] using h2
  · obtain ⟨m', hm', _⟩ := Manager.ExpireScheduledAnalyzers_dualView m network_time hd
    exact ⟨m', hm'⟩

theorem Manager.Reachable_views_agree_witness :
    (List.map Prod.snd (Manager.mk [] []
        [(⟨1, 2, 3, 1⟩, ⟨100, ⟨1, 2, 3, 1⟩, 7, 15⟩)] [⟨100, ⟨1, 2, 3, 1⟩, 7, 15⟩]).conns).Perm
      (Manager.mk [] []
        [(⟨1, 2, 3, 1⟩, ⟨100, ⟨1, 2, 3, 1⟩, 7, 15⟩)] [⟨100, ⟨1, 2, 3, 1⟩, 7, 15⟩]).conns_by_timeout ∧
    ∀ network_time : Int, ∃ m', (Manager.mk [] []
        [(⟨1, 2, 3, 1⟩, ⟨100, ⟨1, 2, 3, 1⟩, 7, 15⟩)]
        [⟨100, ⟨1, 2, 3, 1⟩, 7, 15⟩]).ExpireScheduledAnalyzers network_time = some m' := by
  have hr : Manager.Reachable (Manager.mk [] []
      [(⟨1, 2, 3, 1⟩, ⟨100, ⟨1, 2, 3, 1⟩, 7, 15⟩)] [⟨100, ⟨1, 2, 3, 1⟩, 7, 15⟩]) :=
    Manager.Reachable.schedule 10 1 2 3 .TRANSPORT_TCP 7 5 100 (Manager.Reachable.empty [] [])
      (fun m1 h1 => by
        have h2 : (Manager.emptySched [] []).ExpireScheduledAnalyzers 10
            = some (Manager.emptySched [] []) := by decide
        rw [h2] at h1
        rw [← Option.some.inj h1]
        simp [Manager.emptySched])
      (by decide)
  have h := Manager.Reachable_views_agree _ hr
  exact ⟨h.1, h.2.2.2⟩

/-- With nothing rounded, `ScheduleAnalyzerBy` is `ScheduleAnalyzer`. -/
theorem Manager.ScheduleAnalyzerBy_id (m : Manager) (network_time : Int) (orig resp : IPAddr)
    (resp_p : Nat) (proto : TransportProto) (analyzer : Tag) (timeout : Int) (new_addr : Nat) :
    m.ScheduleAnalyzerBy (fun x => x) network_time orig resp resp_p proto analyzer timeout new_addr
      = m.ScheduleAnalyzer network_time orig resp resp_p proto analyzer timeout new_addr := rfl

/-- At a defined network time, with a non-zero timeout, on a table that satisfies the
dual-view invariant, `ScheduleAnalyzerBy` completes: the live records are kept and the
new record, whose timeout is the rounded sum, is inserted into both views. -/
theorem Manager.ScheduleAnalyzerBy_eq (rnd : Int → Int) (m : Manager) (network_time : Int)
    (orig resp : IPAddr) (resp_p : Nat) (proto : TransportProto) (analyzer : Tag)
    (timeout : Int) (new_addr : Nat)
    (h : m.DualView) (hnow : network_time ≠ 0) (htimeout : timeout ≠ 0) :
    m.ScheduleAnalyzerBy rnd network_time orig resp resp_p proto analyzer timeout new_addr =
      some { m with
        conns := conns_map.insert (ConnIndex.ConnIndex orig resp resp_p proto.toUInt16)
          ⟨new_addr, ConnIndex.ConnIndex orig resp resp_p proto.toUInt16, analyzer,
            rnd (network_time + timeout)⟩
          (m.conns.filter (fun e => decide (network_time < e.2.obj.timeout)))
        conns_by_timeout := conns_queue.push
          ⟨new_addr, ConnIndex.ConnIndex orig resp resp_p proto.toUInt16, analyzer,
            rnd (network_time + timeout)⟩
          (m.conns_by_timeout.filter (fun p => decide (network_time < p.obj.timeout))) } := by
  simp only [Manager.ScheduleAnalyzerBy, hnow, htimeout, if_false,
    Manager.ExpireScheduledAnalyzers_eq m network_time h hnow]

/-- Every state reached under the monotone clock satisfies the dual-view invariant,
however the addition rounds. -/
theorem Manager.ReachableAt.keeps_dual_view {rnd : Int → Int} {m : Manager} {t : Int}
    (h : m.ReachableAt rnd t) : m.DualView := by
  induction h with
  | start tcp udp =>
    exact ⟨by simp [Manager.emptySched], by simp [Manager.emptySched],
      by simp [Manager.emptySched], by simp [Manager.emptySched]⟩
  | advance _ _ ih => exact ih
  | @schedule m m' t orig resp resp_p proto analyzer timeout new_addr _ hfresh hs ih =>
    by_cases hnow : t = 0
    · simp only [Manager.ScheduleAnalyzerBy, hnow, if_true, Option.some.injEq] at hs
      exact hs ▸ ih
    · by_cases htimeout : timeout = 0
      · simp [Manager.ScheduleAnalyzerBy, hnow, htimeout] at hs
      · rw [Manager.ScheduleAnalyzerBy_eq rnd _ _ _ _ _ _ _ _ _ ih hnow htimeout] at hs
        have hf := hfresh _ (Manager.ExpireScheduledAnalyzers_eq _ t ih hnow)
        have hd := Manager.DualView_insert _
          (Manager.DualView_filter _ ih (fun p => decide (t < p.obj.timeout)))
          ⟨new_addr, ConnIndex.ConnIndex orig resp resp_p proto.toUInt16, analyzer,
            rnd (t + timeout)⟩ hf
        exact (Option.some.inj hs) ▸ hd
  | @expire m m' t _ he ih =>
    obtain ⟨m2, h2, hd⟩ := Manager.ExpireScheduledAnalyzers_dualView _ t ih
    rw [h2] at he
    exact (Option.some.inj he) ▸ hd

/-- The monotone clock never shows a negative time. -/
theorem Manager.ReachableAt.clock_nonneg {rnd : Int → Int} {m : Manager} {t : Int}
    (h : m.ReachableAt rnd t) : 0 ≤ t := by
  induction h with
  | start tcp udp => exact le_refl 0
  | advance _ hle ih => exact le_trans ih hle
  | schedule orig resp resp_p proto analyzer timeout new_addr _ _ _ ih => exact ih
  | expire _ _ ih => exact ih

/-- While the clock shows 0 (processing has not begun) the scheduled table is empty:
`ScheduleAnalyzer` ignores every call made at time 0 (Manager.cc 526-530), and the clock
does not return to 0. -/
theorem Manager.ReachableAt.before_start {rnd : Int → Int} {m : Manager} {t : Int}
    (h : m.ReachableAt rnd t) (ht : t = 0) : m.conns = [] ∧ m.conns_by_timeout = [] := by
  induction h with
  | start tcp udp => exact ⟨rfl, rfl⟩
  | advance hr hle ih =>
    have h0 := Manager.ReachableAt.clock_nonneg hr
    exact ih (le_antisymm (ht ▸ hle) h0)
  | schedule orig resp resp_p proto analyzer timeout new_addr _ _ hs ih =>
    simp only [Manager.ScheduleAnalyzerBy, ht, if_true, Option.some.injEq] at hs
    exact hs ▸ ih ht
  | expire _ he ih =>
    simp only [Manager.ExpireScheduledAnalyzers, ht, if_true, Option.some.injEq] at he
    exact he ▸ ih ht

/-- Every state reached under the monotone clock, at every time from the clock's
reading on, satisfies the two conditions under which the expiry is specified: the
dual-view invariant, and, as long as the time is 0, no record with a timeout at or
before 0 (the table is empty then). -/
theorem Manager.ReachableAt.expiry_conditions {rnd : Int → Int} {m : Manager} {t : Int}
    (h : m.ReachableAt rnd t) (network_time : Int) (hle : t ≤ network_time) :
    m.DualView ∧ (network_time = 0 → ∀ p ∈ m.conns_by_timeout, 0 < p.obj.timeout) := by
  refine ⟨Manager.ReachableAt.keeps_dual_view h, fun h0 p hp => ?_⟩
  have hq := (Manager.ReachableAt.before_start h
    (le_antisymm (h0 ▸ hle) (Manager.ReachableAt.clock_nonneg h))).2
  rw [hq] at hp
  exact absurd hp (List.not_mem_nil _)

/-- The guard at the head of `ExpireScheduledAnalyzers` (Manager.cc 485): at network
time 0 the call returns at once, whatever the table holds.  On the table made of one
record with absolute timeout 0 (a table that satisfies the dual-view invariant, but is
not reached under the monotone clock, see `Manager.ReachableAt.before_start`) the record
stays in both views. -/
theorem Manager.ExpireScheduledAnalyzers_at_zero :
    ((Manager.emptySched [] []).ScheduleAnalyzer 5 1 2 3 .TRANSPORT_TCP 7 (-5) 100).bind
      (fun m => (m.ExpireScheduledAnalyzers 0).map
        (fun m' => (decide m.DualView, m.conns_by_timeout.map (fun p => p.obj.timeout),
          m'.conns.map (fun e => e.2.obj.timeout),
          m'.conns_by_timeout.map (fun p => p.obj.timeout))))
      = some (true, [0], [0], [0]) := by
  decide

/-- C5: on a table that satisfies the dual-view invariant and in which, as long as the
network time is 0, every record has a positive timeout (both hold in every state the
code reaches under the monotone clock, where the table is empty until the clock leaves
0: `Manager.ReachableAt.expiry_conditions`), at every network time
`ExpireScheduledAnalyzers` completes; afterwards no record whose timeout is at or before
the network time is in the multimap or in the queue, and every record whose timeout is
later is still in both, whatever index it has. -/
theorem Manager.ExpireScheduledAnalyzers_removes (m : Manager) (network_time : Int)
    (h : m.DualView)
    (hstart : network_time = 0 → ∀ p ∈ m.conns_by_timeout, 0 < p.obj.timeout) :
    ∃ m', m.ExpireScheduledAnalyzers network_time = some m' ∧
      (∀ r : ScheduledAnalyzerPtr, r.obj.timeout ≤ network_time →
        r ∉ m'.conns.map Prod.snd ∧ r ∉ m'.conns_by_timeout) ∧
      (∀ e ∈ m.conns, e.2.obj.timeout > network_time → e ∈ m'.conns) ∧
      (∀ r ∈ m.conns_by_timeout, r.obj.timeout > network_time → r ∈ m'.conns_by_timeout) := by
  by_cases hnow : network_time = 0
  · refine ⟨m, by simp [Manager.ExpireScheduledAnalyzers, hnow], ?_, fun e he _ => he,
      fun r hr _ => hr⟩
    intro r hr
    have hq : r ∉ m.conns_by_timeout := fun hmem =>
      absurd (hstart hnow r hmem) (not_lt.2 (hnow ▸ hr))
    exact ⟨fun hmem => hq (h.2.1.mem_iff.1 hmem), hq⟩
  · refine ⟨_, Manager.ExpireScheduledAnalyzers_eq m network_time h hnow, ?_, ?_, ?_⟩
    · intro r hr
      have hr2 : ¬ network_time < r.obj.timeout := not_lt.2 hr
      constructor
      · intro hmem
        obtain ⟨e, he, rfl⟩ := List.mem_map.1 hmem
        have := (List.mem_filter.1 he).2
        exact hr2 (by simpa using this)
      · intro hmem
        have := (List.mem_filter.1 hmem).2
        exact hr2 (by simpa using this)
    · intro e he hlive
      exact List.mem_filter.2 ⟨he, by simpa using hlive⟩
    · intro r hr hlive
      exact List.mem_filter.2 ⟨hr, by simpa using hlive⟩

theorem Manager.ExpireScheduledAnalyzers_removes_witness :
    (∃ m', exampleManagerTwo.ExpireScheduledAnalyzers 20 = some m' ∧
      (∀ r : ScheduledAnalyzerPtr, r.obj.timeout ≤ 20 →
        r ∉ m'.conns.map Prod.snd ∧ r ∉ m'.conns_by_timeout) ∧
      (∀ e ∈ exampleManagerTwo.conns, e.2.obj.timeout > 20 → e ∈ m'.conns) ∧
      (∀ r ∈ exampleManagerTwo.conns_by_timeout,
        r.obj.timeout > 20 → r ∈ m'.conns_by_timeout)) ∧
    (exampleManagerTwo.ExpireScheduledAnalyzers 20).map
        (fun m' => (m'.conns.map (fun e => e.2.addr), m'.conns_by_timeout.map (fun p => p.addr)))
      = some ([101], [101]) :=
  ⟨Manager.ExpireScheduledAnalyzers_removes exampleManagerTwo 20 (by decide) (by decide),
    by decide⟩

/-! ## Theorems: what `ScheduleAnalyzer` inserts -/

/-- C6: at a defined network time, with a positive timeout, on a table that satisfies
the dual-view invariant, `ScheduleAnalyzer` completes, and each view of the resulting
table consists of exactly the records that were present with a timeout later than the
network time and one new record, with index `ConnIndex(orig, resp, resp_p, proto)`, the
given tag and timeout `network_time + timeout`; the port maps are untouched. -/
theorem Manager.ScheduleAnalyzer_result (m : Manager) (network_time : Int) (orig resp : IPAddr)
    (resp_p : Nat) (proto : TransportProto) (analyzer : Tag) (timeout : Int) (new_addr : Nat)
    (h : m.DualView) (hnow : network_time ≠ 0) (hpos : 0 < timeout) :
    ∃ m', m.ScheduleAnalyzer network_time orig resp resp_p proto analyzer timeout new_addr
        = some m' ∧
      m'.conns.Perm
        ((ConnIndex.ConnIndex orig resp resp_p proto.toUInt16,
          ⟨new_addr, ConnIndex.ConnIndex orig resp resp_p proto.toUInt16, analyzer,
            network_time + timeout⟩) ::
          m.conns.filter (fun e => decide (e.2.obj.timeout > network_time))) ∧
      m'.conns_by_timeout.Perm
        (⟨new_addr, ConnIndex.ConnIndex orig resp resp_p proto.toUInt16, analyzer,
            network_time + timeout⟩ ::
          m.conns_by_timeout.filter (fun p => decide (p.obj.timeout > network_time))) ∧
      m'.analyzers_by_port_tcp = m.analyzers_by_port_tcp ∧
      m'.analyzers_by_port_udp = m.analyzers_by_port_udp := by
  refine ⟨_, Manager.ScheduleAnalyzer_eq m network_time orig resp resp_p proto analyzer timeout
    new_addr h hnow (ne_of_gt hpos), ?_, ?_, rfl, rfl⟩
  · exact insertUpper_perm _ _ _
  · exact insertUpper_perm _ _ _

theorem Manager.ScheduleAnalyzer_result_witness :
    ∃ m', (Manager.mk [] []
        [(⟨1, 2, 3, 1⟩, ⟨100, ⟨1, 2, 3, 1⟩, 7, 15⟩), (⟨1, 2, 3, 1⟩, ⟨101, ⟨1, 2, 3, 1⟩, 8, 25⟩)]
        [⟨100, ⟨1, 2, 3, 1⟩, 7, 15⟩, ⟨101, ⟨1, 2, 3, 1⟩, 8, 25⟩]).ScheduleAnalyzer 20 1 2 3
          .TRANSPORT_TCP 9 2 100 = some m' ∧
      m'.conns.Perm
        ((ConnIndex.ConnIndex 1 2 3 TransportProto.TRANSPORT_TCP.toUInt16,
          ⟨100, ConnIndex.ConnIndex 1 2 3 TransportProto.TRANSPORT_TCP.toUInt16, 9, 20 + 2⟩) ::
          (Manager.mk [] []
            [(⟨1, 2, 3, 1⟩, ⟨100, ⟨1, 2, 3, 1⟩, 7, 15⟩), (⟨1, 2, 3, 1⟩, ⟨101, ⟨1, 2, 3, 1⟩, 8, 25⟩)]
            [⟨100, ⟨1, 2, 3, 1⟩, 7, 15⟩, ⟨101, ⟨1, 2, 3, 1⟩, 8, 25⟩]).conns.filter
              (fun e => decide (e.2.obj.timeout > 20))) ∧
      m'.conns_by_timeout.Perm
        (⟨100, ConnIndex.ConnIndex 1 2 3 TransportProto.TRANSPORT_TCP.toUInt16, 9, 20 + 2⟩ ::
          (Manager.mk [] []
            [(⟨1, 2, 3, 1⟩, ⟨100, ⟨1, 2, 3, 1⟩, 7, 15⟩), (⟨1, 2, 3, 1⟩, ⟨101, ⟨1, 2, 3, 1⟩, 8, 25⟩)]
            [⟨100, ⟨1, 2, 3, 1⟩, 7, 15⟩, ⟨101, ⟨1, 2, 3, 1⟩, 8, 25⟩]).conns_by_timeout.filter
              (fun p => decide (p.obj.timeout > 20))) ∧
      m'.analyzers_by_port_tcp = [] ∧ m'.analyzers_by_port_udp = [] :=
  Manager.ScheduleAnalyzer_result _ 20 1 2 3 .TRANSPORT_TCP 9 2 100 (by decide) (by decide)
    (by decide)

/-- C9 (as stated, refuted): at network time 10 a call of `ScheduleAnalyzer` with the
negative timeout -3 passes `assert(timeout)` and adds a record whose absolute timeout
is 7, not later than the network time; the record is in both views after the call. -/
theorem Manager.ScheduleAnalyzer_negative_counterexample :
    ((Manager.emptySched [] []).ScheduleAnalyzer 10 1 2 3 .TRANSPORT_TCP 7 (-3) 100).map
      (fun m => (m.conns.map (fun e => (e.2.obj.analyzer, e.2.obj.timeout)),
        m.conns_by_timeout.map (fun p => (p.obj.analyzer, p.obj.timeout))))
      = some ([(7, 7)], [(7, 7)]) := by
  decide

/-- C9 (amended): `ScheduleAnalyzer` with the rounding `rnd` of the `double` addition,
where `rnd` is monotone and leaves the network time, itself a `double`, as it is; at a
defined network time, on a table that satisfies the dual-view invariant.  A call with
timeout 0 fails the assertion.  A call with any other timeout, positive or negative,
completes and puts into both views one new record whose timeout is the rounded sum;
every other record of the table then has a timeout later than the network time.  If the
timeout is positive the new record's timeout is not earlier than the network time, so
that no record of the table has a timeout earlier than the network time; it is later,
and then every record's is, when the sum is exact, and otherwise it need not be.  If the
timeout is negative the new record's timeout is not later than the network time, and is
earlier when the sum is exact. -/
theorem Manager.ScheduleAnalyzerBy_timeouts (rnd : Int → Int) (m : Manager)
    (network_time : Int) (orig resp : IPAddr) (resp_p : Nat) (proto : TransportProto)
    (analyzer : Tag) (timeout : Int) (new_addr : Nat)
    (hmono : ∀ x y : Int, x ≤ y → rnd x ≤ rnd y) (hrep : rnd network_time = network_time)
    (h : m.DualView) (hnow : network_time ≠ 0) :
    (timeout = 0 →
      m.ScheduleAnalyzerBy rnd network_time orig resp resp_p proto analyzer timeout new_addr
        = none) ∧
    (timeout ≠ 0 →
      ∃ m', m.ScheduleAnalyzerBy rnd network_time orig resp resp_p proto analyzer timeout new_addr
          = some m' ∧
        (⟨new_addr, ConnIndex.ConnIndex orig resp resp_p proto.toUInt16, analyzer,
            rnd (network_time + timeout)⟩ : ScheduledAnalyzerPtr) ∈ m'.conns_by_timeout ∧
        (ConnIndex.ConnIndex orig resp resp_p proto.toUInt16,
          (⟨new_addr, ConnIndex.ConnIndex orig resp resp_p proto.toUInt16, analyzer,
            rnd (network_time + timeout)⟩ : ScheduledAnalyzerPtr)) ∈ m'.conns ∧
        (∀ e ∈ m'.conns,
          e.2 = ⟨new_addr, ConnIndex.ConnIndex orig resp resp_p proto.toUInt16, analyzer,
            rnd (network_time + timeout)⟩ ∨ network_time < e.2.obj.timeout) ∧
        (∀ p ∈ m'.conns_by_timeout,
          p = ⟨new_addr, ConnIndex.ConnIndex orig resp resp_p proto.toUInt16, analyzer,
            rnd (network_time + timeout)⟩ ∨ network_time < p.obj.timeout) ∧
        (0 < timeout →
          network_time ≤ rnd (network_time + timeout) ∧
          (∀ e ∈ m'.conns, network_time ≤ e.2.obj.timeout) ∧
          (∀ p ∈ m'.conns_by_timeout, network_time ≤ p.obj.timeout)) ∧
        (0 < timeout → rnd (network_time + timeout) = network_time + timeout →
          network_time < rnd (network_time + timeout) ∧
          (∀ e ∈ m'.conns, network_time < e.2.obj.timeout) ∧
          (∀ p ∈ m'.conns_by_timeout, network_time < p.obj.timeout)) ∧
        (timeout < 0 → rnd (network_time + timeout) ≤ network_time) ∧
        (timeout < 0 → rnd (network_time + timeout) = network_time + timeout →
          rnd (network_time + timeout) < network_time)) := by
  constructor
  · intro h0
    simp [Manager.ScheduleAnalyzerBy, hnow, h0]
  · intro htimeout
    have hmem : ∀ p ∈ conns_queue.push
        (⟨new_addr, ConnIndex.ConnIndex orig resp resp_p proto.toUInt16, analyzer,
          rnd (network_time + timeout)⟩ : ScheduledAnalyzerPtr)
        (m.conns_by_timeout.filter (fun p => decide (network_time < p.obj.timeout))),
        p = ⟨new_addr, ConnIndex.ConnIndex orig resp resp_p proto.toUInt16, analyzer,
          rnd (network_time + timeout)⟩ ∨ network_time < p.obj.timeout := by
      intro p hp
      rcases List.mem_cons.1 ((insertUpper_perm _ _ _).mem_iff.1 hp) with hp | hp
      · exact Or.inl hp
      · exact Or.inr (by simpa using (List.mem_filter.1 hp).2)
    have hmemc : ∀ e ∈ conns_map.insert (ConnIndex.ConnIndex orig resp resp_p proto.toUInt16)
        (⟨new_addr, ConnIndex.ConnIndex orig resp resp_p proto.toUInt16, analyzer,
          rnd (network_time + timeout)⟩ : ScheduledAnalyzerPtr)
        (m.conns.filter (fun e => decide (network_time < e.2.obj.timeout))),
        e.2 = ⟨new_addr, ConnIndex.ConnIndex orig resp resp_p proto.toUInt16, analyzer,
          rnd (network_time + timeout)⟩ ∨ network_time < e.2.obj.timeout := by
      intro e he
      rcases List.mem_cons.1 ((insertUpper_perm _ _ _).mem_iff.1 he) with he | he
      · exact Or.inl (by rw [he])
      · exact Or.inr (by simpa using (List.mem_filter.1 he).2)
    have hup : 0 < timeout → network_time ≤ rnd (network_time + timeout) := by
      intro hpos
      have := hmono network_time (network_time + timeout) (by omega)
      rw [hrep] at this
      exact this
    have hdown : timeout < 0 → rnd (network_time + timeout) ≤ network_time := by
      intro hneg
      have := hmono (network_time + timeout) network_time (by omega)
      rw [hrep] at this
      exact this
    refine ⟨_, Manager.ScheduleAnalyzerBy_eq rnd m network_time orig resp resp_p proto analyzer
      timeout new_addr h hnow htimeout, ?_, ?_, hmemc, hmem, ?_, ?_, hdown, ?_⟩
    · exact (insertUpper_perm _ _ _).mem_iff.2 (List.mem_cons_self _ _)
    · exact (insertUpper_perm _ _ _).mem_iff.2 (List.mem_cons_self _ _)
    · intro hpos
      refine ⟨hup hpos, fun e he => ?_, fun p hp => ?_⟩
      · rcases hmemc e he with he | he
        · rw [he]
          exact hup hpos
        · exact le_of_lt he
      · rcases hmem p hp with hp | hp
        · rw [hp]
          exact hup hpos
        · exact le_of_lt hp
    · intro hpos hexact
      have hlt : network_time < rnd (network_time + timeout) := by
        rw [hexact]
        omega
      refine ⟨hlt, fun e he => ?_, fun p hp => ?_⟩
      · rcases hmemc e he with he | he
        · rw [he]
          exact hlt
        · exact he
      · rcases hmem p hp with hp | hp
        · rw [hp]
          exact hlt
        · exact hp
    · intro hneg hexact
      rw [hexact]
      omega

theorem Manager.ScheduleAnalyzerBy_timeouts_witness :
    (∃ m', exampleManagerTwo.ScheduleAnalyzerBy exampleRounding 16 1 2 3 .TRANSPORT_TCP 9 3 102
        = some m' ∧
      (∀ p ∈ m'.conns_by_timeout, (16 : Int) ≤ p.obj.timeout) ∧
      (∀ e ∈ m'.conns, (16 : Int) ≤ e.2.obj.timeout)) ∧
    (exampleManagerTwo.ScheduleAnalyzerBy exampleRounding 16 1 2 3 .TRANSPORT_TCP 9 3 102).map
        (fun m' => m'.conns_by_timeout.map (fun p => (p.addr, p.obj.timeout)))
      = some [(102, 16), (101, 25)] ∧
    (exampleManagerTwo.ScheduleAnalyzerBy (fun x => x) 16 1 2 3 .TRANSPORT_TCP 9 3 102).map
        (fun m' => m'.conns_by_timeout.map (fun p => (p.addr, p.obj.timeout)))
      = some [(102, 19), (101, 25)] := by
  obtain ⟨m', h1, _, _, _, _, h6, _⟩ :=
    (Manager.ScheduleAnalyzerBy_timeouts exampleRounding exampleManagerTwo 16 1 2 3
      .TRANSPORT_TCP 9 3 102
      (fun x y hxy => by unfold exampleRounding; omega) (by decide) (by decide)
      (by decide)).2 (by decide)
  exact ⟨⟨m', h1, (h6 (by decide)).2.2, (h6 (by decide)).2.1⟩, by decide, by decide⟩

/-! ## The port table -/

theorem analyzer_map_by_port.find_insert (m : analyzer_map_by_port) (port : Nat) (l : tag_set)
    (h : m.find port = none) : (analyzer_map_by_port.insert port l m).find port = some l := by
  unfold analyzer_map_by_port.insert
  induction m with
  | nil => simp [insertUpper, analyzer_map_by_port.find]
  | cons e es ih =>
    unfold analyzer_map_by_port.find at h
    by_cases he : e.1 = port
    · simp [he] at h
    · simp only [he, if_false] at h
      unfold insertUpper
      split
      · simp [analyzer_map_by_port.find]
      · unfold analyzer_map_by_port.find
        simp only [he, if_false]
        exact ih h

theorem analyzer_map_by_port.find_store (m : analyzer_map_by_port) (port : Nat)
    (l s0 : tag_set) (h : m.find port = some s0) : (m.store port l).find port = some l := by
  induction m with
  | nil => simp [analyzer_map_by_port.find] at h
  | cons e es ih =>
    unfold analyzer_map_by_port.find at h
    unfold analyzer_map_by_port.store
    by_cases he : e.1 = port
    · simp [he, analyzer_map_by_port.find]
    · simp only [he, if_false] at h ⊢
      unfold analyzer_map_by_port.find
      simp only [he, if_false]
      exact ih h

/-- After `RegisterAnalyzerForPort(tag, proto, port)` for TCP or UDP, `LookupPort` finds
the set that was there before (the empty set if there was none) with `tag` inserted. -/
theorem Manager.LookupPort_register (m : Manager) (tag : Tag) (proto : TransportProto)
    (port : Nat) (hp : proto = .TRANSPORT_TCP ∨ proto = .TRANSPORT_UDP) :
    ((m.RegisterAnalyzerForPort tag proto port).1.LookupPort proto port false).2
      = some (insert tag ((m.LookupPort proto port false).2.getD ∅)) := by
  rcases hp with rfl | rfl
  · rcases hf : m.analyzers_by_port_tcp.find port with _ | s0
    · simp [Manager.RegisterAnalyzerForPort, Manager.LookupPort, Manager.storePort, hf,
        analyzer_map_by_port.find_store _ port _ ∅
          (analyzer_map_by_port.find_insert _ port ∅ hf)]
    · simp [Manager.RegisterAnalyzerForPort, Manager.LookupPort, Manager.storePort, hf,
        analyzer_map_by_port.find_store _ port _ s0 hf]
  · rcases hf : m.analyzers_by_port_udp.find port with _ | s0
    · simp [Manager.RegisterAnalyzerForPort, Manager.LookupPort, Manager.storePort, hf,
        analyzer_map_by_port.find_store _ port _ ∅
          (analyzer_map_by_port.find_insert _ port ∅ hf)]
    · simp [Manager.RegisterAnalyzerForPort, Manager.LookupPort, Manager.storePort, hf,
        analyzer_map_by_port.find_store _ port _ s0 hf]

/-- After `UnregisterAnalyzerForPort(tag, proto, port)` for TCP or UDP, `LookupPort`
finds the set that was there before (the empty set if there was none) without `tag`. -/
theorem Manager.LookupPort_unregister (m : Manager) (tag : Tag) (proto : TransportProto)
    (port : Nat) (hp : proto = .TRANSPORT_TCP ∨ proto = .TRANSPORT_UDP) :
    ((m.UnregisterAnalyzerForPort tag proto port).1.LookupPort proto port false).2
      = some (((m.LookupPort proto port false).2.getD ∅).erase tag) := by
  rcases hp with rfl | rfl
  · rcases hf : m.analyzers_by_port_tcp.find port with _ | s0
    · simp [Manager.UnregisterAnalyzerForPort, Manager.LookupPort, Manager.storePort, hf,
        analyzer_map_by_port.find_store _ port _ ∅
          (analyzer_map_by_port.find_insert _ port ∅ hf)]
    · simp [Manager.UnregisterAnalyzerForPort, Manager.LookupPort, Manager.storePort, hf,
        analyzer_map_by_port.find_store _ port _ s0 hf]
  · rcases hf : m.analyzers_by_port_udp.find port with _ | s0
    · simp [Manager.UnregisterAnalyzerForPort, Manager.LookupPort, Manager.storePort, hf,
        analyzer_map_by_port.find_store _ port _ ∅
          (analyzer_map_by_port.find_insert _ port ∅ hf)]
    · simp [Manager.UnregisterAnalyzerForPort, Manager.LookupPort, Manager.storePort, hf,
        analyzer_map_by_port.find_store _ port _ s0 hf]

/-- C10: for TCP and UDP, after `RegisterAnalyzerForPort(t, p, n)` twice and
`UnregisterAnalyzerForPort(t, p, n)` once, `LookupPort(p, n)` returns a set that does not
contain `t`, and every other tag is in that set exactly when it was in the set
`LookupPort(p, n)` returned before the three calls. -/
theorem Manager.register_twice_unregister (m : Manager) (t : Tag) (p : TransportProto)
    (n : Nat) (hp : p = .TRANSPORT_TCP ∨ p = .TRANSPORT_UDP) :
    ∃ s : tag_set,
      (Manager.LookupPort
        (Manager.UnregisterAnalyzerForPort
          (Manager.RegisterAnalyzerForPort (Manager.RegisterAnalyzerForPort m t p n).1 t p n).1
          t p n).1 p n false).2 = some s ∧
      t ∉ s ∧
      ∀ t' : Tag, t' ≠ t →
        (t' ∈ s ↔ ∃ s0, (m.LookupPort p n false).2 = some s0 ∧ t' ∈ s0) := by
  refine ⟨_, Manager.LookupPort_unregister _ t p n hp, ?_, ?_⟩
  · exact Finset.not_mem_erase _ _
  · intro t' ht'
    rw [Manager.LookupPort_register _ t p n hp, Manager.LookupPort_register _ t p n hp]
    simp only [Option.getD_some, Finset.mem_erase, Finset.mem_insert, ht', ne_eq,
      not_false_eq_true, true_and, false_or]
    rcases (m.LookupPort p n false).2 with _ | s0
    · simp
    · simp

theorem Manager.register_twice_unregister_witness :
    ∃ s : tag_set,
      (Manager.LookupPort
        (Manager.UnregisterAnalyzerForPort
          (Manager.RegisterAnalyzerForPort
            (Manager.RegisterAnalyzerForPort (Manager.mk [(80, {5, 6})] [] [] []) 5
              .TRANSPORT_TCP 80).1 5 .TRANSPORT_TCP 80).1
          5 .TRANSPORT_TCP 80).1 .TRANSPORT_TCP 80 false).2 = some s ∧
      5 ∉ s ∧
      ∀ t' : Tag, t' ≠ 5 →
        (t' ∈ s ↔ ∃ s0, ((Manager.mk [(80, {5, 6})] [] [] []).LookupPort .TRANSPORT_TCP 80 false).2
          = some s0 ∧ t' ∈ s0) :=
  Manager.register_twice_unregister (Manager.mk [(80, {5, 6})] [] [] []) 5 .TRANSPORT_TCP 80
    (Or.inl rfl)

/-- For TCP and UDP `RegisterAnalyzerForPort` returns true. -/
theorem Manager.RegisterAnalyzerForPort_true (m : Manager) (tag : Tag) (proto : TransportProto)
    (port : Nat) (hp : proto = .TRANSPORT_TCP ∨ proto = .TRANSPORT_UDP) :
    (m.RegisterAnalyzerForPort tag proto port).2 = true := by
  rcases hp with rfl | rfl
  · rcases hf : m.analyzers_by_port_tcp.find port with _ | s0 <;>
      simp [Manager.RegisterAnalyzerForPort, Manager.LookupPort, hf]
  · rcases hf : m.analyzers_by_port_udp.find port with _ | s0 <;>
      simp [Manager.RegisterAnalyzerForPort, Manager.LookupPort, hf]

/-- `UnregisterAnalyzerForPort` returns true in every case. -/
theorem Manager.UnregisterAnalyzerForPort_true (m : Manager) (tag : Tag)
    (proto : TransportProto) (port : Nat) :
    (m.UnregisterAnalyzerForPort tag proto port).2 = true := by
  unfold Manager.UnregisterAnalyzerForPort
  rcases m.LookupPort proto port true with ⟨m1, _ | l⟩ <;> rfl

/-- C11: for TCP and UDP, when `LookupPort(proto, port)` finds no tag (null or an empty
set), `RegisterAnalyzerForPort(t, proto, port)` followed by
`UnregisterAnalyzerForPort(t, proto, port)` both return true and `LookupPort` then
returns an empty set; `UnregisterAnalyzerForPort` alone, also on a port without an
entry, returns true and leaves `LookupPort` returning an empty set. -/
theorem Manager.register_unregister (m : Manager) (t : Tag) (p : TransportProto) (n : Nat)
    (hp : p = .TRANSPORT_TCP ∨ p = .TRANSPORT_UDP)
    (hnone : ∀ s0, (m.LookupPort p n false).2 = some s0 → s0 = ∅) :
    (m.RegisterAnalyzerForPort t p n).2 = true ∧
    (Manager.UnregisterAnalyzerForPort (m.RegisterAnalyzerForPort t p n).1 t p n).2 = true ∧
    ((Manager.LookupPort
        (Manager.UnregisterAnalyzerForPort (m.RegisterAnalyzerForPort t p n).1 t p n).1
        p n false).2 = none ∨
      (Manager.LookupPort
        (Manager.UnregisterAnalyzerForPort (m.RegisterAnalyzerForPort t p n).1 t p n).1
        p n false).2 = some ∅) ∧
    (m.UnregisterAnalyzerForPort t p n).2 = true ∧
    ((Manager.LookupPort (m.UnregisterAnalyzerForPort t p n).1 p n false).2 = none ∨
      (Manager.LookupPort (m.UnregisterAnalyzerForPort t p n).1 p n false).2 = some ∅) := by
  have h0 : (m.LookupPort p n false).2.getD ∅ = ∅ := by
    rcases hl : (m.LookupPort p n false).2 with _ | s0
    · rfl
    · simpa using hnone s0 hl
  refine ⟨Manager.RegisterAnalyzerForPort_true m t p n hp,
    Manager.UnregisterAnalyzerForPort_true _ t p n, Or.inr ?_,
    Manager.UnregisterAnalyzerForPort_true m t p n, Or.inr ?_⟩
  · rw [Manager.LookupPort_unregister _ t p n hp, Manager.LookupPort_register _ t p n hp, h0]
    simp
  · rw [Manager.LookupPort_unregister _ t p n hp, h0]
    simp

theorem Manager.register_unregister_witness :
    (Manager.RegisterAnalyzerForPort (Manager.mk [] [(53, ∅)] [] []) 5 .TRANSPORT_UDP 53).2 = true ∧
    (Manager.UnregisterAnalyzerForPort
      (Manager.RegisterAnalyzerForPort (Manager.mk [] [(53, ∅)] [] []) 5 .TRANSPORT_UDP 53).1
      5 .TRANSPORT_UDP 53).2 = true ∧
    ((Manager.LookupPort
        (Manager.UnregisterAnalyzerForPort
          (Manager.RegisterAnalyzerForPort (Manager.mk [] [(53, ∅)] [] []) 5 .TRANSPORT_UDP 53).1
          5 .TRANSPORT_UDP 53).1
        .TRANSPORT_UDP 53 false).2 = none ∨
      (Manager.LookupPort
        (Manager.UnregisterAnalyzerForPort
          (Manager.RegisterAnalyzerForPort (Manager.mk [] [(53, ∅)] [] []) 5 .TRANSPORT_UDP 53).1
          5 .TRANSPORT_UDP 53).1
        .TRANSPORT_UDP 53 false).2 = some ∅) ∧
    (Manager.UnregisterAnalyzerForPort (Manager.mk [] [(53, ∅)] [] []) 5 .TRANSPORT_UDP 53).2
      = true ∧
    ((Manager.LookupPort
        (Manager.UnregisterAnalyzerForPort (Manager.mk [] [(53, ∅)] [] []) 5 .TRANSPORT_UDP 53).1
        .TRANSPORT_UDP 53 false).2 = none ∨
      (Manager.LookupPort
        (Manager.UnregisterAnalyzerForPort (Manager.mk [] [(53, ∅)] [] []) 5 .TRANSPORT_UDP 53).1
        .TRANSPORT_UDP 53 false).2 = some ∅) :=
  Manager.register_unregister (Manager.mk [] [(53, ∅)] [] []) 5 .TRANSPORT_UDP 53 (Or.inr rfl)
    (by decide)

/-! ## The component registry -/

theorem ComponentManager.Lookup_cons (c : Component) (cs : ComponentManager) (tag : Tag) :
    ComponentManager.Lookup (c :: cs) tag
      = if c.tag = tag then some c else ComponentManager.Lookup cs tag := rfl

theorem ComponentManager.SetEnabled_cons (c : Component) (cs : ComponentManager) (tag : Tag)
    (b : Bool) :
    ComponentManager.SetEnabled (c :: cs) tag b
      = if c.tag = tag then { c with enabled := b } :: cs
        else c :: ComponentManager.SetEnabled cs tag b := rfl

theorem ComponentManager.Lookup_eq_none (reg : ComponentManager) (tag : Tag) :
    reg.Lookup tag = none ↔ ∀ c ∈ reg, c.tag ≠ tag := by
  induction reg with
  | nil => simp [ComponentManager.Lookup]
  | cons c cs ih =>
    rw [ComponentManager.Lookup_cons]
    by_cases hc : c.tag = tag
    · rw [if_pos hc]
      simp [hc]
    · rw [if_neg hc, ih]
      simp [hc]

theorem ComponentManager.Lookup_mem (reg : ComponentManager) (tag : Tag) (c : Component)
    (h : reg.Lookup tag = some c) : c ∈ reg ∧ c.tag = tag := by
  induction reg with
  | nil => simp [ComponentManager.Lookup] at h
  | cons d ds ih =>
    rw [ComponentManager.Lookup_cons] at h
    by_cases hd : d.tag = tag
    · rw [if_pos hd] at h
      have hdc : d = c := Option.some.inj h
      subst hdc
      exact ⟨List.mem_cons_self _ _, hd⟩
    · rw [if_neg hd] at h
      exact ⟨List.mem_cons_of_mem _ (ih h).1, (ih h).2⟩

theorem ComponentManager.Lookup_isSome (reg : ComponentManager) (tag : Tag) :
    (∃ c, reg.Lookup tag = some c) ↔ ∃ c ∈ reg, c.tag = tag := by
  constructor
  · rintro ⟨c, hc⟩
    exact ⟨c, (ComponentManager.Lookup_mem reg tag c hc).1,
      (ComponentManager.Lookup_mem reg tag c hc).2⟩
  · rintro ⟨c, hc, ht⟩
    rcases hl : reg.Lookup tag with _ | d
    · exact absurd ht ((ComponentManager.Lookup_eq_none reg tag).1 hl c hc)
    · exact ⟨d, rfl⟩

/-- After the write, `Lookup(tag)` finds the same component with the new flag. -/
theorem ComponentManager.Lookup_SetEnabled (reg : ComponentManager) (tag : Tag) (b : Bool) :
    (reg.SetEnabled tag b).Lookup tag
      = (reg.Lookup tag).map (fun c => { c with enabled := b }) := by
  induction reg with
  | nil => rfl
  | cons c cs ih =>
    rw [ComponentManager.SetEnabled_cons, ComponentManager.Lookup_cons]
    by_cases hc : c.tag = tag
    · rw [if_pos hc, if_pos hc, ComponentManager.Lookup_cons, if_pos hc]
      rfl
    · rw [if_neg hc, if_neg hc, ComponentManager.Lookup_cons, if_neg hc]
      exact ih

/-- The write does not touch what `Lookup` finds for another tag. -/
theorem ComponentManager.Lookup_SetEnabled_ne (reg : ComponentManager) (tag other : Tag)
    (b : Bool) (hne : other ≠ tag) :
    (reg.SetEnabled tag b).Lookup other = reg.Lookup other := by
  induction reg with
  | nil => rfl
  | cons c cs ih =>
    rw [ComponentManager.SetEnabled_cons, ComponentManager.Lookup_cons]
    by_cases hc : c.tag = tag
    · have hco : ¬ c.tag = other := fun h => hne (h ▸ hc)
      rw [if_pos hc, if_neg hco, ComponentManager.Lookup_cons, if_neg hco]
    · rw [if_neg hc, ComponentManager.Lookup_cons]
      by_cases hco : c.tag = other
      · rw [if_pos hco, if_pos hco]
      · rw [if_neg hco, if_neg hco]
        exact ih

theorem ComponentManager.SetEnabled_SetEnabled (reg : ComponentManager) (tag : Tag)
    (b b2 : Bool) : (reg.SetEnabled tag b).SetEnabled tag b2 = reg.SetEnabled tag b2 := by
  induction reg with
  | nil => rfl
  | cons c cs ih =>
    rw [ComponentManager.SetEnabled_cons, ComponentManager.SetEnabled_cons]
    by_cases hc : c.tag = tag
    · rw [if_pos hc, if_pos hc, ComponentManager.SetEnabled_cons, if_pos hc]
    · rw [if_neg hc, if_neg hc, ComponentManager.SetEnabled_cons, if_neg hc, ih]

/-- Writing the flag a component already has, or writing for a tag that is not
registered, changes nothing. -/
theorem ComponentManager.SetEnabled_same (reg : ComponentManager) (tag : Tag) (b : Bool)
    (h : ∀ c, reg.Lookup tag = some c → c.enabled = b) : reg.SetEnabled tag b = reg := by
  induction reg with
  | nil => rfl
  | cons c cs ih =>
    rw [ComponentManager.SetEnabled_cons]
    by_cases hc : c.tag = tag
    · have he : c.enabled = b := h c (by rw [ComponentManager.Lookup_cons, if_pos hc])
      rw [if_pos hc, ← he]
    · rw [if_neg hc, ih (fun d hd => h d (by rw [ComponentManager.Lookup_cons, if_neg hc]; exact hd))]

/-- The write changes at most the flag of a component that carries the tag. -/
theorem ComponentManager.SetEnabled_forall2 (reg : ComponentManager) (tag : Tag) (b : Bool) :
    List.Forall₂ (fun c d => d = c ∨ (c.tag = tag ∧ d = { c with enabled := b }))
      reg (reg.SetEnabled tag b) := by
  induction reg with
  | nil => exact List.Forall₂.nil
  | cons c cs ih =>
    rw [ComponentManager.SetEnabled_cons]
    by_cases hc : c.tag = tag
    · rw [if_pos hc]
      refine List.Forall₂.cons (Or.inr ⟨hc, rfl⟩) ?_
      exact List.forall₂_same.2 (fun x _ => Or.inl rfl)
    · rw [if_neg hc]
      exact List.Forall₂.cons (Or.inl rfl) ih

/-- C12: in a registry none of whose components carries the unset tag,
`EnableAnalyzer(tag)` and `DisableAnalyzer(tag)` return true exactly when a component
with that tag is registered.  When it is, `IsEnabled(tag)` is true after the first and
false after the second, and every component is left as it was except that a component
carrying `tag` has its flag written; when it is not, the registry is unchanged.
Repeating either call returns the same flag and leaves the same registry. -/
theorem Manager.EnableAnalyzer_DisableAnalyzer_spec (reg : ComponentManager) (tag : Tag)
    (hwf : ∀ c ∈ reg, c.tag ≠ Tag.unset) :
    ((Manager.EnableAnalyzer reg tag).2 = true ↔ ∃ c ∈ reg, c.tag = tag) ∧
    ((Manager.DisableAnalyzer reg tag).2 = true ↔ ∃ c ∈ reg, c.tag = tag) ∧
    ((∃ c ∈ reg, c.tag = tag) →
      Manager.IsEnabled (Manager.EnableAnalyzer reg tag).1 tag = true ∧
      Manager.IsEnabled (Manager.DisableAnalyzer reg tag).1 tag = false ∧
      List.Forall₂ (fun c d => d = c ∨ (c.tag = tag ∧ d = { c with enabled := true }))
        reg (Manager.EnableAnalyzer reg tag).1 ∧
      List.Forall₂ (fun c d => d = c ∨ (c.tag = tag ∧ d = { c with enabled := false }))
        reg (Manager.DisableAnalyzer reg tag).1) ∧
    ((¬ ∃ c ∈ reg, c.tag = tag) →
      (Manager.EnableAnalyzer reg tag).1 = reg ∧ (Manager.DisableAnalyzer reg tag).1 = reg) ∧
    Manager.EnableAnalyzer (Manager.EnableAnalyzer reg tag).1 tag
      = Manager.EnableAnalyzer reg tag ∧
    Manager.DisableAnalyzer (Manager.DisableAnalyzer reg tag).1 tag
      = Manager.DisableAnalyzer reg tag := by
  rcases hl : reg.Lookup tag with _ | c
  · have hno : ¬ ∃ c ∈ reg, c.tag = tag := by
      rintro ⟨c, hc, ht⟩
      exact (ComponentManager.Lookup_eq_none reg tag).1 hl c hc ht
    have he : Manager.EnableAnalyzer reg tag = (reg, false) := by
      simp [Manager.EnableAnalyzer, hl]
    have hd : Manager.DisableAnalyzer reg tag = (reg, false) := by
      simp [Manager.DisableAnalyzer, hl]
    rw [he, hd]
    refine ⟨by simp [hno], by simp [hno], fun h => absurd h hno, fun _ => ⟨rfl, rfl⟩, he, hd⟩
  · have hyes : ∃ c ∈ reg, c.tag = tag :=
      ⟨c, (ComponentManager.Lookup_mem reg tag c hl).1, (ComponentManager.Lookup_mem reg tag c hl).2⟩
    have htag : tag ≠ Tag.unset := by
      obtain ⟨d, hd, ht⟩ := hyes
      exact ht ▸ hwf d hd
    have he : Manager.EnableAnalyzer reg tag = (reg.SetEnabled tag true, true) := by
      simp [Manager.EnableAnalyzer, hl]
    have hd : Manager.DisableAnalyzer reg tag = (reg.SetEnabled tag false, true) := by
      simp [Manager.DisableAnalyzer, hl]
    have hle : ∀ b, (reg.SetEnabled tag b).Lookup tag = some { c with enabled := b } := by
      intro b
      rw [ComponentManager.Lookup_SetEnabled, hl]
      rfl
    rw [he, hd]
    refine ⟨by simp [hyes], by simp [hyes], fun _ => ⟨?_, ?_, ?_, ?_⟩,
      fun h => absurd hyes h, ?_, ?_⟩
    · simp [Manager.IsEnabled, htag, hle]
    · simp [Manager.IsEnabled, htag, hle]
    · exact ComponentManager.SetEnabled_forall2 reg tag true
    · exact ComponentManager.SetEnabled_forall2 reg tag false
    · simp [Manager.EnableAnalyzer, hle, ComponentManager.SetEnabled_SetEnabled]
    · simp [Manager.DisableAnalyzer, hle, ComponentManager.SetEnabled_SetEnabled]

theorem Manager.EnableAnalyzer_DisableAnalyzer_spec_witness :
    Manager.IsEnabled
      (Manager.EnableAnalyzer [⟨1, "TCP", none, true⟩, ⟨7, "HTTP", none, false⟩] 7).1 7 = true ∧
    Manager.IsEnabled
      (Manager.DisableAnalyzer [⟨1, "TCP", none, true⟩, ⟨7, "HTTP", none, false⟩] 1).1 1 = false :=
  ⟨((Manager.EnableAnalyzer_DisableAnalyzer_spec
      [⟨1, "TCP", none, true⟩, ⟨7, "HTTP", none, false⟩] 7
      (by decide)).2.2.1 ⟨⟨7, "HTTP", none, false⟩, by simp, rfl⟩).1,
   ((Manager.EnableAnalyzer_DisableAnalyzer_spec
      [⟨1, "TCP", none, true⟩, ⟨7, "HTTP", none, false⟩] 1
      (by decide)).2.2.1 ⟨⟨1, "TCP", none, true⟩, by simp, rfl⟩).2.1⟩

/-- C13 (as stated, refuted): a registry whose only component, tag 7 with a factory, is
enabled.  Before the calls `IsEnabled(7)` is true and `InstantiateAnalyzer(7, conn)`
yields an analyzer; after `EnableAnalyzer(7)` followed by `DisableAnalyzer(7)`,
`IsEnabled(7)` is false and `InstantiateAnalyzer(7, conn)` yields null. -/
theorem Manager.EnableAnalyzer_then_DisableAnalyzer_counterexample :
    Manager.IsEnabled [⟨7, "HTTP", some (fun _ => some ⟨.other 7, 0⟩), true⟩] 7 = true ∧
    (Manager.InstantiateAnalyzer [⟨7, "HTTP", some (fun _ => some ⟨.other 7, 0⟩), true⟩] 7
      ⟨1, 2, 80, .TRANSPORT_TCP⟩).2 = some ⟨.other 7, 7⟩ ∧
    Manager.IsEnabled
      (Manager.DisableAnalyzer
        (Manager.EnableAnalyzer [⟨7, "HTTP", some (fun _ => some ⟨.other 7, 0⟩), true⟩] 7).1
        7).1 7 = false ∧
    (Manager.InstantiateAnalyzer
      (Manager.DisableAnalyzer
        (Manager.EnableAnalyzer [⟨7, "HTTP", some (fun _ => some ⟨.other 7, 0⟩), true⟩] 7).1
        7).1 7 ⟨1, 2, 80, .TRANSPORT_TCP⟩).2 = none := by
  decide

/-- C13 (amended): `EnableAnalyzer(tag)` followed by `DisableAnalyzer(tag)` leaves the
registry that `DisableAnalyzer(tag)` alone leaves.  In it the component found for `tag`,
if any, is the one found before with its flag false, so that `IsEnabled(tag)` is false
and `InstantiateAnalyzer(tag, conn)` yields null; every component is as before except
that a component carrying `tag` has its flag written false.  The registry, and the
enabled flags of its components, are those from before the two calls exactly when the
component found for `tag`, if any, was disabled before; when no component carries the
unset tag this is also exactly when `IsEnabled` answers for every tag as before, and
exactly when `IsEnabled` and `InstantiateAnalyzer` both answer for every tag as before. -/
theorem Manager.EnableAnalyzer_then_DisableAnalyzer (reg : ComponentManager) (tag : Tag) :
    (Manager.DisableAnalyzer (Manager.EnableAnalyzer reg tag).1 tag).1
      = (Manager.DisableAnalyzer reg tag).1 ∧
    (Manager.DisableAnalyzer (Manager.EnableAnalyzer reg tag).1 tag).1.Lookup tag
      = (reg.Lookup tag).map (fun c => { c with enabled := false }) ∧
    Manager.IsEnabled (Manager.DisableAnalyzer (Manager.EnableAnalyzer reg tag).1 tag).1 tag
      = false ∧
    (∀ conn, (Manager.InstantiateAnalyzer
      (Manager.DisableAnalyzer (Manager.EnableAnalyzer reg tag).1 tag).1 tag conn).2 = none) ∧
    List.Forall₂ (fun c d => d = c ∨ (c.tag = tag ∧ d = { c with enabled := false }))
      reg (Manager.DisableAnalyzer (Manager.EnableAnalyzer reg tag).1 tag).1 ∧
    ((Manager.DisableAnalyzer (Manager.EnableAnalyzer reg tag).1 tag).1 = reg ↔
      ∀ c, reg.Lookup tag = some c → c.enabled = false) ∧
    ((Manager.DisableAnalyzer (Manager.EnableAnalyzer reg tag).1 tag).1.map Component.enabled
        = reg.map Component.enabled ↔
      ∀ c, reg.Lookup tag = some c → c.enabled = false) ∧
    ((∀ c ∈ reg, c.tag ≠ Tag.unset) →
      ((∀ t, Manager.IsEnabled
          (Manager.DisableAnalyzer (Manager.EnableAnalyzer reg tag).1 tag).1 t
            = Manager.IsEnabled reg t) ↔
        ∀ c, reg.Lookup tag = some c → c.enabled = false) ∧
      (((∀ t, Manager.IsEnabled
            (Manager.DisableAnalyzer (Manager.EnableAnalyzer reg tag).1 tag).1 t
              = Manager.IsEnabled reg t) ∧
          (∀ t conn, (Manager.InstantiateAnalyzer
            (Manager.DisableAnalyzer (Manager.EnableAnalyzer reg tag).1 tag).1 t conn).2
              = (Manager.InstantiateAnalyzer reg t conn).2)) ↔
        ∀ c, reg.Lookup tag = some c → c.enabled = false)) := by
  have h1 : (Manager.DisableAnalyzer (Manager.EnableAnalyzer reg tag).1 tag).1
      = reg.SetEnabled tag false := by
    rcases hl : reg.Lookup tag with _ | c
    · simp only [Manager.EnableAnalyzer, Manager.DisableAnalyzer, hl]
      exact (ComponentManager.SetEnabled_same reg tag false
        (fun c hc => by rw [hl] at hc; exact absurd hc (by simp))).symm
    · simp [Manager.EnableAnalyzer, Manager.DisableAnalyzer, hl,
        ComponentManager.Lookup_SetEnabled, ComponentManager.SetEnabled_SetEnabled]
  have h2 : (Manager.DisableAnalyzer reg tag).1 = reg.SetEnabled tag false := by
    rcases hl : reg.Lookup tag with _ | c
    · simp only [Manager.DisableAnalyzer, hl]
      exact (ComponentManager.SetEnabled_same reg tag false
        (fun c hc => by rw [hl] at hc; exact absurd hc (by simp))).symm
    · simp [Manager.DisableAnalyzer, hl]
  have hlook := ComponentManager.Lookup_SetEnabled reg tag false
  have hstate : reg.SetEnabled tag false = reg ↔
      ∀ c, reg.Lookup tag = some c → c.enabled = false := by
    constructor
    · intro heq c hc
      have h3 := hlook
      rw [heq, hc] at h3
      have h4 : c = { c with enabled := false } := Option.some.inj h3
      rw [h4]
    · exact ComponentManager.SetEnabled_same reg tag false
  have hflags : (reg.SetEnabled tag false).map Component.enabled = reg.map Component.enabled ↔
      ∀ c, reg.Lookup tag = some c → c.enabled = false := by
    constructor
    · intro heq
      clear h1 h2 hlook hstate
      induction reg with
      | nil =>
        intro c hc
        simp [ComponentManager.Lookup] at hc
      | cons d ds ih =>
        intro c hc
        rw [ComponentManager.SetEnabled_cons] at heq
        rw [ComponentManager.Lookup_cons] at hc
        by_cases hd : d.tag = tag
        · rw [if_pos hd] at heq hc
          have hdc : d = c := Option.some.inj hc
          have h5 : d.enabled = false := by simpa using heq
          rw [← hdc]
          exact h5
        · rw [if_neg hd] at heq hc
          have h5 : (ComponentManager.SetEnabled ds tag false).map Component.enabled
              = ds.map Component.enabled := by simpa using heq
          exact ih h5 c hc
    · intro hdis
      rw [hstate.2 hdis]
  rw [h1]
  refine ⟨h2.symm, hlook, ?_, ?_, ComponentManager.SetEnabled_forall2 reg tag false, hstate,
    hflags, ?_⟩
  · unfold Manager.IsEnabled
    rw [hlook]
    rcases reg.Lookup tag with _ | c <;> simp
  · intro conn
    unfold Manager.InstantiateAnalyzer
    rw [hlook]
    rcases reg.Lookup tag with _ | c <;> simp
  · intro hwf
    have hobs : (∀ t, Manager.IsEnabled (reg.SetEnabled tag false) t = Manager.IsEnabled reg t) →
        ∀ c, reg.Lookup tag = some c → c.enabled = false := by
      intro hobs c hc
      have htag : tag ≠ Tag.unset :=
        (ComponentManager.Lookup_mem reg tag c hc).2 ▸
          hwf c (ComponentManager.Lookup_mem reg tag c hc).1
      have h6 := hobs tag
      unfold Manager.IsEnabled at h6
      rw [hlook, hc] at h6
      simpa [htag] using h6.symm
    refine ⟨⟨hobs, fun hdis t => ?_⟩, ⟨fun hboth => hobs hboth.1, fun hdis => ⟨fun t => ?_,
      fun t conn => ?_⟩⟩⟩
    · rw [hstate.2 hdis]
    · rw [hstate.2 hdis]
    · rw [hstate.2 hdis]

theorem Manager.EnableAnalyzer_then_DisableAnalyzer_witness :
    (Manager.DisableAnalyzer
      (Manager.EnableAnalyzer [⟨1, "TCP", none, true⟩, ⟨7, "HTTP", none, false⟩] 7).1 7).1
      = [⟨1, "TCP", none, true⟩, ⟨7, "HTTP", none, false⟩] ∧
    Manager.IsEnabled [⟨1, "TCP", none, true⟩, ⟨7, "HTTP", none, true⟩] 7 = true ∧
    Manager.IsEnabled
      (Manager.DisableAnalyzer
        (Manager.EnableAnalyzer [⟨1, "TCP", none, true⟩, ⟨7, "HTTP", none, true⟩] 7).1 7).1 7
      = false ∧
    (Manager.DisableAnalyzer
      (Manager.EnableAnalyzer [⟨1, "TCP", none, true⟩, ⟨7, "HTTP", none, true⟩] 7).1 7).1
      ≠ [⟨1, "TCP", none, true⟩, ⟨7, "HTTP", none, true⟩] :=
  ⟨(Manager.EnableAnalyzer_then_DisableAnalyzer
      [⟨1, "TCP", none, true⟩, ⟨7, "HTTP", none, false⟩] 7).2.2.2.2.2.1.2 (by
        intro c hc
        have h : c = ⟨7, "HTTP", none, false⟩ := by
          simpa [ComponentManager.Lookup] using hc.symm
        rw [h]),
   by decide,
   (Manager.EnableAnalyzer_then_DisableAnalyzer
      [⟨1, "TCP", none, true⟩, ⟨7, "HTTP", none, true⟩] 7).2.2.1,
   fun heq => absurd
     ((Manager.EnableAnalyzer_then_DisableAnalyzer
        [⟨1, "TCP", none, true⟩, ⟨7, "HTTP", none, true⟩] 7).2.2.2.2.2.1.1 heq
        ⟨7, "HTTP", none, true⟩ rfl)
     (by decide)⟩

/-- C14: `InstantiateAnalyzer(tag, conn)` leaves the registry as it was.  It returns
null when no component is registered under `tag`, when the component is disabled, when
it has no factory, and when its factory returns null for `conn`; otherwise it returns
the analyzer the factory made for `conn`, with its analyzer tag set to `tag`. -/
theorem Manager.InstantiateAnalyzer_spec (reg : ComponentManager) (tag : Tag)
    (conn : Connection) :
    (Manager.InstantiateAnalyzer reg tag conn).1 = reg ∧
    (reg.Lookup tag = none → (Manager.InstantiateAnalyzer reg tag conn).2 = none) ∧
    (∀ c, reg.Lookup tag = some c → c.enabled = false →
      (Manager.InstantiateAnalyzer reg tag conn).2 = none) ∧
    (∀ c, reg.Lookup tag = some c → c.factory = none →
      (Manager.InstantiateAnalyzer reg tag conn).2 = none) ∧
    (∀ c factory, reg.Lookup tag = some c → c.factory = some factory → factory conn = none →
      (Manager.InstantiateAnalyzer reg tag conn).2 = none) ∧
    (∀ c factory a, reg.Lookup tag = some c → c.enabled = true → c.factory = some factory →
      factory conn = some a →
      (Manager.InstantiateAnalyzer reg tag conn).2 = some { a with tag := tag }) := by
  refine ⟨?_, ?_, ?_, ?_, ?_, ?_⟩
  · unfold Manager.InstantiateAnalyzer
    rcases reg.Lookup tag with _ | ⟨t, nm, f, e⟩
    · rfl
    · rcases e with _ | _
      · rfl
      · rcases f with _ | f
        · rfl
        · rcases hfc : f conn with _ | a <;> simp [hfc]
  · intro hl
    simp [Manager.InstantiateAnalyzer, hl]
  · intro c hl he
    simp [Manager.InstantiateAnalyzer, hl, he]
  · intro c hl hf
    simp [Manager.InstantiateAnalyzer, hl, hf]
  · intro c f hl hf hn
    simp [Manager.InstantiateAnalyzer, hl, hf, hn]
  · intro c f a hl he hf ha
    simp [Manager.InstantiateAnalyzer, hl, he, hf, ha]

/-! ## The analyzer tree -/

theorem tag_set.mem_inOrder (s : tag_set) (t : Tag) : t ∈ s.inOrder ↔ t ∈ s := by
  unfold tag_set.inOrder
  simp only [List.mem_filter, List.mem_range, decide_eq_true_eq]
  constructor
  · exact fun h => h.2
  · intro h
    have hle : id t ≤ s.sup id := Finset.le_sup (f := id) h
    exact ⟨Nat.lt_succ_of_le hle, h⟩

theorem tag_set.nodup_inOrder (s : tag_set) : s.inOrder.Nodup :=
  (List.nodup_range _).sublist (List.filter_sublist _)

theorem tag_set.inOrder_eq_nil (s : tag_set) : s.inOrder = [] ↔ s = ∅ := by
  constructor
  · intro h
    apply Finset.eq_empty_of_forall_not_mem
    intro t ht
    have := (tag_set.mem_inOrder s t).2 ht
    rw [h] at this
    exact List.not_mem_nil _ this
  · rintro rfl
    rfl

/-- An analyzer `InstantiateAnalyzer` returns carries the requested tag, and the
component registered under that tag is enabled. -/
theorem Manager.InstantiateAnalyzer_some (reg : ComponentManager) (tag : Tag)
    (conn : Connection) (a : Analyzer)
    (h : (Manager.InstantiateAnalyzer reg tag conn).2 = some a) :
    a.tag = tag ∧ reg.EnabledFor tag = true := by
  unfold ComponentManager.EnabledFor
  rcases hl : reg.Lookup tag with _ | ⟨t, nm, f, e⟩
  · simp [Manager.InstantiateAnalyzer, hl] at h
  · simp only [Manager.InstantiateAnalyzer, hl] at h
    rcases e with _ | _
    · simp at h
    · rcases f with _ | f
      · simp at h
      · rcases hfc : f conn with _ | b
        · simp [hfc] at h
        · simp only [hfc, Bool.not_true, Bool.false_eq_true, if_false, Option.some.injEq] at h
          subst h
          exact ⟨rfl, rfl⟩

theorem Manager.mem_instantiateAll (reg : ComponentManager) (conn : Connection)
    (tags : List Tag) (a : Analyzer) :
    a ∈ Manager.instantiateAll reg conn tags ↔
      ∃ t ∈ tags, (Manager.InstantiateAnalyzer reg t conn).2 = some a := by
  unfold Manager.instantiateAll
  simp [List.mem_filterMap]

/-- What the loop of `ApplyScheduledAnalyzers` does to the parent and the event queue. -/
theorem applyScheduledLoop_eq (reg : ComponentManager) (g : Globals) (conn : Connection)
    (init : Bool) (tags : List Tag) (p : SessionAdapter) (ev : List Event) :
    applyScheduledLoop reg g conn init tags p ev =
      ({ p with
          children := p.children ++ Manager.instantiateAll reg conn tags
          init_children :=
            if init then p.init_children ++ Manager.instantiateAll reg conn tags
            else p.init_children },
       if g.scheduled_analyzer_applied then
         ev ++ (tags.filter (fun t => (Manager.InstantiateAnalyzer reg t conn).2.isSome)).map
           (Event.scheduled_analyzer_applied conn)
       else ev) := by
  induction tags generalizing p ev with
  | nil =>
    unfold applyScheduledLoop
    cases init <;> cases g.scheduled_analyzer_applied <;>
      simp [Manager.instantiateAll]
  | cons t rest ih =>
    unfold applyScheduledLoop
    rcases hi : (Manager.InstantiateAnalyzer reg t conn).2 with _ | a
    · simp only [ih]
      simp [Manager.instantiateAll, hi]
    · simp only [ih]
      cases init <;> cases g.scheduled_analyzer_applied <;>
        simp [Manager.instantiateAll, hi, SessionAdapter.AddChildAnalyzer]

/-- What the loop over the tags of the responder port does to the root. -/
theorem portLoop_eq (reg : ComponentManager) (conn : Connection) (tags : List Tag)
    (root : SessionAdapter) :
    portLoop reg conn tags root =
      { root with children := root.children ++ Manager.instantiateAll reg conn tags } := by
  induction tags generalizing root with
  | nil =>
    unfold portLoop
    simp [Manager.instantiateAll]
  | cons t rest ih =>
    unfold portLoop
    rcases hi : (Manager.InstantiateAnalyzer reg t conn).2 with _ | a
    · simp only [ih]
      simp [Manager.instantiateAll, hi]
    · simp only [ih]
      simp [Manager.instantiateAll, hi, SessionAdapter.AddChildAnalyzer]

/-- The selection of application-layer analyzers only adds children to the root. -/
theorem Manager.selectAnalyzers_root (m : Manager) (reg : ComponentManager) (g : Globals)
    (network_time : Int) (conn : Connection) (cs : ConnState) (check_port : Bool)
    (root : SessionAdapter) :
    (m.selectAnalyzers reg g network_time conn cs check_port root).1 =
      { root with
        children := (m.selectAnalyzers reg g network_time conn cs check_port root).1.children } := by
  simp only [Manager.selectAnalyzers, Manager.ApplyScheduledAnalyzers, applyScheduledLoop_eq,
    Option.getD_some, Bool.false_eq_true, if_false]
  split
  · split
    · split
      · rw [portLoop_eq]
      · rfl
    · rfl
  · rfl

/-- When something is scheduled for the connection, the selection attaches the
analyzers instantiated from the scheduled tags and nothing else, and enqueues one
`scheduled_analyzer_applied` event per attached analyzer if a handler exists. -/
theorem Manager.selectAnalyzers_scheduled (m : Manager) (reg : ComponentManager) (g : Globals)
    (network_time : Int) (conn : Connection) (cs : ConnState) (check_port : Bool)
    (root : SessionAdapter) (h : (m.GetScheduled network_time conn).2 ≠ ∅) :
    (m.selectAnalyzers reg g network_time conn cs check_port root).1.children =
      root.children ++
        Manager.instantiateAll reg conn (m.GetScheduled network_time conn).2.inOrder ∧
    (m.selectAnalyzers reg g network_time conn cs check_port root).2 =
      { cs with
        events :=
          if g.scheduled_analyzer_applied then
            cs.events ++
              List.map (Event.scheduled_analyzer_applied conn)
                (List.filter (fun t => (Manager.InstantiateAnalyzer reg t conn).2.isSome)
                  (m.GetScheduled network_time conn).2.inOrder)
          else cs.events } := by
  have hc : (m.GetScheduled network_time conn).2.card ≠ 0 := by
    rw [Ne, Finset.card_eq_zero]
    exact h
  simp [Manager.selectAnalyzers, Manager.ApplyScheduledAnalyzers, applyScheduledLoop_eq, hc, h]

/-- When nothing is scheduled for the connection, the selection leaves the connection
as it was and attaches the analyzers instantiated from the tags registered for the
responder port, unless the port lookup is switched off. -/
theorem Manager.selectAnalyzers_unscheduled (m : Manager) (reg : ComponentManager)
    (g : Globals) (network_time : Int) (conn : Connection) (cs : ConnState) (check_port : Bool)
    (root : SessionAdapter) (h : (m.GetScheduled network_time conn).2 = ∅) :
    (m.selectAnalyzers reg g network_time conn cs check_port root).1.children =
      root.children ++
        (if check_port = true ∧ g.dpd_ignore_ports = false then
          Manager.instantiateAll reg conn
            ((m.LookupPort conn.proto (ntohs conn.resp_port) false).2.getD ∅).inOrder
        else []) ∧
    (m.selectAnalyzers reg g network_time conn cs check_port root).2 = cs := by
  have hin : (∅ : tag_set).inOrder = [] := rfl
  simp only [Manager.selectAnalyzers, Manager.ApplyScheduledAnalyzers, applyScheduledLoop_eq,
    h, hin, Option.getD_some, Finset.card_empty, ne_eq, not_true_eq_false, decide_False,
    Bool.not_false, if_true, Manager.instantiateAll, List.filterMap_nil, List.append_nil,
    List.filter_nil, List.map_nil, Bool.false_eq_true, if_false, ite_self]
  by_cases hcp : check_port = true ∧ g.dpd_ignore_ports = false
  · obtain ⟨h1, h2⟩ := hcp
    simp only [h1, h2, Bool.not_false, Bool.and_self, if_true, and_self]
    rcases hl : (m.LookupPort conn.proto (ntohs conn.resp_port) false).2 with _ | ports
    · simp [hin]
    · simp [portLoop_eq, Manager.instantiateAll]
  · have hb : (check_port && !g.dpd_ignore_ports) = false := by
      rcases check_port with _ | _ <;> rcases hd : g.dpd_ignore_ports with _ | _ <;>
        simp [hd] at hcp ⊢
    simp [hb, hcp]

/-- The connection `BuildInitialAnalyzerTree` leaves for a TCP connection, field by
field, in terms of the selection of application-layer analyzers. -/
theorem Manager.BuildInitialAnalyzerTree_tcp (m : Manager) (reg : ComponentManager)
    (tags : CachedTags) (g : Globals) (network_time : Int) (conn : Connection) (cs : ConnState)
    (h : conn.proto = .TRANSPORT_TCP) :
    m.BuildInitialAnalyzerTree reg tags g network_time conn cs =
      (true,
       { session_adapter := some
           { analyzer := ⟨.TCP_Analyzer, reg.GetComponentTag "TCP"⟩
             children :=
               (m.selectAnalyzers reg g network_time conn cs true
                 (SessionAdapter.new ⟨.TCP_Analyzer, reg.GetComponentTag "TCP"⟩)).1.children ++
               (if Manager.IsEnabled reg tags.analyzer_stepping = true ∧
                   (ntohs conn.resp_port = 22 ∨ ntohs conn.resp_port = 23 ∨
                     ntohs conn.resp_port = 513) ∧
                   conn.orig_addr ∉ g.stp_skip_src
                 then [⟨.SteppingStone_Analyzer, reg.GetComponentTag "STEPPINGSTONE"⟩]
                 else []) ++
               [⟨.PIA_TCP, reg.GetComponentTag "PIA_TCP"⟩]
             init_children := [⟨.PIA_TCP, reg.GetComponentTag "PIA_TCP"⟩]
             packet_children :=
               (if Manager.IsEnabled reg tags.analyzer_tcpstats = true
                 then [⟨.TCPStats_Analyzer, reg.GetComponentTag "TCPSTATS"⟩] else []) ++
               (if Manager.IsEnabled reg tags.analyzer_connsize = true
                 then [⟨.ConnSize_Analyzer, reg.GetComponentTag "CONNSIZE"⟩] else [])
             reassembly := reassemblyDecision g conn
               (m.selectAnalyzers reg g network_time conn cs true
                 (SessionAdapter.new ⟨.TCP_Analyzer, reg.GetComponentTag "TCP"⟩)).1.children.length
             calls := [LifecycleCall.Init, LifecycleCall.InitChildren] }
         pia := some ⟨.PIA_TCP, reg.GetComponentTag "PIA_TCP"⟩
         events := (m.selectAnalyzers reg g network_time conn cs true
           (SessionAdapter.new ⟨.TCP_Analyzer, reg.GetComponentTag "TCP"⟩)).2.events
         hook_setup_analyzer_tree := true }) := by
  have hroot := Manager.selectAnalyzers_root m reg g network_time conn cs true
    (SessionAdapter.new ⟨.TCP_Analyzer, reg.GetComponentTag "TCP"⟩)
  unfold Manager.BuildInitialAnalyzerTree
  simp only [h]
  generalize m.selectAnalyzers reg g network_time conn cs true
    (SessionAdapter.new ⟨.TCP_Analyzer, reg.GetComponentTag "TCP"⟩) = sel at hroot ⊢
  obtain ⟨root, cs1⟩ := sel
  simp only at hroot
  rw [hroot]
  simp only [SessionAdapter.new, SessionAdapter.GetChildren, ConnState.onAdapter,
    SessionAdapter.Init, SessionAdapter.InitChildren, SessionAdapter.AddChildAnalyzer,
    SessionAdapter.AddChildPacketAnalyzer, SessionAdapter.EnableReassembly]
  rcases reassemblyDecision g conn root.children.length with _ | _ <;>
  rcases Manager.IsEnabled reg tags.analyzer_stepping with _ | _ <;>
  rcases Manager.IsEnabled reg tags.analyzer_tcpstats with _ | _ <;>
  rcases Manager.IsEnabled reg tags.analyzer_connsize with _ | _ <;>
  by_cases hp : (ntohs conn.resp_port = 22 ∨ ntohs conn.resp_port = 23 ∨
      ntohs conn.resp_port = 513) <;>
  by_cases hs : conn.orig_addr ∈ g.stp_skip_src <;>
  simp [hp, hs, SessionAdapter.Init, SessionAdapter.InitChildren,
    SessionAdapter.AddChildAnalyzer, SessionAdapter.AddChildPacketAnalyzer,
    SessionAdapter.EnableReassembly]

theorem reassemblyDecision_iff (g : Globals) (conn : Connection) (n : Nat) :
    reassemblyDecision g conn n = true ↔
      (n ≠ 0 ∨ g.dpd_reassemble_first_packets = true ∨ g.tcp_content_deliver_all_orig = true ∨
        g.tcp_content_deliver_all_resp = true ∨
        (g.tcp_contents = true ∧
          ((ntohs conn.resp_port, TransportProto.TRANSPORT_TCP) ∈
              g.tcp_content_delivery_ports_orig ∨
            (ntohs conn.resp_port, TransportProto.TRANSPORT_TCP) ∈
              g.tcp_content_delivery_ports_resp))) := by
  unfold reassemblyDecision
  by_cases hn : n = 0 <;>
  rcases g.dpd_reassemble_first_packets with _ | _ <;>
  rcases g.tcp_content_deliver_all_orig with _ | _ <;>
  rcases g.tcp_content_deliver_all_resp with _ | _ <;>
  rcases g.tcp_contents with _ | _ <;>
  by_cases ho : (ntohs conn.resp_port, TransportProto.TRANSPORT_TCP) ∈
      g.tcp_content_delivery_ports_orig <;>
  simp [hn, ho]

/-! ## Theorems: `BuildInitialAnalyzerTree` -/

/-- C18: when `BuildInitialAnalyzerTree` returns true, the connection holds a session
adapter and a PIA, the PIA is a child of that root, and the root has received `Init()`
and then `InitChildren()`.  It returns true for a TCP connection; for every other
transport, the unknown one included, it returns false and leaves the connection as it
was, so that no session adapter is installed. -/
theorem Manager.BuildInitialAnalyzerTree_installs (m : Manager) (reg : ComponentManager)
    (tags : CachedTags) (g : Globals) (network_time : Int) (conn : Connection)
    (cs : ConnState) :
    ((m.BuildInitialAnalyzerTree reg tags g network_time conn cs).1 = true →
      ∃ root pia,
        (m.BuildInitialAnalyzerTree reg tags g network_time conn cs).2.session_adapter
          = some root ∧
        (m.BuildInitialAnalyzerTree reg tags g network_time conn cs).2.pia = some pia ∧
        pia ∈ root.children ∧
        root.calls = [LifecycleCall.Init, LifecycleCall.InitChildren]) ∧
    (conn.proto = .TRANSPORT_TCP →
      (m.BuildInitialAnalyzerTree reg tags g network_time conn cs).1 = true) ∧
    (conn.proto ≠ .TRANSPORT_TCP →
      (m.BuildInitialAnalyzerTree reg tags g network_time conn cs).1 = false ∧
      (m.BuildInitialAnalyzerTree reg tags g network_time conn cs).2 = cs) ∧
    (conn.proto = .TRANSPORT_UNKNOWN →
      (m.BuildInitialAnalyzerTree reg tags g network_time conn cs).1 = false ∧
      (m.BuildInitialAnalyzerTree reg tags g network_time conn cs).2.session_adapter
        = cs.session_adapter) := by
  have hother : conn.proto ≠ .TRANSPORT_TCP →
      m.BuildInitialAnalyzerTree reg tags g network_time conn cs = (false, cs) := by
    intro hne
    unfold Manager.BuildInitialAnalyzerTree
    rcases hp : conn.proto with _ | _ | _ | _
    · rfl
    · exact absurd hp hne
    · rfl
    · rfl
  refine ⟨?_, ?_, ?_, ?_⟩
  · intro htrue
    by_cases hp : conn.proto = .TRANSPORT_TCP
    · rw [Manager.BuildInitialAnalyzerTree_tcp m reg tags g network_time conn cs hp]
      exact ⟨_, _, rfl, rfl, by simp, rfl⟩
    · rw [hother hp] at htrue
      exact absurd htrue (by simp)
  · intro hp
    rw [Manager.BuildInitialAnalyzerTree_tcp m reg tags g network_time conn cs hp]
  · intro hp
    rw [hother hp]
    exact ⟨rfl, rfl⟩
  · intro hp
    rw [hother (by rw [hp]; decide)]
    exact ⟨rfl, rfl⟩

/-- C20: for a TCP connection `BuildInitialAnalyzerTree` enables reassembly on the root
exactly when the root has a child after the scheduled and port-based selection, or
`dpd_reassemble_first_packets`, `tcp_content_deliver_all_orig` or
`tcp_content_deliver_all_resp` is set, or `tcp_contents` is set and the responder port
is in `tcp_content_delivery_ports_orig` or in `tcp_content_delivery_ports_resp`.  In
particular with `tcp_contents` set and the responder port in
`tcp_content_delivery_ports_resp` reassembly is enabled whatever else holds. -/
theorem Manager.BuildInitialAnalyzerTree_reassembly (m : Manager) (reg : ComponentManager)
    (tags : CachedTags) (g : Globals) (network_time : Int) (conn : Connection) (cs : ConnState)
    (h : conn.proto = .TRANSPORT_TCP) :
    ∃ root,
      (m.BuildInitialAnalyzerTree reg tags g network_time conn cs).2.session_adapter
        = some root ∧
      (root.reassembly = true ↔
        ((m.selectAnalyzers reg g network_time conn cs true
            (SessionAdapter.new ⟨.TCP_Analyzer, reg.GetComponentTag "TCP"⟩)).1.children ≠ [] ∨
          g.dpd_reassemble_first_packets = true ∨ g.tcp_content_deliver_all_orig = true ∨
          g.tcp_content_deliver_all_resp = true ∨
          (g.tcp_contents = true ∧
            ((ntohs conn.resp_port, TransportProto.TRANSPORT_TCP) ∈
                g.tcp_content_delivery_ports_orig ∨
              (ntohs conn.resp_port, TransportProto.TRANSPORT_TCP) ∈
                g.tcp_content_delivery_ports_resp)))) ∧
      (g.tcp_contents = true →
        (ntohs conn.resp_port, TransportProto.TRANSPORT_TCP) ∈
          g.tcp_content_delivery_ports_resp →
        root.reassembly = true) := by
  rw [Manager.BuildInitialAnalyzerTree_tcp m reg tags g network_time conn cs h]
  refine ⟨_, rfl, ?_, ?_⟩
  · simp only [reassemblyDecision_iff, ne_eq, List.length_eq_zero]
  · intro h1 h2
    simp only [reassemblyDecision_iff]
    exact Or.inr (Or.inr (Or.inr (Or.inr ⟨h1, Or.inr h2⟩)))

theorem Manager.BuildInitialAnalyzerTree_reassembly_witness :
    (exampleManagerEmpty.BuildInitialAnalyzerTree exampleRegistry
        (Manager.InitPreScript exampleRegistry) exampleGlobals 100 (exampleConn 80)
        ConnState.fresh).2.session_adapter.map (fun root => root.reassembly) = some true ∧
    (exampleManagerEmpty.selectAnalyzers exampleRegistry exampleGlobals 100 (exampleConn 80)
        ConnState.fresh true
        (SessionAdapter.new ⟨.TCP_Analyzer, exampleRegistry.GetComponentTag "TCP"⟩)).1.children
      = [] := by
  obtain ⟨root, hroot, _, hres⟩ := Manager.BuildInitialAnalyzerTree_reassembly
    exampleManagerEmpty exampleRegistry (Manager.InitPreScript exampleRegistry) exampleGlobals
    100 (exampleConn 80) ConnState.fresh rfl
  refine ⟨?_, by decide⟩
  rw [hroot]
  exact congrArg some (hres rfl (by decide))

/-- `InstantiateAnalyzer` returns an analyzer exactly for a tag that is registered,
enabled, and whose factory yields an analyzer for the connection. -/
theorem Manager.InstantiateAnalyzer_isSome_iff (reg : ComponentManager) (tag : Tag)
    (conn : Connection) :
    (Manager.InstantiateAnalyzer reg tag conn).2.isSome = true ↔
      ∃ c factory a, reg.Lookup tag = some c ∧ c.enabled = true ∧
        c.factory = some factory ∧ factory conn = some a := by
  unfold Manager.InstantiateAnalyzer
  rcases reg.Lookup tag with _ | ⟨t, nm, f, e⟩
  · simp
  · rcases e with _ | _
    · simp
    · rcases f with _ | f
      · simp
      · rcases hfc : f conn with _ | b
        · simp [hfc]
        · simp [hfc]

/-- One `scheduled_analyzer_applied` event per instantiated analyzer, carrying its tag. -/
theorem Manager.events_instantiateAll (reg : ComponentManager) (conn : Connection)
    (tags : List Tag) :
    (tags.filter (fun t => (Manager.InstantiateAnalyzer reg t conn).2.isSome)).map
        (Event.scheduled_analyzer_applied conn)
      = (Manager.instantiateAll reg conn tags).map
          (fun a => Event.scheduled_analyzer_applied conn a.tag) := by
  unfold Manager.instantiateAll
  induction tags with
  | nil => rfl
  | cons t rest ih =>
    rcases hi : (Manager.InstantiateAnalyzer reg t conn).2 with _ | a
    · simp [hi, ih]
    · have ht := (Manager.InstantiateAnalyzer_some reg t conn a hi).1
      simp [hi, ih, ht]

/-- Among the analyzers instantiated from a duplicate-free list of tags, the number of
those that carry a given tag is one if the tag is in the list and instantiable, and
zero otherwise. -/
theorem Manager.count_instantiateAll (reg : ComponentManager) (conn : Connection)
    (tags : List Tag) (hnd : tags.Nodup) (t : Tag) :
    ((Manager.instantiateAll reg conn tags).filter (fun a => decide (a.tag = t))).length =
      if t ∈ tags ∧ (Manager.InstantiateAnalyzer reg t conn).2.isSome = true then 1 else 0 := by
  unfold Manager.instantiateAll
  induction tags with
  | nil => simp
  | cons u rest ih =>
    have hnd2 := List.nodup_cons.1 hnd
    have ih2 := ih hnd2.2
    rcases hi : (Manager.InstantiateAnalyzer reg u conn).2 with _ | a
    · simp only [List.filterMap_cons, hi]
      rw [ih2]
      by_cases hut : u = t
      · subst hut
        simp [hi, hnd2.1]
      · have : t ≠ u := fun h => hut h.symm
        simp [this]
    · have ha := (Manager.InstantiateAnalyzer_some reg u conn a hi).1
      simp only [List.filterMap_cons, hi]
      by_cases hut : u = t
      · subst hut
        rw [List.filter_cons_of_pos (by simpa using ha), List.length_cons, ih2]
        simp [hi, hnd2.1]
      · have hne : t ≠ u := fun h => hut h.symm
        rw [List.filter_cons_of_neg (by simpa [ha] using hut), ih2]
        simp [hne]

/-- C16: `ApplyScheduledAnalyzers`, called with a parent, returns true exactly when
`GetScheduled` returns a non-empty set.  For a TCP connection with a non-empty
scheduled set, `BuildInitialAnalyzerTree` attaches to the root the analyzers
instantiated from the scheduled tags, then the stepping-stone analyzer if its
conditions hold, then the PIA, and no analyzer selected by port; the connection's
event queue grows by one `scheduled_analyzer_applied` event per attached scheduled
analyzer when a handler exists, and by nothing otherwise. -/
theorem Manager.BuildInitialAnalyzerTree_scheduled (m : Manager) (reg : ComponentManager)
    (tags : CachedTags) (g : Globals) (network_time : Int) (conn : Connection)
    (cs : ConnState) :
    (∀ (init : Bool) (p : SessionAdapter),
      (m.ApplyScheduledAnalyzers reg g network_time conn cs init (some p)).1 = true ↔
        (m.GetScheduled network_time conn).2 ≠ ∅) ∧
    (conn.proto = .TRANSPORT_TCP → (m.GetScheduled network_time conn).2 ≠ ∅ →
      ∃ root,
        (m.BuildInitialAnalyzerTree reg tags g network_time conn cs).2.session_adapter
          = some root ∧
        root.children =
          Manager.instantiateAll reg conn (m.GetScheduled network_time conn).2.inOrder ++
          (if Manager.IsEnabled reg tags.analyzer_stepping = true ∧
              (ntohs conn.resp_port = 22 ∨ ntohs conn.resp_port = 23 ∨
                ntohs conn.resp_port = 513) ∧
              conn.orig_addr ∉ g.stp_skip_src
            then [⟨.SteppingStone_Analyzer, reg.GetComponentTag "STEPPINGSTONE"⟩]
            else []) ++
          [⟨.PIA_TCP, reg.GetComponentTag "PIA_TCP"⟩] ∧
        (m.BuildInitialAnalyzerTree reg tags g network_time conn cs).2.events =
          cs.events ++
            (if g.scheduled_analyzer_applied = true then
              (Manager.instantiateAll reg conn
                (m.GetScheduled network_time conn).2.inOrder).map
                (fun a => Event.scheduled_analyzer_applied conn a.tag)
            else [])) := by
  constructor
  · intro init p
    simp [Manager.ApplyScheduledAnalyzers, Finset.card_eq_zero]
  · intro h hs
    rw [Manager.BuildInitialAnalyzerTree_tcp m reg tags g network_time conn cs h]
    have hsel := Manager.selectAnalyzers_scheduled m reg g network_time conn cs true
      (SessionAdapter.new ⟨.TCP_Analyzer, reg.GetComponentTag "TCP"⟩) hs
    obtain ⟨hc, he⟩ := hsel
    simp only [SessionAdapter.new, List.nil_append] at hc
    refine ⟨_, rfl, ?_, ?_⟩
    · simp only [SessionAdapter.new]
      rw [hc]
    · rw [he]
      simp only [Manager.events_instantiateAll]
      rcases g.scheduled_analyzer_applied with _ | _ <;> simp

theorem Manager.BuildInitialAnalyzerTree_scheduled_witness :
    ∃ root,
      (exampleManagerScheduled.BuildInitialAnalyzerTree exampleRegistry
        (Manager.InitPreScript exampleRegistry) exampleGlobals 115 (exampleConn 20000)
        ConnState.fresh).2.session_adapter = some root ∧
      root.children = [⟨.other 8, 8⟩, ⟨.PIA_TCP, 2⟩] ∧
      (exampleManagerScheduled.BuildInitialAnalyzerTree exampleRegistry
        (Manager.InitPreScript exampleRegistry) exampleGlobals 115 (exampleConn 20000)
        ConnState.fresh).2.events
        = [Event.scheduled_analyzer_applied (exampleConn 20000) 8] := by
  obtain ⟨root, h1, h2, h3⟩ := (Manager.BuildInitialAnalyzerTree_scheduled
    exampleManagerScheduled exampleRegistry (Manager.InitPreScript exampleRegistry)
    exampleGlobals 115 (exampleConn 20000) ConnState.fresh).2 rfl (by decide)
  refine ⟨root, h1, ?_, ?_⟩
  · rw [h2]
    decide
  · rw [h3]
    decide

/-- The number of children of a TCP root that carry a given tag: those among the
selected analyzers, the stepping-stone analyzer if it is attached and carries the tag,
and the PIA if it carries the tag. -/
theorem Manager.count_tcp_children (sel : List Analyzer) (c : Prop) [Decidable c]
    (stepper pia : Analyzer) (t : Tag) :
    ((sel ++ (if c then [stepper] else []) ++ [pia]).filter
        (fun a => decide (a.tag = t))).length =
      (sel.filter (fun a => decide (a.tag = t))).length +
        (if c ∧ stepper.tag = t then 1 else 0) + (if pia.tag = t then 1 else 0) := by
  simp only [List.filter_append, List.length_append]
  by_cases hc : c <;> by_cases h1 : stepper.tag = t <;> by_cases h2 : pia.tag = t <;>
    simp [hc, h1, h2]

/-- C17 (as stated, refuted): two TCP connections for which nothing is scheduled, with
`dpd_ignore_ports` false.  In the first the PIA_TCP tag (2) is registered for the
responder port 8080 and is not instantiable (its component has no factory), yet one
child of the root carries it: the PIA.  In the second the STEPPINGSTONE tag (3) is
registered for the responder port 22 and is instantiable, and two children of the root
carry it: the analyzer instantiated for the port and the stepping-stone analyzer the
build attaches itself. -/
theorem Manager.BuildInitialAnalyzerTree_ports_counterexample :
    ((exampleManagerBuiltin.GetScheduled 100 (exampleConn 8080)).2 = ∅ ∧
      exampleGlobals.dpd_ignore_ports = false ∧
      (exampleManagerBuiltin.LookupPort .TRANSPORT_TCP 8080 false).2 = some {2} ∧
      (Manager.InstantiateAnalyzer exampleRegistry 2 (exampleConn 8080)).2 = none ∧
      (exampleManagerBuiltin.BuildInitialAnalyzerTree exampleRegistry
        (Manager.InitPreScript exampleRegistry) exampleGlobals 100 (exampleConn 8080)
        ConnState.fresh).2.session_adapter.map (fun root => root.children)
        = some [⟨.PIA_TCP, 2⟩]) ∧
    ((exampleManagerBuiltin.GetScheduled 100 (exampleConn 22)).2 = ∅ ∧
      (exampleManagerBuiltin.LookupPort .TRANSPORT_TCP 22 false).2 = some {3} ∧
      (Manager.InstantiateAnalyzer exampleRegistryFactories 3 (exampleConn 22)).2
        = some ⟨.SteppingStone_Analyzer, 3⟩ ∧
      (exampleManagerBuiltin.BuildInitialAnalyzerTree exampleRegistryFactories
        (Manager.InitPreScript exampleRegistryFactories) exampleGlobals 100 (exampleConn 22)
        ConnState.fresh).2.session_adapter.map (fun root => root.children)
        = some [⟨.SteppingStone_Analyzer, 3⟩, ⟨.SteppingStone_Analyzer, 3⟩, ⟨.PIA_TCP, 2⟩]) := by
  decide

/-- C17 (amended): for a TCP connection for which nothing is scheduled, the root
`BuildInitialAnalyzerTree` installs has as children, in this order, the port-selected
analyzers, the stepping-stone analyzer if its conditions hold, and the PIA; its
packet-level children are the TCP-stats and connection-size analyzers that are enabled.
With `dpd_ignore_ports` false the port-selected analyzers are those instantiated from
the tags registered for TCP at the responder port (host order): for each such tag
exactly one of them carries it if the tag is registered, enabled and its factory yields
an analyzer, and none otherwise.  The number of children of the root that carry such a
tag is that number, plus one if the stepping-stone analyzer is attached and the tag is
the STEPPINGSTONE tag, plus one if the tag is the PIA_TCP tag; so for a tag other than
these two exactly one child carries it if it is instantiable, and none otherwise.  With
`dpd_ignore_ports` true there is no port-selected analyzer. -/
theorem Manager.BuildInitialAnalyzerTree_ports (m : Manager) (reg : ComponentManager)
    (tags : CachedTags) (g : Globals) (network_time : Int) (conn : Connection) (cs : ConnState)
    (h : conn.proto = .TRANSPORT_TCP) (hs : (m.GetScheduled network_time conn).2 = ∅) :
    ∃ root selected,
      (m.BuildInitialAnalyzerTree reg tags g network_time conn cs).2.session_adapter
        = some root ∧
      root.children =
        selected ++
        (if Manager.IsEnabled reg tags.analyzer_stepping = true ∧
            (ntohs conn.resp_port = 22 ∨ ntohs conn.resp_port = 23 ∨
              ntohs conn.resp_port = 513) ∧
            conn.orig_addr ∉ g.stp_skip_src
          then [⟨.SteppingStone_Analyzer, reg.GetComponentTag "STEPPINGSTONE"⟩]
          else []) ++
        [⟨.PIA_TCP, reg.GetComponentTag "PIA_TCP"⟩] ∧
      root.packet_children =
        (if Manager.IsEnabled reg tags.analyzer_tcpstats = true
          then [⟨.TCPStats_Analyzer, reg.GetComponentTag "TCPSTATS"⟩] else []) ++
        (if Manager.IsEnabled reg tags.analyzer_connsize = true
          then [⟨.ConnSize_Analyzer, reg.GetComponentTag "CONNSIZE"⟩] else []) ∧
      (g.dpd_ignore_ports = true → selected = []) ∧
      (g.dpd_ignore_ports = false →
        selected = Manager.instantiateAll reg conn
          ((m.LookupPort .TRANSPORT_TCP (ntohs conn.resp_port) false).2.getD ∅).inOrder ∧
        ∀ t ∈ (m.LookupPort .TRANSPORT_TCP (ntohs conn.resp_port) false).2.getD ∅,
          ((∃ c factory a, reg.Lookup t = some c ∧ c.enabled = true ∧
              c.factory = some factory ∧ factory conn = some a) →
            (selected.filter (fun a => decide (a.tag = t))).length = 1) ∧
          ((¬ ∃ c factory a, reg.Lookup t = some c ∧ c.enabled = true ∧
              c.factory = some factory ∧ factory conn = some a) →
            (selected.filter (fun a => decide (a.tag = t))).length = 0) ∧
          (root.children.filter (fun a => decide (a.tag = t))).length =
            (if (Manager.InstantiateAnalyzer reg t conn).2.isSome = true then 1 else 0) +
            (if (Manager.IsEnabled reg tags.analyzer_stepping = true ∧
                (ntohs conn.resp_port = 22 ∨ ntohs conn.resp_port = 23 ∨
                  ntohs conn.resp_port = 513) ∧
                conn.orig_addr ∉ g.stp_skip_src) ∧
                reg.GetComponentTag "STEPPINGSTONE" = t then 1 else 0) +
            (if reg.GetComponentTag "PIA_TCP" = t then 1 else 0) ∧
          (reg.GetComponentTag "STEPPINGSTONE" ≠ t → reg.GetComponentTag "PIA_TCP" ≠ t →
            ((∃ c factory a, reg.Lookup t = some c ∧ c.enabled = true ∧
                c.factory = some factory ∧ factory conn = some a) →
              (root.children.filter (fun a => decide (a.tag = t))).length = 1) ∧
            ((¬ ∃ c factory a, reg.Lookup t = some c ∧ c.enabled = true ∧
                c.factory = some factory ∧ factory conn = some a) →
              (root.children.filter (fun a => decide (a.tag = t))).length = 0))) := by
  rw [Manager.BuildInitialAnalyzerTree_tcp m reg tags g network_time conn cs h]
  have hsel := (Manager.selectAnalyzers_unscheduled m reg g network_time conn cs true
    (SessionAdapter.new ⟨.TCP_Analyzer, reg.GetComponentTag "TCP"⟩) hs).1
  have hnew : (SessionAdapter.new ⟨.TCP_Analyzer, reg.GetComponentTag "TCP"⟩).children = [] := rfl
  rw [hnew] at hsel
  simp only [List.nil_append, true_and, h] at hsel
  refine ⟨_, (m.selectAnalyzers reg g network_time conn cs true
    (SessionAdapter.new ⟨.TCP_Analyzer, reg.GetComponentTag "TCP"⟩)).1.children,
    rfl, rfl, rfl, ?_, ?_⟩
  · intro hig
    rw [hsel]
    simp [hig]
  · intro hig
    rw [hsel]
    simp only [hig, if_true, true_and]
    intro t ht
    have hcount := Manager.count_instantiateAll reg conn _
      (tag_set.nodup_inOrder
        ((m.LookupPort .TRANSPORT_TCP (ntohs conn.resp_port) false).2.getD ∅)) t
    have hmem := (tag_set.mem_inOrder _ t).2 ht
    have hroot := Manager.count_tcp_children
      (Manager.instantiateAll reg conn
        ((m.LookupPort .TRANSPORT_TCP (ntohs conn.resp_port) false).2.getD ∅).inOrder)
      (Manager.IsEnabled reg tags.analyzer_stepping = true ∧
        (ntohs conn.resp_port = 22 ∨ ntohs conn.resp_port = 23 ∨
          ntohs conn.resp_port = 513) ∧
        conn.orig_addr ∉ g.stp_skip_src)
      ⟨.SteppingStone_Analyzer, reg.GetComponentTag "STEPPINGSTONE"⟩
      ⟨.PIA_TCP, reg.GetComponentTag "PIA_TCP"⟩ t
    rw [hcount] at hroot
    simp only [hmem, true_and] at hroot
    refine ⟨?_, ?_, hroot, ?_⟩
    · intro hex
      rw [hcount]
      have := (Manager.InstantiateAnalyzer_isSome_iff reg t conn).2 hex
      simp [hmem, this]
    · intro hex
      rw [hcount]
      have : ¬ (Manager.InstantiateAnalyzer reg t conn).2.isSome = true := fun hh =>
        hex ((Manager.InstantiateAnalyzer_isSome_iff reg t conn).1 hh)
      simp [this]
    · intro h1 h2
      constructor
      · intro hex
        have := (Manager.InstantiateAnalyzer_isSome_iff reg t conn).2 hex
        rw [hroot]
        simp [this, h1, h2]
      · intro hex
        have : ¬ (Manager.InstantiateAnalyzer reg t conn).2.isSome = true := fun hh =>
          hex ((Manager.InstantiateAnalyzer_isSome_iff reg t conn).1 hh)
        rw [hroot]
        simp [this, h1, h2]

theorem Manager.BuildInitialAnalyzerTree_ports_witness :
    ∃ root selected,
      (exampleManagerHttp.BuildInitialAnalyzerTree exampleRegistry
        (Manager.InitPreScript exampleRegistry) exampleGlobals 100 (exampleConn 80)
        ConnState.fresh).2.session_adapter = some root ∧
      root.children = selected ++ [] ++ [⟨.PIA_TCP, 2⟩] ∧
      selected = [⟨.other 7, 7⟩] ∧
      root.packet_children = [⟨.ConnSize_Analyzer, 5⟩] ∧
      (root.children.filter (fun a => decide (a.tag = 7))).length = 1 := by
  obtain ⟨root, selected, h1, h2, h3, _, h5⟩ := Manager.BuildInitialAnalyzerTree_ports
    exampleManagerHttp exampleRegistry (Manager.InitPreScript exampleRegistry)
    exampleGlobals 100 (exampleConn 80) ConnState.fresh rfl (by decide)
  have hsel : selected = [⟨.other 7, 7⟩] := by
    rw [(h5 rfl).1]
    decide
  have hcnt := ((h5 rfl).2 7 (by decide)).2.2.2 (by decide) (by decide)
  subst hsel
  refine ⟨root, _, h1, ?_, rfl, ?_, ?_⟩
  · rw [h2]
    decide
  · rw [h3]
    decide
  · exact hcnt.1 ⟨⟨7, "HTTP", some (fun _ => some ⟨.other 7, 0⟩), true⟩,
      fun _ => some ⟨.other 7, 0⟩, ⟨.other 7, 0⟩, rfl, rfl, rfl, rfl⟩

/-! ## Theorems: the dispatcher -/

/-- When `BuildInitialAnalyzerTree` returns true the connection it leaves holds a root
that received `Init()` and then `InitChildren()`. -/
theorem Manager.BuildInitialAnalyzerTree_true (m : Manager) (reg : ComponentManager)
    (tags : CachedTags) (g : Globals) (network_time : Int) (conn : Connection) (cs : ConnState)
    (h : (m.BuildInitialAnalyzerTree reg tags g network_time conn cs).1 = true) :
    ∃ root,
      (m.BuildInitialAnalyzerTree reg tags g network_time conn cs).2.session_adapter
        = some root ∧
      root.calls = [LifecycleCall.Init, LifecycleCall.InitChildren] := by
  by_cases hp : conn.proto = .TRANSPORT_TCP
  · rw [Manager.BuildInitialAnalyzerTree_tcp m reg tags g network_time conn cs hp]
    exact ⟨_, rfl, rfl⟩
  · exfalso
    unfold Manager.BuildInitialAnalyzerTree at h
    rcases hq : conn.proto with _ | _ | _ | _
    · simp [hq] at h
    · exact hp hq
    · simp [hq] at h
    · simp [hq] at h

/-- `BuildSessionAnalyzerTree` returns true, and the connection it leaves holds a root
whose last two lifecycle calls are `Init()` and `InitChildren()`. -/
theorem IPBasedAnalyzer.BuildSessionAnalyzerTree_calls (self : IPBasedAnalyzer) (env : Env)
    (conn : Connection) (cs : ConnState) :
    (self.BuildSessionAnalyzerTree env conn cs).1 = true ∧
    ∃ root,
      (self.BuildSessionAnalyzerTree env conn cs).2.session_adapter = some root ∧
      [LifecycleCall.Init, LifecycleCall.InitChildren] <:+ root.calls := by
  unfold IPBasedAnalyzer.BuildSessionAnalyzerTree
  refine ⟨rfl, _, rfl, ?_⟩
  simp only [SessionAdapter.Init, SessionAdapter.InitChildren, List.append_assoc,
    List.singleton_append]
  exact List.suffix_append _ _

/-- What a successful `NewConn` implies. -/
theorem IPBasedAnalyzer.NewConn_some (self : IPBasedAnalyzer) (env : Env) (id : ConnTuple)
    (key : Nat) (pkt : Packet) (c : Session) (h : self.NewConn env id key pkt = some c) :
    (self.WantConnection (ntohs id.src_port) (ntohs id.dst_port) pkt.payload).1 = true ∧
    (self.buildTree env (self.makeConn id key
      (self.WantConnection (ntohs id.src_port) (ntohs id.dst_port) pkt.payload).2)).1 = true ∧
    c.TreeReady := by
  unfold IPBasedAnalyzer.NewConn at h
  rcases hw : (self.WantConnection (ntohs id.src_port) (ntohs id.dst_port) pkt.payload).1
    with _ | _
  · simp [hw] at h
  · rcases hb : (self.buildTree env (self.makeConn id key
      (self.WantConnection (ntohs id.src_port) (ntohs id.dst_port) pkt.payload).2)).1 with _ | _
    · simp [hw, hb] at h
    · refine ⟨rfl, rfl, ?_⟩
      simp only [hw, hb, Bool.not_true, Bool.false_eq_true, if_false, Option.some.injEq] at h
      have hsa : ∃ root,
          (self.buildTree env (self.makeConn id key
            (self.WantConnection (ntohs id.src_port) (ntohs id.dst_port)
              pkt.payload).2)).2.session_adapter = some root ∧
          [LifecycleCall.Init, LifecycleCall.InitChildren] <:+ root.calls := by
        unfold IPBasedAnalyzer.buildTree at hb ⊢
        rcases hn : env.new_plugin with _ | _
        · simp only [hn, Bool.not_false, if_true] at hb ⊢
          obtain ⟨root, hr, hc⟩ := Manager.BuildInitialAnalyzerTree_true _ _ _ _ _ _ _ hb
          exact ⟨root, hr, by rw [hc]⟩
        · simp only [Bool.not_true, Bool.false_eq_true, if_false]
          exact (IPBasedAnalyzer.BuildSessionAnalyzerTree_calls self env _ _).2
      obtain ⟨root, hr, hc⟩ := hsa
      subst h
      unfold Session.TreeReady
      rcases env.new_connection with _ | _
      · simp only [Bool.false_eq_true, if_false, hr]
        exact hc
      · simp only [if_true, Session.Event, hr]
        exact hc

/-- C19: `NewConn` returns a connection only if `WantConnection` accepted it and the
tree building returned true, and that connection has its root installed and
initialised; it returns null whenever `WantConnection` refuses or the tree building
fails.  Every connection in the session table after `AnalyzePacket` was in it before or
is the one `NewConn` returned for this packet, so a table of connections with installed
and initialised roots stays one.  When `NewConn` returns null, `AnalyzePacket` returns
false and inserts nothing: the table is unchanged if no connection was found for the
key, and is the table without the old connection on the reuse path. -/
theorem IPBasedAnalyzer.AnalyzePacket_inserts (self : IPBasedAnalyzer) (env : Env)
    (session_mgr : SessionTable) (pkt : Packet) :
    (∀ id key c, self.NewConn env id key pkt = some c →
      (self.WantConnection (ntohs id.src_port) (ntohs id.dst_port) pkt.payload).1 = true ∧
      (self.buildTree env (self.makeConn id key
        (self.WantConnection (ntohs id.src_port) (ntohs id.dst_port) pkt.payload).2)).1 = true ∧
      c.TreeReady) ∧
    (∀ id key,
      ((self.WantConnection (ntohs id.src_port) (ntohs id.dst_port) pkt.payload).1 = false ∨
        (self.buildTree env (self.makeConn id key
          (self.WantConnection (ntohs id.src_port) (ntohs id.dst_port) pkt.payload).2)).1
          = false) →
      self.NewConn env id key pkt = none) ∧
    (∀ c ∈ (self.AnalyzePacket env session_mgr pkt).2,
      c ∈ session_mgr ∨
        ∃ id, self.BuildConnTuple pkt = some id ∧
          self.NewConn env id (env.ConnKey id) pkt = some c) ∧
    ((∀ c ∈ session_mgr, c.TreeReady) →
      ∀ c ∈ (self.AnalyzePacket env session_mgr pkt).2, c.TreeReady) ∧
    (∀ id, self.BuildConnTuple pkt = some id →
      self.NewConn env id (env.ConnKey id) pkt = none →
      (session_mgr.FindConnection (env.ConnKey id) = none →
        self.AnalyzePacket env session_mgr pkt = (false, session_mgr)) ∧
      (∀ old, session_mgr.FindConnection (env.ConnKey id) = some old →
        env.IsReuse old pkt = true →
        self.AnalyzePacket env session_mgr pkt = (false, session_mgr.Remove old))) := by
  have hmem : ∀ c ∈ (self.AnalyzePacket env session_mgr pkt).2,
      c ∈ session_mgr ∨
        ∃ id, self.BuildConnTuple pkt = some id ∧
          self.NewConn env id (env.ConnKey id) pkt = some c := by
    intro c hc
    unfold IPBasedAnalyzer.AnalyzePacket at hc
    rcases hb : self.BuildConnTuple pkt with _ | id
    · simp only [hb] at hc
      exact Or.inl hc
    · simp only [hb] at hc
      rcases hf : session_mgr.FindConnection (env.ConnKey id) with _ | old
      · simp only [hf] at hc
        rcases hn : self.NewConn env id (env.ConnKey id) pkt with _ | nc
        · simp only [hn] at hc
          exact Or.inl hc
        · simp only [hn, SessionTable.Insert, List.mem_append, List.mem_singleton] at hc
          rcases hc with hc | hc
          · exact Or.inl hc
          · exact Or.inr ⟨id, rfl, by rw [hc]; exact hn⟩
      · simp only [hf] at hc
        rcases hr : env.IsReuse old pkt with _ | _
        · simp only [hr, Bool.false_eq_true, if_false] at hc
          exact Or.inl hc
        · simp only [hr, if_true] at hc
          rcases hn : self.NewConn env id (env.ConnKey id) pkt with _ | nc
          · simp only [hn, SessionTable.Remove] at hc
            exact Or.inl (List.mem_of_mem_filter hc)
          · simp only [hn, SessionTable.Insert, SessionTable.Remove, List.mem_append,
              List.mem_singleton] at hc
            rcases hc with hc | hc
            · exact Or.inl (List.mem_of_mem_filter hc)
            · exact Or.inr ⟨id, rfl, by rw [hc]; exact hn⟩
  refine ⟨fun id key c h => IPBasedAnalyzer.NewConn_some self env id key pkt c h, ?_, hmem, ?_, ?_⟩
  · intro id key h
    unfold IPBasedAnalyzer.NewConn
    rcases h with h | h
    · simp [h]
    · rcases hw : (self.WantConnection (ntohs id.src_port) (ntohs id.dst_port) pkt.payload).1
        with _ | _
      · simp [hw]
      · simp [h]
  · intro hall c hc
    rcases hmem c hc with h | ⟨id, _, hn⟩
    · exact hall c h
    · exact (IPBasedAnalyzer.NewConn_some self env id _ pkt c hn).2.2
  · intro id hb hn
    constructor
    · intro hf
      simp [IPBasedAnalyzer.AnalyzePacket, hb, hf, hn]
    · intro old hf hr
      simp [IPBasedAnalyzer.AnalyzePacket, hb, hf, hn, hr, SessionTable.Remove, Session.Event]

theorem IPBasedAnalyzer.AnalyzePacket_inserts_witness :
    (exampleAnalyzer.AnalyzePacket exampleEnv [] ⟨[1, 2, ntohs 4000, ntohs 80]⟩).1 = true ∧
    ∀ c ∈ (exampleAnalyzer.AnalyzePacket exampleEnv [] ⟨[1, 2, ntohs 4000, ntohs 80]⟩).2,
      c.TreeReady :=
  ⟨by decide,
   (IPBasedAnalyzer.AnalyzePacket_inserts exampleAnalyzer exampleEnv []
      ⟨[1, 2, ntohs 4000, ntohs 80]⟩).2.2.2.1 (by simp)⟩

theorem Manager.InstantiateAnalyzer_spec_witness :
    (Manager.InstantiateAnalyzer exampleRegistry 7 (exampleConn 80)).2 = some ⟨.other 7, 7⟩ :=
  (Manager.InstantiateAnalyzer_spec exampleRegistry 7 (exampleConn 80)).2.2.2.2.2
    ⟨7, "HTTP", some (fun _ => some ⟨.other 7, 0⟩), true⟩ (fun _ => some ⟨.other 7, 0⟩)
    ⟨.other 7, 0⟩ rfl rfl rfl rfl

theorem Manager.BuildInitialAnalyzerTree_installs_witness :
    ∃ root pia,
      (exampleManagerHttp.BuildInitialAnalyzerTree exampleRegistry
        (Manager.InitPreScript exampleRegistry) exampleGlobals 100 (exampleConn 80)
        ConnState.fresh).2.session_adapter = some root ∧
      (exampleManagerHttp.BuildInitialAnalyzerTree exampleRegistry
        (Manager.InitPreScript exampleRegistry) exampleGlobals 100 (exampleConn 80)
        ConnState.fresh).2.pia = some pia ∧
      pia ∈ root.children ∧
      root.calls = [LifecycleCall.Init, LifecycleCall.InitChildren] :=
  (Manager.BuildInitialAnalyzerTree_installs exampleManagerHttp exampleRegistry
    (Manager.InitPreScript exampleRegistry) exampleGlobals 100 (exampleConn 80)
    ConnState.fresh).1 (by decide)

/-! ## Theorems: attached analyzers and enabled components -/

theorem Manager.IsEnabled_EnabledFor (reg : ComponentManager) (tag : Tag)
    (h : Manager.IsEnabled reg tag = true) : reg.EnabledFor tag = true := by
  unfold Manager.IsEnabled at h
  unfold ComponentManager.EnabledFor
  by_cases ht : tag = Tag.unset
  · simp [ht] at h
  · simpa [ht] using h

theorem Manager.instantiateAll_enabled (reg : ComponentManager) (conn : Connection)
    (tags : List Tag) (a : Analyzer) (ha : a ∈ Manager.instantiateAll reg conn tags) :
    reg.EnabledFor a.tag = true := by
  obtain ⟨t, _, ht⟩ := (Manager.mem_instantiateAll reg conn tags a).1 ha
  have h := Manager.InstantiateAnalyzer_some reg t conn a ht
  rw [h.1]
  exact h.2

/-- The analyzers the selection attaches belong to enabled components. -/
theorem Manager.selectAnalyzers_enabled (m : Manager) (reg : ComponentManager) (g : Globals)
    (network_time : Int) (conn : Connection) (cs : ConnState) (check_port : Bool)
    (root : SessionAdapter) :
    ∃ added,
      (m.selectAnalyzers reg g network_time conn cs check_port root).1.children
        = root.children ++ added ∧
      ∀ a ∈ added, reg.EnabledFor a.tag = true := by
  by_cases hs : (m.GetScheduled network_time conn).2 = ∅
  · refine ⟨_, (Manager.selectAnalyzers_unscheduled m reg g network_time conn cs check_port
      root hs).1, ?_⟩
    intro a ha
    split at ha
    · exact Manager.instantiateAll_enabled reg conn _ a ha
    · exact absurd ha (List.not_mem_nil _)
  · exact ⟨_, (Manager.selectAnalyzers_scheduled m reg g network_time conn cs check_port
      root hs).1, fun a ha => Manager.instantiateAll_enabled reg conn _ a ha⟩

/-- C15 (as stated, refuted): in the example registry with the PIA_TCP component
disabled, `BuildInitialAnalyzerTree` for a TCP connection to port 80 attaches the HTTP
analyzer, whose component is enabled, and the PIA, whose component (tag 2) is not. -/
theorem Manager.attached_enabled_counterexample :
    (exampleManagerHttp.BuildInitialAnalyzerTree (Manager.DisableAnalyzer exampleRegistry 2).1
        (Manager.InitPreScript (Manager.DisableAnalyzer exampleRegistry 2).1) exampleGlobals
        100 (exampleConn 80) ConnState.fresh).2.session_adapter.map
      (fun root => root.children.map
        (fun a => (a, Manager.IsEnabled (Manager.DisableAnalyzer exampleRegistry 2).1 a.tag)))
      = some [(⟨.other 7, 7⟩, true), (⟨.PIA_TCP, 2⟩, false)] := by
  decide

/-- C15 (amended): with the cached tags as `InitPreScript` computed them, every analyzer
`ApplyScheduledAnalyzers` attaches to its parent, every analyzer the selection of
scheduled and port-registered analyzers attaches, and, for a TCP connection, every
child and packet-level child of the root `BuildInitialAnalyzerTree` installs other than
the PIA it attaches last, carries the tag of a component that is registered and
enabled. -/
theorem Manager.attached_enabled (m : Manager) (reg : ComponentManager) (tags : CachedTags)
    (g : Globals) (network_time : Int) (conn : Connection) (cs : ConnState)
    (htags : tags = Manager.InitPreScript reg) :
    (∀ (init : Bool) (p : SessionAdapter), ∃ parent added,
      (m.ApplyScheduledAnalyzers reg g network_time conn cs init (some p)).2.1 = some parent ∧
      parent.children = p.children ++ added ∧
      ∀ a ∈ added, reg.EnabledFor a.tag = true) ∧
    (∀ (check_port : Bool) (root : SessionAdapter), ∃ added,
      (m.selectAnalyzers reg g network_time conn cs check_port root).1.children
        = root.children ++ added ∧
      ∀ a ∈ added, reg.EnabledFor a.tag = true) ∧
    (conn.proto = .TRANSPORT_TCP →
      ∃ root rest,
        (m.BuildInitialAnalyzerTree reg tags g network_time conn cs).2.session_adapter
          = some root ∧
        root.children = rest ++ [⟨.PIA_TCP, reg.GetComponentTag "PIA_TCP"⟩] ∧
        ∀ a ∈ rest ++ root.packet_children, reg.EnabledFor a.tag = true) := by
  refine ⟨?_, fun check_port root =>
    Manager.selectAnalyzers_enabled m reg g network_time conn cs check_port root, ?_⟩
  · intro init p
    refine ⟨_, Manager.instantiateAll reg conn (m.GetScheduled network_time conn).2.inOrder,
      rfl, ?_, fun a ha => Manager.instantiateAll_enabled reg conn _ a ha⟩
    simp only [applyScheduledLoop_eq]
  · intro hp
    subst htags
    rw [Manager.BuildInitialAnalyzerTree_tcp m reg _ g network_time conn cs hp]
    obtain ⟨added, hadd, hen⟩ := Manager.selectAnalyzers_enabled m reg g network_time conn cs
      true (SessionAdapter.new ⟨.TCP_Analyzer, reg.GetComponentTag "TCP"⟩)
    refine ⟨_, _, rfl, rfl, ?_⟩
    intro a ha
    simp only [List.mem_append] at ha
    rcases ha with (ha | ha) | ha | ha
    · rw [hadd] at ha
      exact hen a (by simpa [SessionAdapter.new] using ha)
    · split at ha
      · rename_i hc
        rw [List.mem_singleton.1 ha]
        exact Manager.IsEnabled_EnabledFor reg _ hc.1
      · exact absurd ha (List.not_mem_nil _)
    · split at ha
      · rename_i hc
        rw [List.mem_singleton.1 ha]
        exact Manager.IsEnabled_EnabledFor reg _ hc
      · exact absurd ha (List.not_mem_nil _)
    · split at ha
      · rename_i hc
        rw [List.mem_singleton.1 ha]
        exact Manager.IsEnabled_EnabledFor reg _ hc
      · exact absurd ha (List.not_mem_nil _)

theorem Manager.attached_enabled_witness :
    ∃ root rest,
      (exampleManagerHttp.BuildInitialAnalyzerTree exampleRegistry
        (Manager.InitPreScript exampleRegistry) exampleGlobals 100 (exampleConn 80)
        ConnState.fresh).2.session_adapter = some root ∧
      root.children = rest ++ [⟨.PIA_TCP, exampleRegistry.GetComponentTag "PIA_TCP"⟩] ∧
      ∀ a ∈ rest ++ root.packet_children, exampleRegistry.EnabledFor a.tag = true :=
  (Manager.attached_enabled exampleManagerHttp exampleRegistry
    (Manager.InitPreScript exampleRegistry) exampleGlobals 100 (exampleConn 80)
    ConnState.fresh rfl).2.2 rfl

/-! ## Theorems: the stepping-stone analyzer, header truncation -/

/-- The analyzers the selection of `BuildInitialAnalyzerTree` attaches to the root of a
TCP connection: those instantiated from the scheduled tags, or, when nothing is scheduled
and `dpd_ignore_ports` is false, from the tags registered for the responder port. -/
theorem Manager.selectAnalyzers_children (m : Manager) (reg : ComponentManager) (g : Globals)
    (network_time : Int) (conn : Connection) (cs : ConnState)
    (h : conn.proto = .TRANSPORT_TCP) :
    (m.selectAnalyzers reg g network_time conn cs true
      (SessionAdapter.new ⟨.TCP_Analyzer, reg.GetComponentTag "TCP"⟩)).1.children =
      Manager.instantiateAll reg conn
        (if (m.GetScheduled network_time conn).2 ≠ ∅ then (m.GetScheduled network_time conn).2
          else if g.dpd_ignore_ports = false then
            (m.LookupPort .TRANSPORT_TCP (ntohs conn.resp_port) false).2.getD ∅
          else ∅).inOrder := by
  have hnew : (SessionAdapter.new ⟨.TCP_Analyzer, reg.GetComponentTag "TCP"⟩).children = [] := rfl
  by_cases hs : (m.GetScheduled network_time conn).2 = ∅
  · have hsel := (Manager.selectAnalyzers_unscheduled m reg g network_time conn cs true
      (SessionAdapter.new ⟨.TCP_Analyzer, reg.GetComponentTag "TCP"⟩) hs).1
    rw [hnew] at hsel
    simp only [List.nil_append, true_and, h] at hsel
    rw [hsel, if_neg (not_not.2 hs)]
    by_cases hig : g.dpd_ignore_ports = false
    · rw [if_pos hig, if_pos hig]
    · rw [if_neg hig, if_neg hig]
      rfl
  · have hsel := (Manager.selectAnalyzers_scheduled m reg g network_time conn cs true
      (SessionAdapter.new ⟨.TCP_Analyzer, reg.GetComponentTag "TCP"⟩) hs).1
    rw [hnew] at hsel
    simp only [List.nil_append] at hsel
    rw [hsel, if_pos hs]

/-- The analyzers instantiated from the tags of a set carry a given tag exactly when
the tag is in the set and `InstantiateAnalyzer` yields an analyzer for it. -/
theorem Manager.tag_mem_instantiateAll (reg : ComponentManager) (conn : Connection)
    (s : tag_set) (t : Tag) :
    (∃ a ∈ Manager.instantiateAll reg conn s.inOrder, a.tag = t) ↔
      t ∈ s ∧ (Manager.InstantiateAnalyzer reg t conn).2.isSome = true := by
  constructor
  · rintro ⟨a, ha, hat⟩
    obtain ⟨u, hu, hi⟩ := (Manager.mem_instantiateAll reg conn s.inOrder a).1 ha
    have hut : u = t := (Manager.InstantiateAnalyzer_some reg u conn a hi).1.symm.trans hat
    subst hut
    exact ⟨(tag_set.mem_inOrder s u).1 hu, by rw [hi]; rfl⟩
  · rintro ⟨hts, hsome⟩
    rcases hi : (Manager.InstantiateAnalyzer reg t conn).2 with _ | a
    · rw [hi] at hsome
      exact absurd hsome (by decide)
    · exact ⟨a, (Manager.mem_instantiateAll reg conn s.inOrder a).2
        ⟨t, (tag_set.mem_inOrder s t).2 hts, hi⟩,
        (Manager.InstantiateAnalyzer_some reg t conn a hi).1⟩

/-- C21 (as stated, refuted): the STEPPINGSTONE component, enabled, has a factory, and
its tag (3) is registered for 22/tcp and 80/tcp.  A connection from 192.0.2.5, which is
in `stp_skip_src`, to port 22 gets a stepping-stone child: the analyzer instantiated for
the port.  So does a connection from 10.0.0.1 to port 80, which is not one of 22, 23 and
513. -/
theorem Manager.BuildInitialAnalyzerTree_stepping_counterexample :
    (exampleConnSkipped 22).orig_addr ∈ exampleGlobals.stp_skip_src ∧
    (exampleManagerBuiltin.BuildInitialAnalyzerTree exampleRegistryFactories
        (Manager.InitPreScript exampleRegistryFactories) exampleGlobals 100
        (exampleConnSkipped 22) ConnState.fresh).2.session_adapter.map
          (fun root => root.children)
      = some [⟨.SteppingStone_Analyzer, 3⟩, ⟨.PIA_TCP, 2⟩] ∧
    ntohs (exampleConn 80).resp_port = 80 ∧
    (exampleManagerBuiltin.BuildInitialAnalyzerTree exampleRegistryFactories
        (Manager.InitPreScript exampleRegistryFactories) exampleGlobals 100
        (exampleConn 80) ConnState.fresh).2.session_adapter.map (fun root => root.children)
      = some [⟨.SteppingStone_Analyzer, 3⟩, ⟨.PIA_TCP, 2⟩] := by
  decide

/-- C21 (amended): for a TCP connection the children of the root
`BuildInitialAnalyzerTree` installs are the analyzers of the selection (those
instantiated from the scheduled tags, or, when nothing is scheduled and
`dpd_ignore_ports` is false, from the tags registered for the responder port), then what
the stepping-stone step attaches, then the PIA.  The stepping-stone step attaches one
stepping-stone analyzer exactly when `IsEnabled(analyzer_stepping)` holds, the responder
port (host order) is 22, 23 or 513, and the originator is not in `stp_skip_src`, and
nothing otherwise.  Hence the root has a child of the stepping-stone class exactly when
these conditions hold or the selection attached one, and a child attached before the PIA
carries the STEPPINGSTONE tag exactly when these conditions hold or that tag is among
the tags the selection instantiates from and `InstantiateAnalyzer` yields an analyzer
for it; the selection attaches an analyzer carrying a given tag exactly in that case.
When the selection attached no analyzer of the stepping-stone class and none carrying
the STEPPINGSTONE tag, the root has a stepping-stone child, in either sense, exactly
when the conditions hold, and none for an originator listed in `stp_skip_src`.  No
packet-level child is a stepping-stone analyzer. -/
theorem Manager.BuildInitialAnalyzerTree_stepping (m : Manager) (reg : ComponentManager)
    (tags : CachedTags) (g : Globals) (network_time : Int) (conn : Connection) (cs : ConnState)
    (h : conn.proto = .TRANSPORT_TCP) :
    ∃ root selected step,
      (m.BuildInitialAnalyzerTree reg tags g network_time conn cs).2.session_adapter
        = some root ∧
      root.children = selected ++ step ++ [⟨.PIA_TCP, reg.GetComponentTag "PIA_TCP"⟩] ∧
      selected = Manager.instantiateAll reg conn
        (if (m.GetScheduled network_time conn).2 ≠ ∅ then (m.GetScheduled network_time conn).2
          else if g.dpd_ignore_ports = false then
            (m.LookupPort .TRANSPORT_TCP (ntohs conn.resp_port) false).2.getD ∅
          else ∅).inOrder ∧
      (step = [⟨.SteppingStone_Analyzer, reg.GetComponentTag "STEPPINGSTONE"⟩] ↔
        (Manager.IsEnabled reg tags.analyzer_stepping = true ∧
          (ntohs conn.resp_port = 22 ∨ ntohs conn.resp_port = 23 ∨
            ntohs conn.resp_port = 513) ∧
          conn.orig_addr ∉ g.stp_skip_src)) ∧
      (step = [] ↔
        ¬ (Manager.IsEnabled reg tags.analyzer_stepping = true ∧
          (ntohs conn.resp_port = 22 ∨ ntohs conn.resp_port = 23 ∨
            ntohs conn.resp_port = 513) ∧
          conn.orig_addr ∉ g.stp_skip_src)) ∧
      (conn.orig_addr ∈ g.stp_skip_src → step = []) ∧
      ((∃ c ∈ root.children, c.cls = .SteppingStone_Analyzer) ↔
        ((Manager.IsEnabled reg tags.analyzer_stepping = true ∧
          (ntohs conn.resp_port = 22 ∨ ntohs conn.resp_port = 23 ∨
            ntohs conn.resp_port = 513) ∧
          conn.orig_addr ∉ g.stp_skip_src) ∨
         ∃ a ∈ selected, a.cls = .SteppingStone_Analyzer)) ∧
      ((∃ c ∈ selected ++ step, c.tag = reg.GetComponentTag "STEPPINGSTONE") ↔
        ((Manager.IsEnabled reg tags.analyzer_stepping = true ∧
          (ntohs conn.resp_port = 22 ∨ ntohs conn.resp_port = 23 ∨
            ntohs conn.resp_port = 513) ∧
          conn.orig_addr ∉ g.stp_skip_src) ∨
         (reg.GetComponentTag "STEPPINGSTONE" ∈
            (if (m.GetScheduled network_time conn).2 ≠ ∅ then
                (m.GetScheduled network_time conn).2
              else if g.dpd_ignore_ports = false then
                (m.LookupPort .TRANSPORT_TCP (ntohs conn.resp_port) false).2.getD ∅
              else ∅) ∧
          (Manager.InstantiateAnalyzer reg (reg.GetComponentTag "STEPPINGSTONE") conn).2.isSome
            = true))) ∧
      (∀ t, (∃ a ∈ selected, a.tag = t) ↔
        (t ∈ (if (m.GetScheduled network_time conn).2 ≠ ∅ then
                (m.GetScheduled network_time conn).2
              else if g.dpd_ignore_ports = false then
                (m.LookupPort .TRANSPORT_TCP (ntohs conn.resp_port) false).2.getD ∅
              else ∅) ∧
          (Manager.InstantiateAnalyzer reg t conn).2.isSome = true)) ∧
      ((∀ a ∈ selected, a.cls ≠ .SteppingStone_Analyzer ∧
          a.tag ≠ reg.GetComponentTag "STEPPINGSTONE") →
        ((∃ c ∈ root.children, c.cls = .SteppingStone_Analyzer) ↔
          (Manager.IsEnabled reg tags.analyzer_stepping = true ∧
            (ntohs conn.resp_port = 22 ∨ ntohs conn.resp_port = 23 ∨
              ntohs conn.resp_port = 513) ∧
            conn.orig_addr ∉ g.stp_skip_src)) ∧
        ((∃ c ∈ selected ++ step, c.tag = reg.GetComponentTag "STEPPINGSTONE") ↔
          (Manager.IsEnabled reg tags.analyzer_stepping = true ∧
            (ntohs conn.resp_port = 22 ∨ ntohs conn.resp_port = 23 ∨
              ntohs conn.resp_port = 513) ∧
            conn.orig_addr ∉ g.stp_skip_src)) ∧
        (conn.orig_addr ∈ g.stp_skip_src →
          (∀ c ∈ root.children, c.cls ≠ .SteppingStone_Analyzer) ∧
          (∀ c ∈ selected ++ step, c.tag ≠ reg.GetComponentTag "STEPPINGSTONE"))) ∧
      (∀ a ∈ root.packet_children, a.cls ≠ .SteppingStone_Analyzer) := by
  rw [Manager.BuildInitialAnalyzerTree_tcp m reg tags g network_time conn cs h]
  have hclass : ∀ sel : List Analyzer,
      (∃ c ∈ sel ++
          (if Manager.IsEnabled reg tags.analyzer_stepping = true ∧
              (ntohs conn.resp_port = 22 ∨ ntohs conn.resp_port = 23 ∨
                ntohs conn.resp_port = 513) ∧
              conn.orig_addr ∉ g.stp_skip_src
            then [(⟨.SteppingStone_Analyzer, reg.GetComponentTag "STEPPINGSTONE"⟩ : Analyzer)]
            else []) ++
          [(⟨.PIA_TCP, reg.GetComponentTag "PIA_TCP"⟩ : Analyzer)],
        c.cls = .SteppingStone_Analyzer) ↔
      ((Manager.IsEnabled reg tags.analyzer_stepping = true ∧
          (ntohs conn.resp_port = 22 ∨ ntohs conn.resp_port = 23 ∨
            ntohs conn.resp_port = 513) ∧
          conn.orig_addr ∉ g.stp_skip_src) ∨
        ∃ a ∈ sel, a.cls = .SteppingStone_Analyzer) := by
    intro sel
    by_cases hc : (Manager.IsEnabled reg tags.analyzer_stepping = true ∧
        (ntohs conn.resp_port = 22 ∨ ntohs conn.resp_port = 23 ∨
          ntohs conn.resp_port = 513) ∧
        conn.orig_addr ∉ g.stp_skip_src)
    · rw [if_pos hc]
      constructor
      · exact fun _ => Or.inl hc
      · exact fun _ => ⟨⟨.SteppingStone_Analyzer, reg.GetComponentTag "STEPPINGSTONE"⟩,
          by simp, rfl⟩
    · rw [if_neg hc]
      constructor
      · rintro ⟨c, hmem, hcls⟩
        simp only [List.append_nil, List.mem_append, List.mem_singleton] at hmem
        rcases hmem with hmem | hmem
        · exact Or.inr ⟨c, hmem, hcls⟩
        · rw [hmem] at hcls
          exact absurd hcls (by simp)
      · rintro (hc2 | ⟨a, ha, hcls⟩)
        · exact absurd hc2 hc
        · exact ⟨a, by simp [ha], hcls⟩
  have htag : ∀ sel : List Analyzer,
      (∃ c ∈ sel ++
          (if Manager.IsEnabled reg tags.analyzer_stepping = true ∧
              (ntohs conn.resp_port = 22 ∨ ntohs conn.resp_port = 23 ∨
                ntohs conn.resp_port = 513) ∧
              conn.orig_addr ∉ g.stp_skip_src
            then [(⟨.SteppingStone_Analyzer, reg.GetComponentTag "STEPPINGSTONE"⟩ : Analyzer)]
            else []),
        c.tag = reg.GetComponentTag "STEPPINGSTONE") ↔
      ((Manager.IsEnabled reg tags.analyzer_stepping = true ∧
          (ntohs conn.resp_port = 22 ∨ ntohs conn.resp_port = 23 ∨
            ntohs conn.resp_port = 513) ∧
          conn.orig_addr ∉ g.stp_skip_src) ∨
        ∃ a ∈ sel, a.tag = reg.GetComponentTag "STEPPINGSTONE") := by
    intro sel
    by_cases hc : (Manager.IsEnabled reg tags.analyzer_stepping = true ∧
        (ntohs conn.resp_port = 22 ∨ ntohs conn.resp_port = 23 ∨
          ntohs conn.resp_port = 513) ∧
        conn.orig_addr ∉ g.stp_skip_src)
    · rw [if_pos hc]
      constructor
      · exact fun _ => Or.inl hc
      · exact fun _ => ⟨⟨.SteppingStone_Analyzer, reg.GetComponentTag "STEPPINGSTONE"⟩,
          by simp, rfl⟩
    · rw [if_neg hc, List.append_nil]
      constructor
      · exact fun hex => Or.inr hex
      · rintro (hc2 | hex)
        · exact absurd hc2 hc
        · exact hex
  refine ⟨_, _, _, rfl, rfl,
    Manager.selectAnalyzers_children m reg g network_time conn cs h, ?_, ?_, ?_,
    hclass _, ?_, ?_, ?_, ?_⟩
  · by_cases hc : (Manager.IsEnabled reg tags.analyzer_stepping = true ∧
        (ntohs conn.resp_port = 22 ∨ ntohs conn.resp_port = 23 ∨
          ntohs conn.resp_port = 513) ∧
        conn.orig_addr ∉ g.stp_skip_src)
    · rw [if_pos hc]
      exact ⟨fun _ => hc, fun _ => rfl⟩
    · rw [if_neg hc]
      simp [hc]
  · by_cases hc : (Manager.IsEnabled reg tags.analyzer_stepping = true ∧
        (ntohs conn.resp_port = 22 ∨ ntohs conn.resp_port = 23 ∨
          ntohs conn.resp_port = 513) ∧
        conn.orig_addr ∉ g.stp_skip_src)
    · rw [if_pos hc]
      simp [hc]
    · rw [if_neg hc]
      simp [hc]
  · intro hs
    rw [if_neg (fun hc => hc.2.2 hs)]
  · rw [htag, Manager.selectAnalyzers_children m reg g network_time conn cs h,
      Manager.tag_mem_instantiateAll]
  · intro t
    rw [Manager.selectAnalyzers_children m reg g network_time conn cs h]
    exact Manager.tag_mem_instantiateAll reg conn _ t
  · intro hnone
    have hiff := hclass (m.selectAnalyzers reg g network_time conn cs true
      (SessionAdapter.new ⟨.TCP_Analyzer, reg.GetComponentTag "TCP"⟩)).1.children
    have hiff2 := htag (m.selectAnalyzers reg g network_time conn cs true
      (SessionAdapter.new ⟨.TCP_Analyzer, reg.GetComponentTag "TCP"⟩)).1.children
    have hno : ¬ ∃ a ∈ (m.selectAnalyzers reg g network_time conn cs true
        (SessionAdapter.new ⟨.TCP_Analyzer, reg.GetComponentTag "TCP"⟩)).1.children,
        a.cls = .SteppingStone_Analyzer := fun ⟨a, ha, hcls⟩ => (hnone a ha).1 hcls
    have hno2 : ¬ ∃ a ∈ (m.selectAnalyzers reg g network_time conn cs true
        (SessionAdapter.new ⟨.TCP_Analyzer, reg.GetComponentTag "TCP"⟩)).1.children,
        a.tag = reg.GetComponentTag "STEPPINGSTONE" := fun ⟨a, ha, ht⟩ => (hnone a ha).2 ht
    refine ⟨⟨fun hex => ?_, fun hc => hiff.2 (Or.inl hc)⟩,
      ⟨fun hex => ?_, fun hc => hiff2.2 (Or.inl hc)⟩, fun hskip => ⟨?_, ?_⟩⟩
    · rcases hiff.1 hex with hc | hsel
      · exact hc
      · exact absurd hsel hno
    · rcases hiff2.1 hex with hc | hsel
      · exact hc
      · exact absurd hsel hno2
    · intro c hmem hcls
      rcases hiff.1 ⟨c, hmem, hcls⟩ with hc | hsel
      · exact hc.2.2 hskip
      · exact hno hsel
    · intro c hmem ht
      rcases hiff2.1 ⟨c, hmem, ht⟩ with hc | hsel
      · exact hc.2.2 hskip
      · exact hno2 hsel
  · intro a ha
    simp only [List.mem_append] at ha
    rcases ha with ha | ha
    · split at ha
      · rw [List.mem_singleton.1 ha]
        simp
      · exact absurd ha (List.not_mem_nil _)
    · split at ha
      · rw [List.mem_singleton.1 ha]
        simp
      · exact absurd ha (List.not_mem_nil _)

theorem Manager.BuildInitialAnalyzerTree_stepping_witness :
    (exampleManagerEmpty.BuildInitialAnalyzerTree exampleRegistry
        (Manager.InitPreScript exampleRegistry) exampleGlobals 100 (exampleConnSkipped 22)
        ConnState.fresh).2.session_adapter.map (fun root => root.children)
      = some [⟨.PIA_TCP, 2⟩] ∧
    (exampleManagerEmpty.BuildInitialAnalyzerTree exampleRegistry
        (Manager.InitPreScript exampleRegistry) exampleGlobals 100 (exampleConn 22)
        ConnState.fresh).2.session_adapter.map (fun root => root.children)
      = some [⟨.SteppingStone_Analyzer, 3⟩, ⟨.PIA_TCP, 2⟩] := by
  obtain ⟨root, selected, step, h1, h2, h3, _, _, h6, _⟩ :=
    Manager.BuildInitialAnalyzerTree_stepping
      exampleManagerEmpty exampleRegistry (Manager.InitPreScript exampleRegistry) exampleGlobals
      100 (exampleConnSkipped 22) ConnState.fresh rfl
  obtain ⟨root2, selected2, step2, k1, k2, k3, k4, _⟩ :=
    Manager.BuildInitialAnalyzerTree_stepping
      exampleManagerEmpty exampleRegistry (Manager.InitPreScript exampleRegistry) exampleGlobals
      100 (exampleConn 22) ConnState.fresh rfl
  have hs : step = [] := h6 (by decide)
  have hs2 : step2 = [⟨.SteppingStone_Analyzer, exampleRegistry.GetComponentTag "STEPPINGSTONE"⟩] :=
    k4.2 (by decide)
  have hsel : selected = [] := by
    rw [h3]
    decide
  have hsel2 : selected2 = [] := by
    rw [k3]
    decide
  subst hs
  subst hs2
  subst hsel
  subst hsel2
  constructor
  · rw [h1, Option.map_some', h2]
    decide
  · rw [k1, Option.map_some', k2]
    decide

/-- C23: `CheckHeaderTrunc` returns true exactly when the IP payload length and the
remaining byte count are both at least `min_hdr_len`.  When it returns false it emits
one weird notice: `truncated_header` if the IP payload length is below `min_hdr_len`,
whatever `remaining` is, and `internally_truncated_header` otherwise.  When it returns
true it emits none. -/
theorem IPBasedAnalyzer.CheckHeaderTrunc_spec (self : IPBasedAnalyzer)
    (min_hdr_len remaining : Nat) (packet : Packet) :
    ((self.CheckHeaderTrunc min_hdr_len remaining packet).1 = true ↔
      (min_hdr_len ≤ packet.PayloadLen ∧ min_hdr_len ≤ remaining)) ∧
    ((self.CheckHeaderTrunc min_hdr_len remaining packet).1 = false →
      (self.CheckHeaderTrunc min_hdr_len remaining packet).2.length = 1) ∧
    (packet.PayloadLen < min_hdr_len →
      self.CheckHeaderTrunc min_hdr_len remaining packet = (false, ["truncated_header"])) ∧
    (min_hdr_len ≤ packet.PayloadLen → remaining < min_hdr_len →
      self.CheckHeaderTrunc min_hdr_len remaining packet
        = (false, ["internally_truncated_header"])) ∧
    ((self.CheckHeaderTrunc min_hdr_len remaining packet).1 = true →
      (self.CheckHeaderTrunc min_hdr_len remaining packet).2 = []) := by
  by_cases h1 : packet.PayloadLen < min_hdr_len
  · have hv : self.CheckHeaderTrunc min_hdr_len remaining packet
        = (false, ["truncated_header"]) := by
      unfold IPBasedAnalyzer.CheckHeaderTrunc
      rw [if_pos h1]
    rw [hv]
    refine ⟨?_, fun _ => rfl, fun _ => rfl, fun h => absurd h1 (not_lt.2 h), ?_⟩
    · constructor
      · intro hf
        exact absurd hf (by decide)
      · intro hle
        exact absurd h1 (not_lt.2 hle.1)
    · intro hf
      exact absurd hf (by decide)
  · by_cases h2 : remaining < min_hdr_len
    · have hv : self.CheckHeaderTrunc min_hdr_len remaining packet
          = (false, ["internally_truncated_header"]) := by
        unfold IPBasedAnalyzer.CheckHeaderTrunc
        rw [if_neg h1, if_pos h2]
      rw [hv]
      refine ⟨?_, fun _ => rfl, fun h => absurd h h1, fun _ _ => rfl, ?_⟩
      · constructor
        · intro hf
          exact absurd hf (by decide)
        · intro hle
          exact absurd h2 (not_lt.2 hle.2)
      · intro hf
        exact absurd hf (by decide)
    · have hv : self.CheckHeaderTrunc min_hdr_len remaining packet = (true, []) := by
        unfold IPBasedAnalyzer.CheckHeaderTrunc
        rw [if_neg h1, if_neg h2]
      rw [hv]
      refine ⟨?_, ?_, fun h => absurd h h1, fun _ h => absurd h h2, fun _ => rfl⟩
      · exact ⟨fun _ => ⟨not_lt.1 h1, not_lt.1 h2⟩, fun _ => rfl⟩
      · intro hf
        exact absurd hf (by decide)

theorem IPBasedAnalyzer.CheckHeaderTrunc_spec_witness :
    exampleAnalyzer.CheckHeaderTrunc 20 40 ⟨[1, 2, 3, 4, 5, 6, 7, 8]⟩
      = (false, ["truncated_header"]) ∧
    exampleAnalyzer.CheckHeaderTrunc 8 4 ⟨[1, 2, 3, 4, 5, 6, 7, 8]⟩
      = (false, ["internally_truncated_header"]) :=
  ⟨(IPBasedAnalyzer.CheckHeaderTrunc_spec exampleAnalyzer 20 40
      ⟨[1, 2, 3, 4, 5, 6, 7, 8]⟩).2.2.1 (by decide),
   (IPBasedAnalyzer.CheckHeaderTrunc_spec exampleAnalyzer 8 4
      ⟨[1, 2, 3, 4, 5, 6, 7, 8]⟩).2.2.2.1 (by decide) (by decide)⟩

/-! ## Theorems: the order of `ConnIndex` -/

/-- The comparison the containers use is `ltBy` at the order of the address values. -/
theorem connIndex_lt_eq_ltBy (a b : ConnIndex) :
    ConnIndex.lt a b = ConnIndex.ltBy (fun x y => decide (x < y)) a b := rfl

/-- What `operator<` computes, read off its four tests. -/
theorem connIndex_ltBy_iff (less : IPAddr → IPAddr → Bool) (a b : ConnIndex) :
    ConnIndex.ltBy less a b = true ↔
      (a.orig ≠ b.orig ∧ less a.orig b.orig = true) ∨
      (a.orig = b.orig ∧
        ((a.resp ≠ b.resp ∧ less a.resp b.resp = true) ∨
         (a.resp = b.resp ∧
           (a.proto < b.proto ∨ (a.proto = b.proto ∧ a.resp_p < b.resp_p))))) := by
  unfold ConnIndex.ltBy
  by_cases ho : a.orig = b.orig
  · by_cases hr : a.resp = b.resp
    · by_cases hp : a.proto = b.proto
      · by_cases hq : a.resp_p = b.resp_p
        · simp [ho, hr, hp, hq]
        · simp [ho, hr, hp, hq]
      · simp only [ne_eq, ho, not_true_eq_false, if_false, hr, hp, not_false_eq_true, if_true,
          decide_eq_true_eq, false_and, true_and, false_or, or_false]
    · simp [ho, hr]
  · simp [ho]

/-- With an irreflexive comparison of addresses, `operator<` is the lexicographic order
on (orig, resp, proto, resp_p). -/
theorem connIndex_ltBy_lex (less : IPAddr → IPAddr → Bool) (hirr : ∀ x, less x x = false)
    (a b : ConnIndex) :
    ConnIndex.ltBy less a b = true ↔
      less a.orig b.orig = true ∨
      (a.orig = b.orig ∧
        (less a.resp b.resp = true ∨
         (a.resp = b.resp ∧
           (a.proto < b.proto ∨ (a.proto = b.proto ∧ a.resp_p < b.resp_p))))) := by
  have hne : ∀ x y, less x y = true → x ≠ y := by
    intro x y hxy hxe
    rw [hxe, hirr y] at hxy
    exact absurd hxy (by decide)
  rw [connIndex_ltBy_iff]
  constructor
  · rintro (⟨_, h⟩ | ⟨ho, ⟨_, h⟩ | h⟩)
    · exact Or.inl h
    · exact Or.inr ⟨ho, Or.inl h⟩
    · exact Or.inr ⟨ho, Or.inr h⟩
  · rintro (h | ⟨ho, h | h⟩)
    · exact Or.inl ⟨hne _ _ h, h⟩
    · exact Or.inr ⟨ho, Or.inl ⟨hne _ _ h, h⟩⟩
    · exact Or.inr ⟨ho, Or.inr h⟩

theorem connIndex_ltBy_irrefl (less : IPAddr → IPAddr → Bool) (hirr : ∀ x, less x x = false)
    (a : ConnIndex) : ConnIndex.ltBy less a a = false := by
  rcases hl : ConnIndex.ltBy less a a with _ | _
  · rfl
  · exfalso
    rcases (connIndex_ltBy_lex less hirr a a).1 hl with h | ⟨_, h | ⟨_, h | ⟨_, h⟩⟩⟩
    · rw [hirr] at h
      exact absurd h (by decide)
    · rw [hirr] at h
      exact absurd h (by decide)
    · exact absurd h (Nat.lt_irrefl _)
    · exact absurd h (Nat.lt_irrefl _)

theorem connIndex_ltBy_trans (less : IPAddr → IPAddr → Bool) (hirr : ∀ x, less x x = false)
    (htrans : ∀ x y z, less x y = true → less y z = true → less x z = true)
    (a b c : ConnIndex) (hab : ConnIndex.ltBy less a b = true)
    (hbc : ConnIndex.ltBy less b c = true) : ConnIndex.ltBy less a c = true := by
  rw [connIndex_ltBy_lex less hirr] at hab hbc ⊢
  rcases hab with h1 | ⟨ho1, h1⟩
  · rcases hbc with h2 | ⟨ho2, _⟩
    · exact Or.inl (htrans _ _ _ h1 h2)
    · exact Or.inl (ho2 ▸ h1)
  · rcases hbc with h2 | ⟨ho2, h2⟩
    · exact Or.inl (ho1 ▸ h2)
    · refine Or.inr ⟨ho1.trans ho2, ?_⟩
      rcases h1 with h1 | ⟨hr1, h1⟩
      · rcases h2 with h2 | ⟨hr2, _⟩
        · exact Or.inl (htrans _ _ _ h1 h2)
        · exact Or.inl (hr2 ▸ h1)
      · rcases h2 with h2 | ⟨hr2, h2⟩
        · exact Or.inl (hr1 ▸ h2)
        · refine Or.inr ⟨hr1.trans hr2, ?_⟩
          omega

theorem connIndex_ltBy_total (less : IPAddr → IPAddr → Bool) (hirr : ∀ x, less x x = false)
    (htri : ∀ x y, less x y = true ∨ x = y ∨ less y x = true) (a b : ConnIndex) :
    ConnIndex.ltBy less a b = true ∨ ConnIndex.ltBy less b a = true ∨ a = b := by
  rw [connIndex_ltBy_lex less hirr, connIndex_ltBy_lex less hirr]
  obtain ⟨ao, ar, ap, at_⟩ := a
  obtain ⟨bo, br, bp, bt⟩ := b
  simp only [ConnIndex.mk.injEq]
  rcases htri ao bo with h | h | h
  · exact Or.inl (Or.inl h)
  · subst h
    rcases htri ar br with h | h | h
    · exact Or.inl (Or.inr ⟨rfl, Or.inl h⟩)
    · subst h
      rcases Nat.lt_trichotomy at_ bt with h | h | h
      · exact Or.inl (Or.inr ⟨rfl, Or.inr ⟨rfl, Or.inl h⟩⟩)
      · subst h
        rcases Nat.lt_trichotomy ap bp with h | h | h
        · exact Or.inl (Or.inr ⟨rfl, Or.inr ⟨rfl, Or.inr ⟨rfl, h⟩⟩⟩)
        · subst h
          exact Or.inr (Or.inr ⟨rfl, rfl, rfl, rfl⟩)
        · exact Or.inr (Or.inl (Or.inr ⟨rfl, Or.inr ⟨rfl, Or.inr ⟨rfl, h⟩⟩⟩))
      · exact Or.inr (Or.inl (Or.inr ⟨rfl, Or.inr ⟨rfl, Or.inl h⟩⟩))
    · exact Or.inr (Or.inl (Or.inr ⟨rfl, Or.inl h⟩))
  · exact Or.inr (Or.inl (Or.inl h))

/-- C22: let the comparison of addresses be a strict total order (irreflexive,
transitive, and any two distinct addresses comparable).  Then `ConnIndex::operator<` is
irreflexive and transitive; for any two indices exactly one of `a < b`, `b < a`, and
`a`, `b` agreeing on all four fields holds; and `a < b` is the lexicographic comparison
of (orig, resp, proto, resp_p). -/
theorem connIndex_lt_strict_total (less : IPAddr → IPAddr → Bool)
    (hirr : ∀ x, less x x = false)
    (htrans : ∀ x y z, less x y = true → less y z = true → less x z = true)
    (htri : ∀ x y, less x y = true ∨ x = y ∨ less y x = true) :
    (∀ a, ConnIndex.ltBy less a a = false) ∧
    (∀ a b c, ConnIndex.ltBy less a b = true → ConnIndex.ltBy less b c = true →
      ConnIndex.ltBy less a c = true) ∧
    (∀ a b : ConnIndex,
      (ConnIndex.ltBy less a b = true ∨ ConnIndex.ltBy less b a = true ∨
        (a.orig = b.orig ∧ a.resp = b.resp ∧ a.resp_p = b.resp_p ∧ a.proto = b.proto)) ∧
      ¬ (ConnIndex.ltBy less a b = true ∧ ConnIndex.ltBy less b a = true) ∧
      ¬ (ConnIndex.ltBy less a b = true ∧
        (a.orig = b.orig ∧ a.resp = b.resp ∧ a.resp_p = b.resp_p ∧ a.proto = b.proto)) ∧
      ¬ (ConnIndex.ltBy less b a = true ∧
        (a.orig = b.orig ∧ a.resp = b.resp ∧ a.resp_p = b.resp_p ∧ a.proto = b.proto))) ∧
    (∀ a b : ConnIndex,
      ConnIndex.ltBy less a b = true ↔
        less a.orig b.orig = true ∨
        (a.orig = b.orig ∧
          (less a.resp b.resp = true ∨
           (a.resp = b.resp ∧
             (a.proto < b.proto ∨ (a.proto = b.proto ∧ a.resp_p < b.resp_p)))))) := by
  have hfields : ∀ a b : ConnIndex,
      (a.orig = b.orig ∧ a.resp = b.resp ∧ a.resp_p = b.resp_p ∧ a.proto = b.proto) ↔ a = b := by
    intro a b
    obtain ⟨ao, ar, ap, at_⟩ := a
    obtain ⟨bo, br, bp, bt⟩ := b
    simp
  have hne : ∀ a b, ConnIndex.ltBy less a b = true → a ≠ b := by
    intro a b hab he
    rw [he, connIndex_ltBy_irrefl less hirr b] at hab
    exact absurd hab (by decide)
  refine ⟨connIndex_ltBy_irrefl less hirr, connIndex_ltBy_trans less hirr htrans, ?_,
    connIndex_ltBy_lex less hirr⟩
  intro a b
  refine ⟨?_, ?_, ?_, ?_⟩
  · rw [hfields]
    exact connIndex_ltBy_total less hirr htri a b
  · rintro ⟨hab, hba⟩
    have haa := connIndex_ltBy_trans less hirr htrans a b a hab hba
    rw [connIndex_ltBy_irrefl less hirr a] at haa
    exact absurd haa (by decide)
  · rintro ⟨hab, he⟩
    exact hne a b hab ((hfields a b).1 he)
  · rintro ⟨hba, he⟩
    exact hne b a hba ((hfields a b).1 he).symm

theorem connIndex_lt_strict_total_witness :
    (∀ a, ConnIndex.lt a a = false) ∧
    (∀ a b c, ConnIndex.lt a b = true → ConnIndex.lt b c = true → ConnIndex.lt a c = true) ∧
    ConnIndex.lt ⟨1, 2, 80, 1⟩ ⟨1, 2, 22, 2⟩ = true ∧
    ConnIndex.lt ⟨1, 2, 22, 2⟩ ⟨1, 2, 80, 1⟩ = false := by
  have h := connIndex_lt_strict_total (fun x y => decide (x < y))
    (fun x => by simp)
    (fun x y z hxy hyz => by
      have h1 : x < y := by simpa using hxy
      have h2 : y < z := by simpa using hyz
      simpa using Nat.lt_trans h1 h2)
    (fun x y => by
      rcases Nat.lt_trichotomy x y with h | h | h
      · exact Or.inl (by simpa using h)
      · exact Or.inr (Or.inl h)
      · exact Or.inr (Or.inr (by simpa using h)))
  exact ⟨h.1, h.2.1, by decide, by decide⟩

end Zeek
